import Mathlib

/-- 2^32, the modulus of `uint32_t`. -/
def W32 : Nat := 4294967296

/-- 2^64, the modulus of `size_t` / `uint64_t`. -/
def W64 : Nat := 18446744073709551616

/-- `TimerMgr::kTimerBucketNum` (B = 60). -/
def kTimerBucketNum : Nat := 60

/-- `TimerMgr::TimerObj`: one arena slot.  The `TimerID` union is kept as its
two fields `idPos`/`idSeq` (`timer_id_obj.pos`, `timer_id_obj.seq`, both
`uint32_t`); the 64-bit `id` view of the union is `storedId` below. -/
structure TimerObj where
  prev : Nat
  next : Nat
  used : Bool
  interval_ms : Int
  max_fire_count : Int
  fire_count : Int
  expire : Int
  idPos : Nat
  idSeq : Nat
  timer_data : Nat
  deriving DecidableEq, Repr

/-- The all-zero slot: the model's stand-in for the zero-initialised memory the
fresh `Init` lays the arena out in. -/
def defaultObj : TimerObj := ⟨0, 0, false, 0, 0, 0, 0, 0, 0, 0⟩

/-- `TimerMgr::TimerHead` plus the two arrays it addresses:
the whole mutable state of one wheel. -/
structure TimerState where
  max_num : Nat
  used_num : Nat
  cur_bucket_pos : Nat
  cur_bucket_time : Nat
  free_head : Nat
  seq : Nat
  buckets : Nat → Nat
  objs : Nat → TimerObj

/-- The `uint64_t` view `timer_obj_[p].timer_id_obj.id` of the handle union
(little-endian: low word = `pos`, high word = `seq`). -/
def storedId (s : TimerState) (p : Nat) : Nat :=
  (s.objs p).idPos + (s.objs p).idSeq * W32

/-- Write one slot of the arena. -/
def setObj (s : TimerState) (p : Nat) (o : TimerObj) : TimerState :=
  { s with objs := fun x => if x = p then o else s.objs x }

/-- Write one bucket head. -/
def setBucket (s : TimerState) (b h : Nat) : TimerState :=
  { s with buckets := fun x => if x = b then h else s.buckets x }

/-- `TimerMgr::AllocNode` (timer_mgr.h:104-117): pop the free-list head if the
free list is non-empty and `used_num <= max_num`; returns 0 (the sentinel)
otherwise.  On success marks the slot used and clears its links. -/
def allocNode (s : TimerState) : Nat × TimerState :=
  if s.free_head > 0 ∧ s.used_num ≤ s.max_num then
    let p := s.free_head
    let s1 := { s with free_head := (s.objs p).next, used_num := (s.used_num + 1) % W64 }
    (p, setObj s1 p { s1.objs p with used := true, prev := 0, next := 0 })
  else (0, s)

/-- `TimerMgr::FreeNode` (timer_mgr.h:119-125): mark unused, push onto the
free list, decrement `used_num` (a `size_t`, so the decrement wraps). -/
def freeNode (p : Nat) (s : TimerState) : TimerState :=
  let s1 := setObj s p { s.objs p with used := false, prev := 0, next := s.free_head }
  { s1 with free_head := p, used_num := (s.used_num + (W64 - 1)) % W64 }

/-- The error kinds of the public operations, one per distinct error message:
`invalidArg` (bad interval / fire count), `clockReg` (expire before
`cur_bucket_time`), `exhausted` (no free slot), `badHandle` (position out of
range, stale sequence or unused slot), `notFound` (bucket scan missed). -/
inductive TErr
  | invalidArg
  | clockReg
  | exhausted
  | badHandle
  | notFound
  deriving DecidableEq, Repr

/-- `TimerMgr::AddTimer` (timer_mgr.h:207-251).  Validates
`interval_ms ∈ (0, 60]` and `fire_count ≥ 0`, computes
`expire = now + interval_ms`, rejects expiry before the wheel's last processed
tick, allocates a slot, fills it (assigning the post-incremented sequence
counter), and links it at the front of bucket `expire % 60`.
Returns the composed handle. -/
def addTimer (now : Nat) (interval_ms fire_count : Int) (timer_data : Nat)
    (s : TimerState) : Except TErr Nat × TimerState :=
  if interval_ms ≤ 0 ∨ interval_ms > (kTimerBucketNum : Int) ∨ fire_count < 0 then
    (.error .invalidArg, s)
  else
    let expire : Int := (now : Int) + interval_ms
    if expire < (s.cur_bucket_time : Int) then (.error .clockReg, s)
    else
      let a := allocNode s
      let position := a.1
      let s1 := a.2
      if position = 0 then (.error .exhausted, s1)
      else
        let s2 := setObj s1 position
          { s1.objs position with
            idPos := position % W32, idSeq := s1.seq,
            interval_ms := interval_ms, expire := expire,
            max_fire_count := fire_count, fire_count := 0,
            timer_data := timer_data }
        let s2 := { s2 with seq := (s2.seq + 1) % W32 }
        let b := (expire % (kTimerBucketNum : Int)).toNat
        let h := s2.buckets b
        let s3 := setObj s2 position { s2.objs position with prev := 0, next := h }
        let s4 := if h ≠ 0 then setObj s3 h { s3.objs h with prev := position } else s3
        let s5 := setBucket s4 b position
        (.ok (storedId s5 position), s5)

/-- The `while (next > 0)` scan of `DelTimer` (timer_mgr.h:275-280): first
slot in the chain whose stored 64-bit id equals `timer_id`, 0 if none.
Fueled; in every state the results below are about, `max_num + 1` steps
suffice. -/
def findAux (s : TimerState) (tid : Nat) : Nat → Nat → Nat
  | 0, _ => 0
  | fuel + 1, nx =>
    if nx > 0 then
      if storedId s nx = tid then nx
      else findAux s tid fuel (s.objs nx).next
    else 0

/-- `TimerMgr::DelTimer` (timer_mgr.h:254-298).  Decodes the handle, rejects
an out-of-range position and a stale or unused slot, scans the slot's bucket
for the handle, unlinks the found slot (patching neighbours resp. the bucket
head) and releases it. -/
def delTimer (timer_id : Nat) (s : TimerState) : Except TErr Unit × TimerState :=
  let pos := timer_id % W32
  if pos = 0 ∨ pos > s.max_num then (.error .badHandle, s)
  else if storedId s pos ≠ timer_id ∨ (s.objs pos).used = false then (.error .badHandle, s)
  else
    let b := ((s.objs pos).expire % (kTimerBucketNum : Int)).toNat
    let nx := findAux s timer_id (s.max_num + 1) (s.buckets b)
    if nx > 0 then
      let s1 :=
        if (s.objs nx).prev = 0 then setBucket s b (s.objs nx).next
        else setObj s (s.objs nx).prev
          { s.objs ((s.objs nx).prev) with next := (s.objs nx).next }
      let s2 :=
        if (s.objs nx).next ≠ 0 then
          setObj s1 (s.objs nx).next
            { s1.objs ((s.objs nx).next) with prev := (s.objs nx).prev }
        else s1
      (.ok (), freeNode nx s2)
    else (.error .notFound, s)

/-- `TimerMgr::GetExpireTime` (timer_mgr.h:377-395): same handle validation as
`DelTimer`, then a read of the slot's `expire`.  `const`: no state out. -/
def getExpireTime (timer_id : Nat) (s : TimerState) : Except TErr Int :=
  let pos := timer_id % W32
  if pos = 0 ∨ pos > s.max_num then .error .badHandle
  else if storedId s pos ≠ timer_id ∨ (s.objs pos).used = false then .error .badHandle
  else .ok (s.objs pos).expire

/-- The free-list threading loop of the fresh `Init` (timer_mgr.h:176-180):
`for (i = timer_num; i > 0; i--) { obj[i].prev = 0; obj[i].next = free_head;
free_head = i; }`.  `initLoop m fh f` runs the iterations `i = m .. 1`. -/
def initLoop : Nat → Nat → (Nat → TimerObj) → Nat × (Nat → TimerObj)
  | 0, fh, f => (fh, f)
  | m + 1, fh, f =>
    initLoop m (m + 1)
      (fun x => if x = m + 1 then { defaultObj with prev := 0, next := fh } else f x)

/-- The fresh branch of `TimerMgr::Init` (timer_mgr.h:148-181): zeroed bucket
heads, free list threaded through slots `timer_num .. 1`, sequence counter
seeded from the clock (`(uint32_t)time(NULL)` — here the argument `seq0`),
`cur_bucket_time`/`cur_bucket_pos` from the current clock reading. -/
def initFresh (timer_num : Nat) (now : Nat) (seq0 : Nat) : TimerState :=
  let r := initLoop timer_num 0 (fun _ => defaultObj)
  { max_num := timer_num, used_num := 0,
    cur_bucket_time := now, cur_bucket_pos := now % kTimerBucketNum,
    free_head := r.1, seq := seq0 % W32,
    buckets := fun _ => 0, objs := r.2 }

/-- One trace entry per `OnTimeout` invocation:
(virtual tick of the loop iteration, handle, payload). -/
abbrev Trace := List (Nat × Nat × Nat)

/-- The `OnTimeout` hook: timer id, payload, wheel state before → after. -/
abbrev Cb := Nat → Nat → TimerState → TimerState

/-- A callback that only observes (mutates no wheel state). -/
def passiveCb : Cb := fun _ _ s => s

/-- A callback that deletes its own timer — the pattern §4.3 of the spec calls
the common case. -/
def selfDelCb : Cb := fun tid _ s => (delTimer tid s).2

/-- The `while (pos > 0)` bucket walk of `Update` (timer_mgr.h:317-367),
one fuel unit per iteration.  Faithful to the source line by line:
save `next`; `fire_count++`; invoke `OnTimeout`; if the slot is still `used`,
re-read `next`, unlink the slot from bucket `b` (head case writes the walked
bucket's head), then free it (fire count reached) or re-arm it (`expire =
now + interval_ms`, push on the front of the new bucket); finally, if the
saved `next` slot is no longer used, `continue` — which re-enters the loop
with `pos` unchanged. -/
def walkAux (cb : Cb) (b : Nat) (tick : Nat) (now : Nat) :
    Nat → Nat → TimerState → Trace → Option (TimerState × Trace)
  | 0, _, _, _ => none
  | fuel + 1, pos, s, tr =>
    if pos = 0 then some (s, tr)
    else
      let nx0 := (s.objs pos).next
      let s1 := setObj s pos { s.objs pos with fire_count := (s.objs pos).fire_count + 1 }
      let fid := storedId s1 pos
      let fdat := (s1.objs pos).timer_data
      let s2 := cb fid fdat s1
      let tr1 := tr ++ [(tick, fid, fdat)]
      if (s2.objs pos).used then
        let nx := (s2.objs pos).next
        let s3 :=
          if (s2.objs pos).prev ≠ 0 then
            let sa := setObj s2 (s2.objs pos).prev
              { s2.objs ((s2.objs pos).prev) with next := (s2.objs pos).next }
            if (s2.objs pos).next ≠ 0 then
              setObj sa (s2.objs pos).next
                { sa.objs ((s2.objs pos).next) with prev := (s2.objs pos).prev }
            else sa
          else
            let sa := setBucket s2 b (s2.objs pos).next
            if (s2.objs pos).next ≠ 0 then
              setObj sa (s2.objs pos).next { sa.objs ((s2.objs pos).next) with prev := 0 }
            else sa
        let s4 :=
          if (s3.objs pos).max_fire_count ≠ 0 ∧
              (s3.objs pos).fire_count ≥ (s3.objs pos).max_fire_count then
            freeNode pos s3
          else
            let e : Int := (now : Int) + (s3.objs pos).interval_ms
            let b2 := (e % (kTimerBucketNum : Int)).toNat
            let sb := setObj s3 pos { s3.objs pos with expire := e }
            let h2 := sb.buckets b2
            let sc := setObj sb pos { sb.objs pos with prev := 0, next := h2 }
            let sd := if h2 ≠ 0 then setObj sc h2 { sc.objs h2 with prev := pos } else sc
            setBucket sd b2 pos
        if nx ≠ 0 ∧ (s4.objs nx).used = false then walkAux cb b tick now fuel pos s4 tr1
        else walkAux cb b tick now fuel nx s4 tr1
      else
        if nx0 ≠ 0 ∧ (s2.objs nx0).used = false then walkAux cb b tick now fuel pos s2 tr1
        else walkAux cb b tick now fuel nx0 s2 tr1

/-- The `for (i = 1; i <= wheel_count; i++)` loop of `Update`
(timer_mgr.h:314-368): `n` iterations remain, the next one is iteration `i`;
each walks bucket `(cur_bucket_pos + i) % 60` with fresh fuel, at virtual tick
`t0 + i` (`t0` = `cur_bucket_time` on entry, recorded in the trace only). -/
def updateAux (cb : Cb) (fuel now t0 : Nat) :
    Nat → Nat → TimerState → Trace → Option (TimerState × Trace)
  | 0, _, s, tr => some (s, tr)
  | n + 1, i, s, tr =>
    let b := (s.cur_bucket_pos + i) % kTimerBucketNum
    match walkAux cb b (t0 + i) now fuel (s.buckets b) s tr with
    | none => none
    | some (s1, tr1) => updateAux cb fuel now t0 n (i + 1) s1 tr1

/-- `TimerMgr::Update` (timer_mgr.h:300-374).  Empty wheel: fast-forward the
recorded tick and position.  Otherwise run `wheel_count = now -
cur_bucket_time` (an `int`; non-positive means zero iterations) bucket walks,
then record `now`. -/
def update (cb : Cb) (fuel : Nat) (now : Nat) (s : TimerState) :
    Option (TimerState × Trace) :=
  if s.used_num = 0 then
    some ({ s with cur_bucket_time := now, cur_bucket_pos := now % kTimerBucketNum }, [])
  else
    let wheel_count : Int := (now : Int) - (s.cur_bucket_time : Int)
    match updateAux cb fuel now s.cur_bucket_time wheel_count.toNat 1 s [] with
    | none => none
    | some (s1, tr) =>
      some ({ s1 with cur_bucket_pos := now % kTimerBucketNum, cur_bucket_time := now }, tr)

/-- Calling `Update` once per tick: `m` successive calls with `now = t+1,
t+2, …, t+m`, traces concatenated. -/
def driveFrom (cb : Cb) (fuel : Nat) : Nat → Nat → TimerState → Option (TimerState × Trace)
  | _, 0, s => some (s, [])
  | t, m + 1, s =>
    match update cb fuel (t + 1) s with
    | none => none
    | some (s1, tr1) =>
      match driveFrom cb fuel (t + 1) m s1 with
      | none => none
      | some (s2, tr2) => some (s2, tr1 ++ tr2)

/-- The shape of a wheel that started fresh with capacity `n` and has since
performed `j` successful allocations and no frees: slots `j+1 .. n` still form
the free list in ascending order. -/
def FreeSuffix (s : TimerState) (n j : Nat) : Prop :=
  s.max_num = n ∧ s.used_num = j ∧ j ≤ n ∧
  s.free_head = (if j = n then 0 else j + 1) ∧
  ∀ l, j + 1 ≤ l → l ≤ n → (s.objs l).next = (if l = n then 0 else l + 1)

/-- `k` successful `AddTimer` calls (arbitrary arguments, each returning `ok`)
starting from `s`, with no deletions in between. -/
inductive AddChain (s : TimerState) : Nat → TimerState → Prop
  | refl : AddChain s 0 s
  | step {k : Nat} {s1 : TimerState} {h : Nat} {s2 : TimerState}
      (now : Nat) (iv mf : Int) (d : Nat) :
      AddChain s k s1 → addTimer now iv mf d s1 = (.ok h, s2) → AddChain s (k + 1) s2

def c2start : TimerState :=
  (addTimer 0 5 1 2 (addTimer 0 5 1 1 (initFresh 3 0 0)).2).2

def c2cb : Cb := fun tid _ s =>
  if tid = 2 + 1 * W32 then (delTimer 1 (delTimer (2 + 1 * W32) s).2).2 else s

/-- The shape `Update`'s broken walk is trapped in: `pos = 2` is a freed slot
whose free-list successor (slot 3) is freed as well, and slot 1 is freed. -/
def C2Stuck (s : TimerState) : Prop :=
  (s.objs 1).used = false ∧ (s.objs 2).used = false ∧ (s.objs 2).next = 3 ∧
  (s.objs 3).used = false

/-- A fresh capacity-1 wheel at tick 0 with one repeating timer
(`interval 5`, `maxFireCount 0`, payload 9) in slot 1 (handle 1). -/
def c1s : TimerState := (addTimer 0 5 0 9 (initFresh 1 0 0)).2

/-- The capacity-1 wheel holding one armed timer: interval `iv`, maximum fire
count `k`, fired `j` times so far, current tick `t`, due at `e`, allocated
from a fresh wheel whose sequence seed was `z`; payload `d`. -/
def sOne (iv k j t e z d : Nat) : TimerState :=
  { max_num := 1, used_num := 1,
    cur_bucket_pos := t % kTimerBucketNum, cur_bucket_time := t,
    free_head := 0, seq := (z % W32 + 1) % W32,
    buckets := fun b => if b = e % kTimerBucketNum then 1 else 0,
    objs := fun x => if x = 1 then
        ⟨0, 0, true, (iv : Int), (k : Int), (j : Int), (e : Int), 1, z % W32, d⟩
      else defaultObj }

/-- The same wheel after its timer has been released: slot 1 free again,
holding its stale fields (`j` fires, stale expiry `e`). -/
def sOneDone (iv k j t e z d : Nat) : TimerState :=
  { max_num := 1, used_num := 0,
    cur_bucket_pos := t % kTimerBucketNum, cur_bucket_time := t,
    free_head := 1, seq := (z % W32 + 1) % W32,
    buckets := fun _ => 0,
    objs := fun x => if x = 1 then
        ⟨0, 0, false, (iv : Int), (k : Int), (j : Int), (e : Int), 1, z % W32, d⟩
      else defaultObj }

def churn (t0 : Nat) (iv k : Int) (d : Nat) (s : TimerState) : TimerState :=
  let r := addTimer t0 iv k d s
  match r.1 with
  | .ok h => (delTimer h r.2).2
  | .error _ => r.2

def reuseState (iv k t0 z d : Nat) : TimerState :=
  (addTimer t0 (iv : Int) (k : Int) d
    (delTimer (1 + (z % W32) * W32)
      (addTimer t0 (iv : Int) (k : Int) d (initFresh 1 t0 z)).2).2).2

def abaState (iv k t0 z d : Nat) : TimerState :=
  (addTimer t0 (iv : Int) (k : Int) d
    (Nat.iterate (churn t0 (iv : Int) (k : Int) d) (W32 - 1)
      (delTimer (1 + (z % W32) * W32)
        (addTimer t0 (iv : Int) (k : Int) d (initFresh 1 t0 z)).2).2)).2

def c10s : TimerState :=
  (addTimer 0 5 1 8 (addTimer 0 5 1 7 (initFresh 2 0 0)).2).2

/-- Follow `next` pointers from `p`, collecting slots until 0 (or fuel ends):
the walk a debugger would do over one intrusive list. -/
def chainNexts (s : TimerState) : Nat → Nat → List Nat
  | 0, _ => []
  | fuel + 1, p => if p = 0 then [] else p :: chainNexts s fuel (s.objs p).next

/-- The slots of bucket `b`'s list (fuel `max_num + 1` always suffices in
well-formed states). -/
def bucketList (s : TimerState) (b : Nat) : List Nat :=
  chainNexts s (s.max_num + 1) (s.buckets b)

/-- Number of slots reachable by walking all 60 bucket lists. -/
def linkedCount (s : TimerState) : Nat :=
  ((List.range kTimerBucketNum).map fun b => (bucketList s b).length).sum

/-- `Chain s h l`: from head `h`, following `next` visits exactly the slots
`l` and ends at the null slot 0. -/
inductive Chain (s : TimerState) : Nat → List Nat → Prop
  | nil : Chain s 0 []
  | cons (p : Nat) (l : List Nat) (hp : p ≠ 0) (hc : Chain s ((s.objs p).next) l) :
      Chain s p (p :: l)

/-- `prev` pointers of an intrusive list match the list order (`pr` is the
predecessor of the first element; 0 for the head). -/
def PrevOk (s : TimerState) : Nat → List Nat → Prop
  | _, [] => True
  | pr, p :: l => (s.objs p).prev = pr ∧ PrevOk s p l

/-- The linked-structure invariant: the free list `F` and the 60 bucket lists
`Ls` are pointer chains, pairwise disjoint, within `1..max_num`, free slots
unused / bucket slots used, bucket slots carry their own index (`idPos`) and
live in the bucket their `expire` maps to, `prev` pointers are consistent,
every slot is on exactly one list, and `used_num` counts the bucket slots. -/
structure WFData (s : TimerState) (F : List Nat) (Ls : Nat → List Nat) : Prop where
  hmax32 : s.max_num < W32
  hmax64 : s.max_num + 1 < W64
  hF : Chain s s.free_head F
  hFrange : ∀ p ∈ F, 1 ≤ p ∧ p ≤ s.max_num
  hFunused : ∀ p ∈ F, (s.objs p).used = false
  hL : ∀ b, b < kTimerBucketNum → Chain s (s.buckets b) (Ls b)
  hLrange : ∀ b, b < kTimerBucketNum → ∀ p ∈ Ls b, 1 ≤ p ∧ p ≤ s.max_num
  hLused : ∀ b, b < kTimerBucketNum → ∀ p ∈ Ls b, (s.objs p).used = true
  hLid : ∀ b, b < kTimerBucketNum → ∀ p ∈ Ls b, (s.objs p).idPos = p
  hLbucket : ∀ b, b < kTimerBucketNum → ∀ p ∈ Ls b,
      ((s.objs p).expire % (kTimerBucketNum : Int)).toNat = b
  hPrev : ∀ b, b < kTimerBucketNum → PrevOk s 0 (Ls b)
  hdisj : (F ++ (List.range kTimerBucketNum).flatMap Ls).Nodup
  hcomplete : ∀ p, 1 ≤ p → p ≤ s.max_num → p ∈ F ∨ ∃ b, b < kTimerBucketNum ∧ p ∈ Ls b
  hcount : s.used_num = ((List.range kTimerBucketNum).flatMap Ls).length

/-- States reachable by a fresh `Init` followed by any interleaving of
`AddTimer`, `DelTimer` and (terminating) `Update` calls whose callbacks do
not re-enter the wheel. -/
inductive Reach : TimerState → Prop
  | init (n t z : Nat) (h1 : 0 < n) (h2 : n < W32) : Reach (initFresh n t z)
  | add (now : Nat) (iv k : Int) (d : Nat) (s : TimerState) (h : Reach s) :
      Reach (addTimer now iv k d s).2
  | del (tid : Nat) (s : TimerState) (h : Reach s) : Reach (delTimer tid s).2
  | upd (fuel now : Nat) (s s1 : TimerState) (tr : Trace) (h : Reach s)
      (hu : update passiveCb fuel now s = some (s1, tr)) : Reach s1

/-- The invariant with one slot `p` detached: every list is still a
well-formed chain not containing `p`, and `used_num` counts the bucket slots
plus the detached one. -/
structure WFHole (s : TimerState) (p : Nat) (F : List Nat) (Ls : Nat → List Nat) : Prop where
  hmax32 : s.max_num < W32
  hmax64 : s.max_num + 1 < W64
  hprange : 1 ≤ p ∧ p ≤ s.max_num
  hF : Chain s s.free_head F
  hFrange : ∀ q ∈ F, 1 ≤ q ∧ q ≤ s.max_num
  hFunused : ∀ q ∈ F, (s.objs q).used = false
  hL : ∀ b, b < kTimerBucketNum → Chain s (s.buckets b) (Ls b)
  hLrange : ∀ b, b < kTimerBucketNum → ∀ q ∈ Ls b, 1 ≤ q ∧ q ≤ s.max_num
  hLused : ∀ b, b < kTimerBucketNum → ∀ q ∈ Ls b, (s.objs q).used = true
  hLid : ∀ b, b < kTimerBucketNum → ∀ q ∈ Ls b, (s.objs q).idPos = q
  hLbucket : ∀ b, b < kTimerBucketNum → ∀ q ∈ Ls b,
      ((s.objs q).expire % (kTimerBucketNum : Int)).toNat = b
  hPrev : ∀ b, b < kTimerBucketNum → PrevOk s 0 (Ls b)
  hdisj : (p :: (F ++ (List.range kTimerBucketNum).flatMap Ls)).Nodup
  hcomplete : ∀ q, 1 ≤ q → q ≤ s.max_num →
      q = p ∨ q ∈ F ∨ ∃ b, b < kTimerBucketNum ∧ q ∈ Ls b
  hcount : s.used_num = ((List.range kTimerBucketNum).flatMap Ls).length + 1

/-- The unlink block of the bucket walk in `TimerMgr::Update`
(timer_mgr.h:326-343): splice the fired slot `pos` out of bucket `b`'s list
(`s2` is the state after the callback returned). -/
def walkUnlink (b pos : Nat) (s2 : TimerState) : TimerState :=
  if (s2.objs pos).prev ≠ 0 then
    let sa := setObj s2 (s2.objs pos).prev
      { s2.objs ((s2.objs pos).prev) with next := (s2.objs pos).next }
    if (s2.objs pos).next ≠ 0 then
      setObj sa (s2.objs pos).next
        { sa.objs ((s2.objs pos).next) with prev := (s2.objs pos).prev }
    else sa
  else
    let sa := setBucket s2 b (s2.objs pos).next
    if (s2.objs pos).next ≠ 0 then
      setObj sa (s2.objs pos).next { sa.objs ((s2.objs pos).next) with prev := 0 }
    else sa

/-- The re-arm block of the bucket walk (timer_mgr.h:349-357): a repeating
timer gets `expire = now + interval` and is pushed onto the head of the
bucket that expiry maps to. -/
def walkRearm (now : Nat) (pos : Nat) (s3 : TimerState) : TimerState :=
  let e : Int := (now : Int) + (s3.objs pos).interval_ms
  let b2 := (e % (kTimerBucketNum : Int)).toNat
  let sb := setObj s3 pos { s3.objs pos with expire := e }
  let h2 := sb.buckets b2
  let sc := setObj sb pos { sb.objs pos with prev := 0, next := h2 }
  let sd := if h2 ≠ 0 then setObj sc h2 { sc.objs h2 with prev := pos } else sc
  setBucket sd b2 pos

attribute [ext] TimerState

theorem allocNode_fst_zero (s : TimerState) (h : (allocNode s).1 = 0) :
    (allocNode s).2 = s := by
  unfold allocNode at h ⊢
  by_cases hg : s.free_head > 0 ∧ s.used_num ≤ s.max_num
  · rw [if_pos hg] at h
    dsimp only at h
    omega
  · rw [if_neg hg]

theorem allocNode_fail_iff (s : TimerState) (hcap : s.used_num ≤ s.max_num) :
    (allocNode s).1 = 0 ↔ s.free_head = 0 := by
  unfold allocNode
  by_cases hg : s.free_head > 0 ∧ s.used_num ≤ s.max_num
  · rw [if_pos hg]
  · rw [if_neg hg]
    dsimp only
    omega

theorem allocNode_pos (s : TimerState) (hg : s.free_head > 0 ∧ s.used_num ≤ s.max_num) :
    allocNode s = (s.free_head,
      setObj { s with free_head := (s.objs s.free_head).next, used_num := (s.used_num + 1) % W64 } s.free_head { s.objs s.free_head with used := true, prev := 0, next := 0 }) := by
  unfold allocNode
  rw [if_pos hg]

/-- Claim C9: `AddTimer` fails exactly when (a) `interval_ms ∉ (0, 60]` or
`fire_count < 0` (invalid argument), else (b) the computed expiry
`now + interval_ms` precedes `cur_bucket_time` (clock regression), else
(c) the free list is empty (pool exhausted, given the `used_num ≤ max_num`
side of the allocation guard, which holds in every reachable state);
otherwise it returns the composed handle of a slot that is marked used and
sits at the front of bucket `(now + interval_ms) % 60`. -/
theorem addTimer_error_classification (now : Nat) (iv mf : Int) (d : Nat) (s : TimerState)
    (hcap : s.used_num ≤ s.max_num) :
    ((addTimer now iv mf d s).1 = .error .invalidArg ↔
      (iv ≤ 0 ∨ iv > (kTimerBucketNum : Int) ∨ mf < 0))
    ∧ ((addTimer now iv mf d s).1 = .error .clockReg ↔
      (¬(iv ≤ 0 ∨ iv > (kTimerBucketNum : Int) ∨ mf < 0) ∧
        (now : Int) + iv < (s.cur_bucket_time : Int)))
    ∧ ((addTimer now iv mf d s).1 = .error .exhausted ↔
      (¬(iv ≤ 0 ∨ iv > (kTimerBucketNum : Int) ∨ mf < 0) ∧
        ¬((now : Int) + iv < (s.cur_bucket_time : Int)) ∧ s.free_head = 0))
    ∧ (¬(iv ≤ 0 ∨ iv > (kTimerBucketNum : Int) ∨ mf < 0) →
        ¬((now : Int) + iv < (s.cur_bucket_time : Int)) → s.free_head ≠ 0 →
        (addTimer now iv mf d s).1 = .ok (s.free_head % W32 + s.seq * W32) ∧
        ((addTimer now iv mf d s).2.objs s.free_head).used = true ∧
        (addTimer now iv mf d s).2.buckets
            ((((now : Int) + iv) % (kTimerBucketNum : Int)).toNat) = s.free_head) := by
  by_cases hb : iv ≤ 0 ∨ iv > (kTimerBucketNum : Int) ∨ mf < 0
  · simp [addTimer, hb]
  · by_cases hc : (now : Int) + iv < (s.cur_bucket_time : Int)
    · simp [addTimer, hb, hc]
    · by_cases hf : s.free_head = 0
      · simp [addTimer, hb, hc, hf, allocNode]
      · have hg : s.free_head > 0 ∧ s.used_num ≤ s.max_num := ⟨Nat.pos_of_ne_zero hf, hcap⟩
        rcases eq_or_ne (s.buckets ((((now : Int) + iv) % (kTimerBucketNum : Int)).toNat))
            s.free_head with hh | hh
        · simp [addTimer, allocNode_pos s hg, hb, hc, hf, setObj, setBucket, storedId, hh]
        · rcases eq_or_ne (s.buckets ((((now : Int) + iv) % (kTimerBucketNum : Int)).toNat)) 0
            with h0 | h0 <;>
            simp [addTimer, allocNode_pos s hg, hb, hc, hf, setObj, setBucket, storedId, hh,
              Ne.symm hh, h0]

@[simp] theorem setObj_max_num (s : TimerState) (p : Nat) (o : TimerObj) :
    (setObj s p o).max_num = s.max_num := rfl

@[simp] theorem setObj_used_num (s : TimerState) (p : Nat) (o : TimerObj) :
    (setObj s p o).used_num = s.used_num := rfl

@[simp] theorem setObj_cur_bucket_pos (s : TimerState) (p : Nat) (o : TimerObj) :
    (setObj s p o).cur_bucket_pos = s.cur_bucket_pos := rfl

@[simp] theorem setObj_cur_bucket_time (s : TimerState) (p : Nat) (o : TimerObj) :
    (setObj s p o).cur_bucket_time = s.cur_bucket_time := rfl

@[simp] theorem setObj_free_head (s : TimerState) (p : Nat) (o : TimerObj) :
    (setObj s p o).free_head = s.free_head := rfl

@[simp] theorem setObj_seq (s : TimerState) (p : Nat) (o : TimerObj) :
    (setObj s p o).seq = s.seq := rfl

@[simp] theorem setObj_buckets (s : TimerState) (p : Nat) (o : TimerObj) :
    (setObj s p o).buckets = s.buckets := rfl

theorem setObj_objs (s : TimerState) (p : Nat) (o : TimerObj) (x : Nat) :
    (setObj s p o).objs x = if x = p then o else s.objs x := rfl

@[simp] theorem setObj_objs_self (s : TimerState) (p : Nat) (o : TimerObj) :
    (setObj s p o).objs p = o := by
  simp [setObj_objs]

theorem setObj_objs_ne (s : TimerState) (p : Nat) (o : TimerObj) (x : Nat) (hx : x ≠ p) :
    (setObj s p o).objs x = s.objs x := by
  simp [setObj_objs, hx]

@[simp] theorem setBucket_max_num (s : TimerState) (b h : Nat) :
    (setBucket s b h).max_num = s.max_num := rfl

@[simp] theorem setBucket_used_num (s : TimerState) (b h : Nat) :
    (setBucket s b h).used_num = s.used_num := rfl

@[simp] theorem setBucket_cur_bucket_pos (s : TimerState) (b h : Nat) :
    (setBucket s b h).cur_bucket_pos = s.cur_bucket_pos := rfl

@[simp] theorem setBucket_cur_bucket_time (s : TimerState) (b h : Nat) :
    (setBucket s b h).cur_bucket_time = s.cur_bucket_time := rfl

@[simp] theorem setBucket_free_head (s : TimerState) (b h : Nat) :
    (setBucket s b h).free_head = s.free_head := rfl

@[simp] theorem setBucket_seq (s : TimerState) (b h : Nat) :
    (setBucket s b h).seq = s.seq := rfl

@[simp] theorem setBucket_objs (s : TimerState) (b h : Nat) :
    (setBucket s b h).objs = s.objs := rfl

theorem setBucket_buckets (s : TimerState) (b h : Nat) (x : Nat) :
    (setBucket s b h).buckets x = if x = b then h else s.buckets x := rfl

@[simp] theorem setBucket_buckets_self (s : TimerState) (b h : Nat) :
    (setBucket s b h).buckets b = h := by
  simp [setBucket_buckets]

theorem setBucket_buckets_ne (s : TimerState) (b h x : Nat) (hx : x ≠ b) :
    (setBucket s b h).buckets x = s.buckets x := by
  simp [setBucket_buckets, hx]

@[simp] theorem freeNode_max_num (p : Nat) (s : TimerState) :
    (freeNode p s).max_num = s.max_num := by
  unfold freeNode
  rfl

@[simp] theorem freeNode_used_num (p : Nat) (s : TimerState) :
    (freeNode p s).used_num = (s.used_num + (W64 - 1)) % W64 := by
  unfold freeNode
  rfl

@[simp] theorem freeNode_cur_bucket_pos (p : Nat) (s : TimerState) :
    (freeNode p s).cur_bucket_pos = s.cur_bucket_pos := by
  unfold freeNode
  rfl

@[simp] theorem freeNode_cur_bucket_time (p : Nat) (s : TimerState) :
    (freeNode p s).cur_bucket_time = s.cur_bucket_time := by
  unfold freeNode
  rfl

@[simp] theorem freeNode_free_head (p : Nat) (s : TimerState) :
    (freeNode p s).free_head = p := by
  unfold freeNode
  rfl

@[simp] theorem freeNode_seq (p : Nat) (s : TimerState) :
    (freeNode p s).seq = s.seq := by
  unfold freeNode
  rfl

@[simp] theorem freeNode_buckets (p : Nat) (s : TimerState) :
    (freeNode p s).buckets = s.buckets := by
  unfold freeNode
  rfl

theorem freeNode_objs (p : Nat) (s : TimerState) (x : Nat) :
    (freeNode p s).objs x =
      if x = p then { s.objs p with used := false, prev := 0, next := s.free_head }
      else s.objs x := by
  unfold freeNode setObj
  rfl

theorem findAux_ne_zero (s : TimerState) (tid : Nat) :
    ∀ fuel h, findAux s tid fuel h ≠ 0 →
      0 < findAux s tid fuel h ∧ storedId s (findAux s tid fuel h) = tid := by
  intro fuel
  induction fuel with
  | zero => intro h hne; simp [findAux] at hne
  | succ n ih =>
    intro h hne
    unfold findAux at hne ⊢
    split_ifs at hne ⊢ with h1 h2
    · exact ⟨by omega, h2⟩
    · exact ih _ hne
    · omega

/-- Claim C7: every operation is atomic with respect to failure.  Whenever
`AddTimer` or `DelTimer` returns an error the wheel state is exactly the state
before the call (`GetExpireTime` is `const` and by its very type returns no
state); on success the mutation is complete: `AddTimer` has consumed the
free-list head, incremented `used_num` and marked the slot used, `DelTimer`
has freed the slot the bucket scan found, pushed it on the free list and
decremented `used_num`. -/
theorem ops_no_partial_failure (now : Nat) (iv mf : Int) (d tid : Nat) (s : TimerState) :
    (∀ e, (addTimer now iv mf d s).1 = .error e → (addTimer now iv mf d s).2 = s)
    ∧ (∀ e, (delTimer tid s).1 = .error e → (delTimer tid s).2 = s)
    ∧ (∀ h, (addTimer now iv mf d s).1 = .ok h →
        (addTimer now iv mf d s).2.used_num = (s.used_num + 1) % W64 ∧
        (addTimer now iv mf d s).2.free_head = (s.objs s.free_head).next ∧
        ((addTimer now iv mf d s).2.objs s.free_head).used = true)
    ∧ ((delTimer tid s).1 = .ok () →
        ∃ p, 0 < p ∧ storedId s p = tid ∧
          (delTimer tid s).2.used_num = (s.used_num + (W64 - 1)) % W64 ∧
          (delTimer tid s).2.free_head = p ∧ ((delTimer tid s).2.objs p).used = false) := by
  refine ⟨?_, ?_, ?_, ?_⟩
  · intro e he
    simp only [addTimer] at he ⊢
    split_ifs at he ⊢ with h1 h2 h3
    · rfl
    · rfl
    · exact allocNode_fst_zero s h3
  · intro e he
    simp only [delTimer] at he ⊢
    split_ifs at he ⊢ <;> first | rfl | simp at he
  · intro h he
    by_cases hg : s.free_head > 0 ∧ s.used_num ≤ s.max_num
    · by_cases hb : iv ≤ 0 ∨ iv > (kTimerBucketNum : Int) ∨ mf < 0
      · simp [addTimer, hb] at he
      · by_cases hc : (now : Int) + iv < (s.cur_bucket_time : Int)
        · simp [addTimer, hb, hc] at he
        · have hf : s.free_head ≠ 0 := by omega
          rcases eq_or_ne (s.buckets ((((now : Int) + iv) % (kTimerBucketNum : Int)).toNat))
              s.free_head with hh | hh
          · simp [addTimer, allocNode_pos s hg, hb, hc, hf, setObj, setBucket, hh]
          · rcases eq_or_ne (s.buckets ((((now : Int) + iv) % (kTimerBucketNum : Int)).toNat)) 0
              with h0 | h0 <;>
              simp [addTimer, allocNode_pos s hg, hb, hc, hf, setObj, setBucket, hh,
                Ne.symm hh, h0]
    · have hz : allocNode s = (0, s) := by
        unfold allocNode
        rw [if_neg hg]
      simp only [addTimer, hz] at he
      split_ifs at he <;> simp at he
  · intro he
    simp only [delTimer] at he ⊢
    by_cases h1 : tid % W32 = 0 ∨ tid % W32 > s.max_num
    · rw [if_pos h1] at he
      simp at he
    · rw [if_neg h1] at he ⊢
      by_cases h2 : storedId s (tid % W32) ≠ tid ∨ (s.objs (tid % W32)).used = false
      · rw [if_pos h2] at he
        simp at he
      · rw [if_neg h2] at he ⊢
        by_cases h3 : findAux s tid (s.max_num + 1)
            (s.buckets (((s.objs (tid % W32)).expire % (kTimerBucketNum : Int)).toNat)) > 0
        · rw [if_pos h3]
          have hfs := findAux_ne_zero s tid (s.max_num + 1)
            (s.buckets (((s.objs (tid % W32)).expire % (kTimerBucketNum : Int)).toNat))
            (by omega)
          refine ⟨_, hfs.1, hfs.2, ?_, ?_, ?_⟩ <;> split_ifs <;> simp [freeNode_objs]
        · rw [if_neg h3] at he
          simp at he

theorem initLoop_spec : ∀ (m fh : Nat) (f : Nat → TimerObj),
    (initLoop m fh f).1 = (if m = 0 then fh else 1) ∧
    ∀ x, (initLoop m fh f).2 x =
      if 1 ≤ x ∧ x ≤ m then { defaultObj with prev := 0, next := if x = m then fh else x + 1 }
      else f x := by
  intro m
  induction m with
  | zero =>
    intro fh f
    refine ⟨rfl, fun x => ?_⟩
    show f x = _
    rw [if_neg (by omega : ¬(1 ≤ x ∧ x ≤ 0))]
  | succ k ih =>
    intro fh f
    constructor
    · show (initLoop k (k + 1) _).1 = _
      rw [(ih (k + 1) _).1]
      by_cases hk : k = 0 <;> simp [hk]
    · intro x
      show (initLoop k (k + 1) _).2 x = _
      rw [(ih (k + 1) _).2 x]
      by_cases hx1 : 1 ≤ x ∧ x ≤ k
      · rw [if_pos hx1, if_pos (by omega : 1 ≤ x ∧ x ≤ k + 1)]
        have hxk : x ≠ k + 1 := by omega
        by_cases hxe : x = k
        · simp [hxe]
        · simp [hxe, hxk]
      · rw [if_neg hx1]
        by_cases hx2 : x = k + 1
        · simp [hx2]
        · have hno : ¬(1 ≤ x ∧ x ≤ k + 1) := by omega
          simp [hno, hx2]

theorem initFresh_freeSuffix (n t0 z : Nat) : FreeSuffix (initFresh n t0 z) n 0 := by
  unfold initFresh FreeSuffix
  refine ⟨rfl, rfl, Nat.zero_le n, ?_, ?_⟩
  · show (initLoop n 0 fun _ => defaultObj).1 = _
    rw [(initLoop_spec n 0 _).1]
    split_ifs <;> omega
  · intro l hl1 hl2
    show ((initLoop n 0 fun _ => defaultObj).2 l).next = _
    rw [(initLoop_spec n 0 _).2 l, if_pos (by omega)]

theorem addTimer_ok_result (now : Nat) (iv mf : Int) (d : Nat) (s : TimerState)
    (hg : s.free_head > 0 ∧ s.used_num ≤ s.max_num)
    (hiv0 : 0 < iv) (hiv1 : iv ≤ (kTimerBucketNum : Int)) (hmf : 0 ≤ mf)
    (hck : (s.cur_bucket_time : Int) ≤ (now : Int) + iv) :
    (addTimer now iv mf d s).1 = .ok (s.free_head % W32 + s.seq * W32) ∧
    (addTimer now iv mf d s).2.max_num = s.max_num ∧
    (addTimer now iv mf d s).2.used_num = (s.used_num + 1) % W64 ∧
    (addTimer now iv mf d s).2.cur_bucket_time = s.cur_bucket_time ∧
    (addTimer now iv mf d s).2.free_head = (s.objs s.free_head).next ∧
    (∀ l, l ≠ s.free_head → ((addTimer now iv mf d s).2.objs l).next = (s.objs l).next) := by
  have hb : ¬(iv ≤ 0 ∨ iv > (kTimerBucketNum : Int) ∨ mf < 0) := by omega
  have hc : ¬((now : Int) + iv < (s.cur_bucket_time : Int)) := by omega
  have hf : s.free_head ≠ 0 := by omega
  rcases eq_or_ne (s.buckets ((((now : Int) + iv) % (kTimerBucketNum : Int)).toNat))
      s.free_head with hh | hh
  · simp only [addTimer, allocNode_pos s hg, hb, hc]
    simp [hf, hh, setObj, setBucket, storedId]
    intro l hl
    simp [hl]
  · rcases eq_or_ne (s.buckets ((((now : Int) + iv) % (kTimerBucketNum : Int)).toNat)) 0
      with h0 | h0
    · simp only [addTimer, allocNode_pos s hg, hb, hc]
      simp [hf, hh, h0, setObj, setBucket, storedId]
      intro l hl
      simp [hl]
    · simp only [addTimer, allocNode_pos s hg, hb, hc]
      simp [hf, hh, Ne.symm hh, h0, setObj, setBucket, storedId]
      intro l hl
      rcases eq_or_ne l (s.buckets ((((now : Int) + iv) % (kTimerBucketNum : Int)).toNat))
        with he | he
      · simp [he, Ne.symm hh]
      · simp [hl, he]

theorem addTimer_ok_freeSuffix (n j : Nat) (hw : n < W64) (s : TimerState)
    (hfs : FreeSuffix s n j) (now : Nat) (iv mf : Int) (d h : Nat) (s2 : TimerState)
    (he : addTimer now iv mf d s = (.ok h, s2)) :
    j < n ∧ FreeSuffix s2 n (j + 1) ∧ s2.cur_bucket_time = s.cur_bucket_time := by
  obtain ⟨hmax, hused, hjn, hfh, hobjs⟩ := hfs
  by_cases hb : iv ≤ 0 ∨ iv > (kTimerBucketNum : Int) ∨ mf < 0
  · simp [addTimer, hb] at he
  · by_cases hc : (now : Int) + iv < (s.cur_bucket_time : Int)
    · simp [addTimer, hb, hc] at he
    · by_cases hj : j = n
      · have hf0 : s.free_head = 0 := by rw [hfh, if_pos hj]
        simp [addTimer, hb, hc, allocNode, hf0] at he
      · have hfh1 : s.free_head = j + 1 := by rw [hfh, if_neg hj]
        have hg : s.free_head > 0 ∧ s.used_num ≤ s.max_num := by omega
        have hres := addTimer_ok_result now iv mf d s hg (by omega) (by omega) (by omega)
          (by omega)
        have hs2 : s2 = (addTimer now iv mf d s).2 := by rw [he]
        obtain ⟨-, hrmax, hrused, hrcur, hrfree, hrobjs⟩ := hres
        refine ⟨by omega, ⟨?_, ?_, by omega, ?_, ?_⟩, ?_⟩
        · rw [hs2, hrmax, hmax]
        · rw [hs2, hrused, hused]
          exact Nat.mod_eq_of_lt (by omega)
        · rw [hs2, hrfree, hfh1, hobjs (j + 1) (by omega) (by omega)]
        · intro l hl1 hl2
          rw [hs2, hrobjs l (by omega), hobjs l (by omega) hl2]
        · rw [hs2, hrcur]

theorem addChain_freeSuffix (n : Nat) (hw : n < W64) (j k : Nat) (s s' : TimerState)
    (hfs : FreeSuffix s n j) (hch : AddChain s k s') :
    FreeSuffix s' n (j + k) ∧ s'.cur_bucket_time = s.cur_bucket_time := by
  induction hch with
  | refl => exact ⟨hfs, rfl⟩
  | step now iv mf d hch he ih =>
    obtain ⟨ih1, ih2⟩ := ih
    have hstep := addTimer_ok_freeSuffix n _ hw _ ih1 now iv mf d _ _ he
    exact ⟨hstep.2.1, by rw [hstep.2.2, ih2]⟩

theorem delTimer_ok_facts (tid : Nat) (s s2 : TimerState)
    (he : delTimer tid s = (.ok (), s2)) :
    0 < s2.free_head ∧ s2.used_num = (s.used_num + (W64 - 1)) % W64 ∧
    s2.max_num = s.max_num ∧ s2.cur_bucket_time = s.cur_bucket_time := by
  simp only [delTimer] at he
  by_cases h1 : tid % W32 = 0 ∨ tid % W32 > s.max_num
  · rw [if_pos h1] at he
    simp at he
  · rw [if_neg h1] at he
    by_cases h2 : storedId s (tid % W32) ≠ tid ∨ (s.objs (tid % W32)).used = false
    · rw [if_pos h2] at he
      simp at he
    · rw [if_neg h2] at he
      by_cases h3 : findAux s tid (s.max_num + 1)
          (s.buckets (((s.objs (tid % W32)).expire % (kTimerBucketNum : Int)).toNat)) > 0
      · rw [if_pos h3] at he
        have h4 := congrArg Prod.snd he
        dsimp only at h4
        rw [← h4]
        refine ⟨by simpa using h3, ?_, ?_, ?_⟩ <;> split_ifs <;> simp
      · rw [if_neg h3] at he
        simp at he

theorem W64_pos : 0 < W64 := by
  unfold W64
  omega

/-- Claim C4: on a wheel of capacity `n`, after `n` successful `AddTimer`
calls with no deletions the free list is empty and the next `AddTimer` (with
otherwise valid arguments) returns PoolExhausted while leaving the state
untouched; after one successful `DelTimer` the next `AddTimer` succeeds. -/
theorem capacity_exhaustion (n t0 z : Nat) (hn : 0 < n) (hw : n < W64) (sF : TimerState)
    (hch : AddChain (initFresh n t0 z) n sF) :
    sF.used_num = n ∧ sF.free_head = 0 ∧
    (∀ (now : Nat) (iv mf : Int) (d : Nat), 0 < iv → iv ≤ (kTimerBucketNum : Int) → 0 ≤ mf →
      (sF.cur_bucket_time : Int) ≤ (now : Int) + iv →
      addTimer now iv mf d sF = (.error .exhausted, sF)) ∧
    (∀ (tid : Nat) (s2 : TimerState), delTimer tid sF = (.ok (), s2) →
      ∀ (now : Nat) (iv mf : Int) (d : Nat), 0 < iv → iv ≤ (kTimerBucketNum : Int) → 0 ≤ mf →
      (s2.cur_bucket_time : Int) ≤ (now : Int) + iv →
      (addTimer now iv mf d s2).1 = .ok (s2.free_head % W32 + s2.seq * W32)) := by
  have hfs0 := initFresh_freeSuffix n t0 z
  obtain ⟨⟨hmax, hused, hjn, hfh, hobjs⟩, hcur⟩ :=
    addChain_freeSuffix n hw 0 n _ sF hfs0 hch
  have husedn : sF.used_num = n := by omega
  have hfh0 : sF.free_head = 0 := by
    rw [hfh, if_pos (by omega)]
  refine ⟨husedn, hfh0, ?_, ?_⟩
  · intro now iv mf d hiv0 hiv1 hmf hck
    have hb : ¬(iv ≤ 0 ∨ iv > (kTimerBucketNum : Int) ∨ mf < 0) := by omega
    have hc : ¬((now : Int) + iv < (sF.cur_bucket_time : Int)) := by omega
    simp [addTimer, hb, hc, allocNode, hfh0]
  · intro tid s2 hdel now iv mf d hiv0 hiv1 hmf hck
    have hfacts := delTimer_ok_facts tid sF s2 hdel
    have hW := W64_pos
    have hg : s2.free_head > 0 ∧ s2.used_num ≤ s2.max_num := by
      refine ⟨hfacts.1, ?_⟩
      rw [hfacts.2.1, husedn, hfacts.2.2.1, hmax]
      have h1 : n + (W64 - 1) = (n - 1) + 1 * W64 := by omega
      rw [h1, Nat.add_mul_mod_self_right, Nat.mod_eq_of_lt (by omega)]
      omega
    exact (addTimer_ok_result now iv mf d s2 hg hiv0 hiv1 hmf hck).1

theorem capacity_exhaustion_witness :
    addTimer 0 5 1 7 (addTimer 0 5 1 7 (initFresh 1 0 0)).2
      = (.error .exhausted, (addTimer 0 5 1 7 (initFresh 1 0 0)).2) := by
  have hch : AddChain (initFresh 1 0 0) 1 (addTimer 0 5 1 7 (initFresh 1 0 0)).2 :=
    AddChain.step 0 5 1 7 AddChain.refl
      (by rfl : addTimer 0 5 1 7 (initFresh 1 0 0) = (.ok 1, (addTimer 0 5 1 7 (initFresh 1 0 0)).2))
  have h := capacity_exhaustion 1 0 0 (by omega) (by unfold W64; omega) _ hch
  exact h.2.2.1 0 5 1 7 (by omega) (by decide) (by omega) (by decide)

theorem delTimer_unused_snd (tid : Nat) (s : TimerState)
    (h : (s.objs (tid % W32)).used = false) : (delTimer tid s).2 = s := by
  unfold delTimer
  by_cases h1 : tid % W32 = 0 ∨ tid % W32 > s.max_num
  · rw [if_pos h1]
  · rw [if_neg h1, if_pos (Or.inr h)]

theorem c2cb_noop (tid d : Nat) (s : TimerState)
    (h1 : (s.objs 1).used = false) (h2 : (s.objs 2).used = false) :
    c2cb tid d s = s := by
  have hm : (2 + 1 * W32) % W32 = 2 := by
    unfold W32
    omega
  unfold c2cb
  split_ifs with hf
  · rw [delTimer_unused_snd (2 + 1 * W32) s (by rw [hm]; exact h2),
      delTimer_unused_snd 1 s (by rw [show (1 : Nat) % W32 = 1 by unfold W32; omega]; exact h1)]
  · rfl

theorem c2_walk_stuck : ∀ (fuel : Nat) (s : TimerState) (tr : Trace), C2Stuck s →
    walkAux c2cb 5 5 5 fuel 2 s tr = none := by
  intro fuel
  induction fuel with
  | zero => intro s tr hs; rfl
  | succ g ih =>
    intro s tr hs
    obtain ⟨hu1, hu2, hn2, hu3⟩ := hs
    rw [walkAux, if_neg (by omega)]
    simp [c2cb_noop, setObj_objs, hu1, hu2, hn2, hu3]
    exact ih _ _ ⟨by simp [setObj_objs, hu1], by simp [setObj_objs],
      by simp [setObj_objs], by simp [setObj_objs, hu3]⟩

theorem c2_walk_enter (g : Nat) (tr : Trace) :
    walkAux c2cb 5 5 5 (g + 1) 2 c2start tr = none := by
  rw [walkAux, if_neg (by omega)]
  simp [c2start, c2cb, addTimer, initFresh, initLoop, allocNode, delTimer, findAux, freeNode,
    storedId, setObj, setBucket, W32, W64, kTimerBucketNum]
  exact c2_walk_stuck g _ _ ⟨rfl, rfl, rfl, rfl⟩

/-- Claim C2 (code bug): `Update` does not always terminate.  On the reachable
state `c2start` (capacity 3; one-shot timers `A` = slot 1 and `B` = slot 2,
both due at tick 5, `B` at the bucket head) with a callback that, when `B`
fires, deletes `B` and then `A` — exactly the concurrent-delete break of
§4.3 — the bucket walk of `Update(now = 5)` hits the `continue` at
timer_mgr.h:364 with `pos` unchanged and a freed slot, and re-enters the loop
body forever (re-firing the freed slot 2 on every spin): for every fuel bound
the walk fails to finish, contradicting both the claim's termination
guarantee and the code's own comment that the break merely defers the rest of
the bucket. -/
theorem update_broken_walk_diverges : ∀ fuel : Nat, update c2cb fuel 5 c2start = none := by
  intro fuel
  cases fuel with
  | zero => rfl
  | succ f =>
    have hstep : ∀ (s : TimerState) (tr : Trace), C2Stuck s →
        walkAux c2cb 5 5 5 f 2 s tr = none := c2_walk_stuck f
    simp [update, updateAux, walkAux, c2start, c2cb, addTimer, initFresh, initLoop, allocNode,
      delTimer, findAux, freeNode, storedId, setObj, setBucket, W32, W64, kTimerBucketNum]
    rw [hstep _ _ ?hc]
    case hc => exact ⟨rfl, rfl, rfl, rfl⟩

theorem update_broken_walk_diverges_witness : update c2cb 9 5 c2start = none :=
  update_broken_walk_diverges 9

set_option maxRecDepth 10000 in
/-- Counterexample to claim C1 as stated: with a repeating timer due every 5
ticks, a single `Update` after 100 elapsed ticks fires it only twice — at
virtual ticks 5 and 45 (the re-arm at timer_mgr.h:350 uses the final `now`,
so the re-armed timer lands in a bucket the same catch-up loop visits again
prematurely, then escapes the window) — whereas driving `Update` once per
tick fires it 20 times, at every multiple of 5.  The traces differ, so the
single catch-up call does not fire every timer that per-tick driving would
have fired once per due occurrence. -/
theorem catchup_single_update_misfires :
    (update passiveCb 2 100 c1s).map Prod.snd = some [(5, 1, 9), (45, 1, 9)]
    ∧ (driveFrom passiveCb 2 0 100 c1s).map Prod.snd
        = some ((List.range 20).map fun j => ((j + 1) * 5, 1, 9))
    ∧ (update passiveCb 2 100 c1s).map Prod.snd ≠ (driveFrom passiveCb 2 0 100 c1s).map Prod.snd
    := by decide

theorem addTimer_fresh_one (iv k t0 z d : Nat) (hiv1 : 1 ≤ iv) (hiv2 : iv ≤ 60) :
    (addTimer t0 (iv : Int) (k : Int) d (initFresh 1 t0 z)).1 = .ok (1 + (z % W32) * W32)
    ∧ (addTimer t0 (iv : Int) (k : Int) d (initFresh 1 t0 z)).2 = sOne iv k 0 t0 (t0 + iv) z d := by
  have e1 : iv ≠ 0 := by omega
  have e2 : ¬ kTimerBucketNum < iv := by
    unfold kTimerBucketNum
    omega
  have e3 : ¬ (k : Int) < 0 := by omega
  have e4 : ¬ (iv : Int) < 0 := by omega
  have e5 : (1 : Nat) % W32 = 1 := by
    unfold W32
    omega
  have e6 : (1 : Nat) % W64 = 1 := by
    unfold W64
    omega
  have hcast : (((t0 : Int) + (iv : Int)) % (kTimerBucketNum : Int)).toNat
      = (t0 + iv) % kTimerBucketNum := by
    unfold kTimerBucketNum
    omega
  constructor
  · simp [addTimer, allocNode, initFresh, initLoop, setObj, setBucket, storedId,
      e1, e2, e3, e4, e5]
  · simp [addTimer, allocNode, initFresh, initLoop, setObj, setBucket, storedId,
      e1, e2, e3, e4, e5, e6]
    apply TimerState.ext
    · rfl
    · rfl
    · rfl
    · rfl
    · rfl
    · show (z + 1) % W32 = (z % W32 + 1) % W32
      unfold W32
      omega
    · funext b
      simp [sOne, hcast]
    · funext x
      by_cases hx : x = 1
      · simp [sOne, hx]
      · simp [sOne, hx]

set_option maxHeartbeats 1000000 in
theorem update_one_empty (cb : Cb) (iv k j t e z d : Nat)
    (hne : (t + 1) % kTimerBucketNum ≠ e % kTimerBucketNum) :
    update cb 2 (t + 1) (sOne iv k j t e z d) = some (sOne iv k j (t + 1) e z d, []) := by
  have hb : (t % kTimerBucketNum + 1) % kTimerBucketNum ≠ e % kTimerBucketNum := by
    unfold kTimerBucketNum at *
    omega
  have hwc : (((t + 1 : Nat) : Int) - ((sOne iv k j t e z d).cur_bucket_time : Int)).toNat = 1 := by
    show (((t + 1 : Nat) : Int) - ((t : Nat) : Int)).toNat = 1
    push_cast
    omega
  unfold update
  rw [if_neg (show ¬(sOne iv k j t e z d).used_num = 0 by simp [sOne])]
  dsimp only
  rw [hwc]
  simp only [updateAux]
  rw [show (sOne iv k j t e z d).buckets
      (((sOne iv k j t e z d).cur_bucket_pos + 1) % kTimerBucketNum) = 0 from by simp [sOne, hb, hne]]
  rfl

set_option maxHeartbeats 1000000 in
theorem walk_one_fire_rearm (g iv k j t z d : Nat) (tr : Trace) (hbr : k = 0 ∨ j + 1 < k) :
    walkAux passiveCb ((t + 1) % kTimerBucketNum) (t + 1) (t + 1) (g + 1 + 1) 1
        (sOne iv k j t (t + 1) z d) tr
      = some (sOne iv k (j + 1) t (t + 1 + iv) z d, tr ++ [(t + 1, 1 + (z % W32) * W32, d)]) := by
  have hfree : ¬((k : Int) ≠ 0 ∧ (j : Int) + 1 ≥ (k : Int)) := by
    omega
  have hfree2 : ¬(¬k = 0 ∧ (k : Int) ≤ (j : Int) + 1) := by omega
  have hcast2 : (((t : Int) + 1 + (iv : Int)) % (kTimerBucketNum : Int)).toNat
      = (t + 1 + iv) % kTimerBucketNum := by
    unfold kTimerBucketNum
    omega
  rw [walkAux, if_neg (by omega)]
  simp [passiveCb, sOne, setObj, setBucket, storedId, hfree]
  rw [if_neg hfree2, walkAux, if_pos rfl]
  congr 1
  congr 1
  rw [TimerState.mk.injEq]
  refine ⟨rfl, rfl, rfl, rfl, rfl, rfl, ?_, ?_⟩
  · funext x
    rw [hcast2]
    by_cases h1 : x = (t + 1 + iv) % kTimerBucketNum
    · simp [h1]
    · by_cases h2 : x = (t + 1) % kTimerBucketNum <;> simp [h1, h2]
  · funext x
    by_cases hx : x = 1
    · simp [hx, hcast2]
    · simp [hx]

set_option maxHeartbeats 1000000 in
theorem walk_one_fire_free (g iv k j t z d : Nat) (tr : Trace) (hbr : k ≠ 0 ∧ j + 1 ≥ k) :
    walkAux passiveCb ((t + 1) % kTimerBucketNum) (t + 1) (t + 1) (g + 1 + 1) 1
        (sOne iv k j t (t + 1) z d) tr
      = some (sOneDone iv k (j + 1) t (t + 1) z d, tr ++ [(t + 1, 1 + (z % W32) * W32, d)]) := by
  have hfree2 : ¬k = 0 ∧ (k : Int) ≤ (j : Int) + 1 := by
    constructor
    · omega
    · omega
  have e7 : (1 + (W64 - 1)) % W64 = 0 := by
    unfold W64
    omega
  rw [walkAux, if_neg (by omega)]
  simp [passiveCb, sOne, sOneDone, setObj, setBucket, storedId, freeNode, e7]
  rw [if_pos hfree2, walkAux, if_pos rfl]
  congr 1
  congr 1
  rw [TimerState.mk.injEq]
  refine ⟨rfl, rfl, rfl, rfl, rfl, rfl, ?_, ?_⟩
  · funext x
    by_cases h2 : x = (t + 1) % kTimerBucketNum <;> simp [h2]
  · funext x
    by_cases hx : x = 1 <;> simp [hx]

set_option maxHeartbeats 1000000 in
theorem update_one_fire_rearm (iv k j t z d : Nat) (hbr : k = 0 ∨ j + 1 < k) :
    update passiveCb 2 (t + 1) (sOne iv k j t (t + 1) z d)
      = some (sOne iv k (j + 1) (t + 1) (t + 1 + iv) z d,
          [(t + 1, 1 + (z % W32) * W32, d)]) := by
  have hwc : (((t + 1 : Nat) : Int) - ((sOne iv k j t (t + 1) z d).cur_bucket_time : Int)).toNat
      = 1 := by
    show (((t + 1 : Nat) : Int) - ((t : Nat) : Int)).toNat = 1
    push_cast
    omega
  unfold update
  rw [if_neg (show ¬(sOne iv k j t (t + 1) z d).used_num = 0 by simp [sOne])]
  dsimp only
  rw [hwc]
  simp only [updateAux]
  rw [show ((sOne iv k j t (t + 1) z d).cur_bucket_pos + 1) % kTimerBucketNum
      = (t + 1) % kTimerBucketNum from by
    show (t % kTimerBucketNum + 1) % kTimerBucketNum = (t + 1) % kTimerBucketNum
    unfold kTimerBucketNum
    omega]
  rw [show (sOne iv k j t (t + 1) z d).buckets ((t + 1) % kTimerBucketNum) = 1 from by
    simp [sOne]]
  rw [show (sOne iv k j t (t + 1) z d).cur_bucket_time = t from rfl]
  have hw := walk_one_fire_rearm 0 iv k j t z d [] hbr
  norm_num at hw
  rw [hw]
  rfl

set_option maxHeartbeats 1000000 in
theorem update_one_fire_free (iv k j t z d : Nat) (hbr : k ≠ 0 ∧ j + 1 ≥ k) :
    update passiveCb 2 (t + 1) (sOne iv k j t (t + 1) z d)
      = some (sOneDone iv k (j + 1) (t + 1) (t + 1) z d,
          [(t + 1, 1 + (z % W32) * W32, d)]) := by
  have hwc : (((t + 1 : Nat) : Int) - ((sOne iv k j t (t + 1) z d).cur_bucket_time : Int)).toNat
      = 1 := by
    show (((t + 1 : Nat) : Int) - ((t : Nat) : Int)).toNat = 1
    push_cast
    omega
  unfold update
  rw [if_neg (show ¬(sOne iv k j t (t + 1) z d).used_num = 0 by simp [sOne])]
  dsimp only
  rw [hwc]
  simp only [updateAux]
  rw [show ((sOne iv k j t (t + 1) z d).cur_bucket_pos + 1) % kTimerBucketNum
      = (t + 1) % kTimerBucketNum from by
    show (t % kTimerBucketNum + 1) % kTimerBucketNum = (t + 1) % kTimerBucketNum
    unfold kTimerBucketNum
    omega]
  rw [show (sOne iv k j t (t + 1) z d).buckets ((t + 1) % kTimerBucketNum) = 1 from by
    simp [sOne]]
  rw [show (sOne iv k j t (t + 1) z d).cur_bucket_time = t from rfl]
  have hw := walk_one_fire_free 0 iv k j t z d [] hbr
  norm_num at hw
  rw [hw]
  rfl

theorem driveFrom_append (cb : Cb) (fuel : Nat) :
    ∀ (a t b : Nat) (s : TimerState),
      driveFrom cb fuel t (a + b) s =
        match driveFrom cb fuel t a s with
        | none => none
        | some (s1, tr1) =>
          match driveFrom cb fuel (t + a) b s1 with
          | none => none
          | some (s2, tr2) => some (s2, tr1 ++ tr2) := by
  intro a
  induction a with
  | zero =>
    intro t b s
    simp only [Nat.zero_add, Nat.add_zero, driveFrom]
    cases h : driveFrom cb fuel t b s with
    | none => rfl
    | some r => rfl
  | succ a ih =>
    intro t b s
    rw [show a + 1 + b = (a + b) + 1 from by omega]
    simp only [driveFrom]
    cases hu : update cb fuel (t + 1) s with
    | none => rfl
    | some r =>
      obtain ⟨s1, tr1⟩ := r
      dsimp only
      rw [ih (t + 1) b s1]
      rw [show t + 1 + a = t + (a + 1) from by omega]
      cases h1 : driveFrom cb fuel (t + 1) a s1 with
      | none => rfl
      | some r1 =>
        obtain ⟨s2, tr2⟩ := r1
        dsimp only
        cases h2 : driveFrom cb fuel (t + (a + 1)) b s2 with
        | none => rfl
        | some r2 =>
          obtain ⟨s3, tr3⟩ := r2
          simp

theorem drive_one_quiet (cb : Cb) : ∀ (m t e : Nat), t + m < e → e ≤ t + 60 →
    ∀ (iv k j z d : Nat),
      driveFrom cb 2 t m (sOne iv k j t e z d) = some (sOne iv k j (t + m) e z d, []) := by
  intro m
  induction m with
  | zero =>
    intro t e h1 h2 iv k j z d
    rfl
  | succ m ih =>
    intro t e h1 h2 iv k j z d
    have hne : (t + 1) % kTimerBucketNum ≠ e % kTimerBucketNum := by
      unfold kTimerBucketNum
      omega
    simp only [driveFrom]
    rw [update_one_empty cb iv k j t e z d hne]
    dsimp only
    rw [ih (t + 1) e (by omega) (by omega) iv k j z d]
    rw [show t + 1 + m = t + (m + 1) from by omega]
    rfl

theorem drive_one_round_rearm (iv k j t z d : Nat) (hiv1 : 1 ≤ iv) (hiv2 : iv ≤ 60)
    (hbr : k = 0 ∨ j + 1 < k) :
    driveFrom passiveCb 2 t iv (sOne iv k j t (t + iv) z d)
      = some (sOne iv k (j + 1) (t + iv) (t + iv + iv) z d,
          [(t + iv, 1 + (z % W32) * W32, d)]) := by
  obtain ⟨q, rfl⟩ : ∃ q, iv = q + 1 := ⟨iv - 1, by omega⟩
  rw [show t + (q + 1) = t + q + 1 from by omega]
  rw [driveFrom_append passiveCb 2 q t 1 _]
  rw [drive_one_quiet passiveCb q t (t + q + 1) (by omega) (by omega) (q + 1) k j z d]
  dsimp only
  simp only [driveFrom]
  rw [update_one_fire_rearm (q + 1) k j (t + q) z d hbr]
  dsimp only
  simp

theorem drive_one_round_free (iv k j t z d : Nat) (hiv1 : 1 ≤ iv) (hiv2 : iv ≤ 60)
    (hbr : k ≠ 0 ∧ j + 1 ≥ k) :
    driveFrom passiveCb 2 t iv (sOne iv k j t (t + iv) z d)
      = some (sOneDone iv k (j + 1) (t + iv) (t + iv) z d,
          [(t + iv, 1 + (z % W32) * W32, d)]) := by
  obtain ⟨q, rfl⟩ : ∃ q, iv = q + 1 := ⟨iv - 1, by omega⟩
  rw [show t + (q + 1) = t + q + 1 from by omega]
  rw [driveFrom_append passiveCb 2 q t 1 _]
  rw [drive_one_quiet passiveCb q t (t + q + 1) (by omega) (by omega) (q + 1) k j z d]
  dsimp only
  simp only [driveFrom]
  rw [update_one_fire_free (q + 1) k j (t + q) z d hbr]
  dsimp only
  simp

theorem drive_rounds_to_done (iv k z d : Nat) (hiv1 : 1 ≤ iv) (hiv2 : iv ≤ 60) :
    ∀ (r j t : Nat), 1 ≤ r → j + r = k →
      driveFrom passiveCb 2 t (r * iv) (sOne iv k j t (t + iv) z d)
        = some (sOneDone iv k k (t + r * iv) (t + r * iv) z d,
            (List.range r).map fun i => (t + (i + 1) * iv, 1 + (z % W32) * W32, d)) := by
  intro r
  induction r with
  | zero =>
    intro j t h1 h2
    exact absurd h1 (by omega)
  | succ q ih =>
    intro j t h1 h2
    by_cases hq : q = 0
    · subst hq
      rw [show (0 + 1) * iv = iv from by ring]
      rw [drive_one_round_free iv k j t z d hiv1 hiv2 (by omega)]
      rw [show j + 1 = k from by omega]
      rw [show List.range 1 = [0] from rfl]
      simp
    · rw [show (q + 1) * iv = iv + q * iv from by ring]
      rw [driveFrom_append passiveCb 2 iv t (q * iv) _]
      rw [drive_one_round_rearm iv k j t z d hiv1 hiv2 (by omega)]
      dsimp only
      rw [ih (j + 1) (t + iv) (by omega) (by omega)]
      dsimp only
      rw [show t + iv + q * iv = t + (iv + q * iv) from by ring]
      rw [List.range_succ_eq_map]
      simp only [List.map_cons, List.map_map]
      rw [List.singleton_append]
      congr 1
      rw [Prod.mk.injEq]
      refine ⟨rfl, ?_⟩
      congr 1
      · simp
      · refine List.map_congr_left ?_
        intro i hi
        simp only [Function.comp]
        rw [Prod.mk.injEq]
        refine ⟨?_, rfl⟩
        rw [Nat.succ_eq_add_one]
        ring

/-- Claim C5: a timer added with `maxFireCount = k ≥ 1` and valid interval,
under `Update` driven once per tick, fires exactly `k` times — the `i`-th
invocation at tick `t0 + (i+1)·iv`, so consecutive invocations are separated
by exactly `iv` ticks — and after the `k`-th invocation its slot is returned
to the free list (`used_num = 0`, `free_head = 1`, slot unused).  The case
`k = 1` is the one-shot half of the claim: the trace has exactly one entry,
so a one-shot timer is never fired twice. -/
theorem repeating_timer_fires_exactly_k (iv k t0 z d : Nat)
    (hiv1 : 1 ≤ iv) (hiv2 : iv ≤ kTimerBucketNum) (hk : 1 ≤ k) :
    (addTimer t0 (iv : Int) (k : Int) d (initFresh 1 t0 z)).1 = .ok (1 + (z % W32) * W32)
    ∧ driveFrom passiveCb 2 t0 (k * iv) ((addTimer t0 (iv : Int) (k : Int) d (initFresh 1 t0 z)).2)
        = some (sOneDone iv k k (t0 + k * iv) (t0 + k * iv) z d,
            (List.range k).map fun i => (t0 + (i + 1) * iv, 1 + (z % W32) * W32, d))
    ∧ (sOneDone iv k k (t0 + k * iv) (t0 + k * iv) z d).used_num = 0
    ∧ (sOneDone iv k k (t0 + k * iv) (t0 + k * iv) z d).free_head = 1
    ∧ ((sOneDone iv k k (t0 + k * iv) (t0 + k * iv) z d).objs 1).used = false := by
  have hiv2n : iv ≤ 60 := hiv2
  obtain ⟨h1, h2⟩ := addTimer_fresh_one iv k t0 z d hiv1 hiv2n
  refine ⟨h1, ?_, rfl, rfl, rfl⟩
  rw [h2]
  exact drive_rounds_to_done iv k z d hiv1 hiv2n k 0 t0 hk (by omega)

theorem repeating_timer_fires_exactly_k_witness :
    (addTimer 0 ((5 : Nat) : Int) ((3 : Nat) : Int) 4 (initFresh 1 0 0)).1
      = .ok (1 + (0 % W32) * W32)
    ∧ driveFrom passiveCb 2 0 (3 * 5) ((addTimer 0 ((5 : Nat) : Int) ((3 : Nat) : Int) 4 (initFresh 1 0 0)).2)
        = some (sOneDone 5 3 3 (0 + 3 * 5) (0 + 3 * 5) 0 4,
            (List.range 3).map fun i => (0 + (i + 1) * 5, 1 + (0 % W32) * W32, 4))
    ∧ (sOneDone 5 3 3 (0 + 3 * 5) (0 + 3 * 5) 0 4).used_num = 0
    ∧ (sOneDone 5 3 3 (0 + 3 * 5) (0 + 3 * 5) 0 4).free_head = 1
    ∧ ((sOneDone 5 3 3 (0 + 3 * 5) (0 + 3 * 5) 0 4).objs 1).used = false :=
  repeating_timer_fires_exactly_k 5 3 0 0 4 (by omega) (by decide) (by omega)

theorem update_done_ff (cb : Cb) (iv k j t e z d now : Nat) :
    update cb 2 now (sOneDone iv k j t e z d)
      = some (sOneDone iv k j now e z d, []) := by
  unfold update
  rw [if_pos (show (sOneDone iv k j t e z d).used_num = 0 from rfl)]
  rfl

theorem driveFrom_done (cb : Cb) : ∀ (m t : Nat) (iv k j e z d : Nat),
    driveFrom cb 2 t m (sOneDone iv k j t e z d)
      = some (sOneDone iv k j (t + m) e z d, []) := by
  intro m
  induction m with
  | zero => intro t iv k j e z d; rfl
  | succ m ih =>
    intro t iv k j e z d
    simp only [driveFrom]
    rw [update_done_ff cb iv k j t e z d (t + 1)]
    dsimp only
    rw [ih (t + 1) iv k j e z d]
    rw [show t + 1 + m = t + (m + 1) from by omega]
    rfl

set_option maxHeartbeats 1000000 in
theorem walk_one_fire_selfdel (g iv k j t z d : Nat) (tr : Trace) :
    walkAux selfDelCb ((t + 1) % kTimerBucketNum) (t + 1) (t + 1) (g + 1 + 1) 1
        (sOne iv k j t (t + 1) z d) tr
      = some (sOneDone iv k (j + 1) t (t + 1) z d, tr ++ [(t + 1, 1 + (z % W32) * W32, d)]) := by
  have e7 : (1 + (W64 - 1)) % W64 = 0 := by
    unfold W64
    omega
  have e8 : (1 + z % W32 * W32) % W32 = 1 := by
    unfold W32
    omega
  have hcast : (((t : Int) + 1) % (kTimerBucketNum : Int)).toNat
      = (t + 1) % kTimerBucketNum := by
    unfold kTimerBucketNum
    omega
  rw [walkAux, if_neg (by omega)]
  simp [selfDelCb, delTimer, findAux, sOne, sOneDone, setObj, setBucket, storedId,
    freeNode, e7, e8, hcast]
  rw [walkAux, if_pos rfl]
  congr 1
  congr 1
  rw [TimerState.mk.injEq]
  refine ⟨rfl, rfl, rfl, rfl, rfl, rfl, ?_, ?_⟩
  · funext x
    by_cases h2 : x = (t + 1) % kTimerBucketNum <;> simp [h2]
  · funext x
    by_cases hx : x = 1 <;> simp [hx]

set_option maxHeartbeats 1000000 in
theorem update_one_fire_selfdel (iv k j t z d : Nat) :
    update selfDelCb 2 (t + 1) (sOne iv k j t (t + 1) z d)
      = some (sOneDone iv k (j + 1) (t + 1) (t + 1) z d,
          [(t + 1, 1 + (z % W32) * W32, d)]) := by
  have hwc : (((t + 1 : Nat) : Int) - ((sOne iv k j t (t + 1) z d).cur_bucket_time : Int)).toNat
      = 1 := by
    show (((t + 1 : Nat) : Int) - ((t : Nat) : Int)).toNat = 1
    push_cast
    omega
  unfold update
  rw [if_neg (show ¬(sOne iv k j t (t + 1) z d).used_num = 0 by simp [sOne])]
  dsimp only
  rw [hwc]
  simp only [updateAux]
  rw [show ((sOne iv k j t (t + 1) z d).cur_bucket_pos + 1) % kTimerBucketNum
      = (t + 1) % kTimerBucketNum from by
    show (t % kTimerBucketNum + 1) % kTimerBucketNum = (t + 1) % kTimerBucketNum
    unfold kTimerBucketNum
    omega]
  rw [show (sOne iv k j t (t + 1) z d).buckets ((t + 1) % kTimerBucketNum) = 1 from by
    simp [sOne]]
  rw [show (sOne iv k j t (t + 1) z d).cur_bucket_time = t from rfl]
  have hw := walk_one_fire_selfdel 0 iv k j t z d []
  norm_num at hw
  rw [hw]
  rfl

theorem drive_one_round_selfdel (iv k j t z d : Nat) (hiv1 : 1 ≤ iv) (hiv2 : iv ≤ 60) :
    driveFrom selfDelCb 2 t iv (sOne iv k j t (t + iv) z d)
      = some (sOneDone iv k (j + 1) (t + iv) (t + iv) z d,
          [(t + iv, 1 + (z % W32) * W32, d)]) := by
  obtain ⟨q, rfl⟩ : ∃ q, iv = q + 1 := ⟨iv - 1, by omega⟩
  rw [show t + (q + 1) = t + q + 1 from by omega]
  rw [driveFrom_append selfDelCb 2 q t 1 _]
  rw [drive_one_quiet selfDelCb q t (t + q + 1) (by omega) (by omega) (q + 1) k j z d]
  dsimp only
  simp only [driveFrom]
  rw [update_one_fire_selfdel (q + 1) k j (t + q) z d]
  dsimp only
  simp

/-- Claim C6: in the tick-advance walk the fire count is bumped and the
callback runs before the slot is unlinked, and the slot's `used` flag is
re-checked after the callback returns; hence a callback that deletes its own
timer is safe.  On a capacity-1 wheel with `selfDelCb` (the callback calls
`DelTimer` on its own handle): the timer fires exactly once (one trace
entry); afterwards `used_num = 0` exactly — the `size_t` decrement wraps, so
a second release by `Update` would have left `used_num = 2^64 - 1`, and
re-arming would have left it at 1 — the slot is back on the free list and
unused, and any number of further per-tick `Update` calls fire nothing. -/
theorem self_delete_in_callback_safe (iv k t0 z d : Nat)
    (hiv1 : 1 ≤ iv) (hiv2 : iv ≤ kTimerBucketNum) :
    driveFrom selfDelCb 2 t0 iv ((addTimer t0 (iv : Int) (k : Int) d (initFresh 1 t0 z)).2)
      = some (sOneDone iv k 1 (t0 + iv) (t0 + iv) z d, [(t0 + iv, 1 + (z % W32) * W32, d)])
    ∧ (sOneDone iv k 1 (t0 + iv) (t0 + iv) z d).used_num = 0
    ∧ (sOneDone iv k 1 (t0 + iv) (t0 + iv) z d).free_head = 1
    ∧ ((sOneDone iv k 1 (t0 + iv) (t0 + iv) z d).objs 1).used = false
    ∧ ∀ m, driveFrom selfDelCb 2 (t0 + iv) m (sOneDone iv k 1 (t0 + iv) (t0 + iv) z d)
        = some (sOneDone iv k 1 (t0 + iv + m) (t0 + iv) z d, []) := by
  obtain ⟨h1, h2⟩ := addTimer_fresh_one iv k t0 z d hiv1 hiv2
  refine ⟨?_, rfl, rfl, rfl, ?_⟩
  · rw [h2]
    exact drive_one_round_selfdel iv k 0 t0 z d hiv1 hiv2
  · intro m
    exact driveFrom_done selfDelCb m (t0 + iv) iv k 1 (t0 + iv) z d

theorem self_delete_in_callback_safe_witness :
    driveFrom selfDelCb 2 0 7 ((addTimer 0 ((7 : Nat) : Int) ((2 : Nat) : Int) 9 (initFresh 1 0 3)).2)
      = some (sOneDone 7 2 1 (0 + 7) (0 + 7) 3 9, [(0 + 7, 1 + (3 % W32) * W32, 9)])
    ∧ (sOneDone 7 2 1 (0 + 7) (0 + 7) 3 9).used_num = 0
    ∧ (sOneDone 7 2 1 (0 + 7) (0 + 7) 3 9).free_head = 1
    ∧ ((sOneDone 7 2 1 (0 + 7) (0 + 7) 3 9).objs 1).used = false
    ∧ ∀ m, driveFrom selfDelCb 2 (0 + 7) m (sOneDone 7 2 1 (0 + 7) (0 + 7) 3 9)
        = some (sOneDone 7 2 1 (0 + 7 + m) (0 + 7) 3 9, []) :=
  self_delete_in_callback_safe 7 2 0 3 9 (by omega) (by decide)

set_option maxHeartbeats 1000000 in
theorem addTimer_on_done (iv k t0 z d : Nat) (hiv1 : 1 ≤ iv) (hiv2 : iv ≤ 60) :
    (addTimer t0 (iv : Int) (k : Int) d (sOneDone iv k 0 t0 (t0 + iv) z d)).1
      = .ok (1 + ((z + 1) % W32) * W32)
    ∧ (addTimer t0 (iv : Int) (k : Int) d (sOneDone iv k 0 t0 (t0 + iv) z d)).2
      = sOne iv k 0 t0 (t0 + iv) (z + 1) d := by
  have e1 : iv ≠ 0 := by omega
  have e2 : ¬ kTimerBucketNum < iv := by
    unfold kTimerBucketNum
    omega
  have e3 : ¬ (k : Int) < 0 := by omega
  have e4 : ¬ (iv : Int) < 0 := by omega
  have e5 : (1 : Nat) % W32 = 1 := by
    unfold W32
    omega
  have e6 : (1 : Nat) % W64 = 1 := by
    unfold W64
    omega
  have e9 : (z % W32 + 1) % W32 = (z + 1) % W32 := by
    unfold W32
    omega
  have hcast : (((t0 : Int) + (iv : Int)) % (kTimerBucketNum : Int)).toNat
      = (t0 + iv) % kTimerBucketNum := by
    unfold kTimerBucketNum
    omega
  constructor
  · simp [addTimer, allocNode, sOneDone, setObj, setBucket, storedId,
      e1, e2, e3, e4, e5, e9]
  · simp [addTimer, allocNode, sOneDone, setObj, setBucket, storedId,
      e1, e2, e3, e4, e5, e6, e9]
    apply TimerState.ext
    · rfl
    · rfl
    · rfl
    · rfl
    · rfl
    · show (z + 1 + 1) % W32 = ((z + 1) % W32 + 1) % W32
      unfold W32
      omega
    · funext b
      simp [sOne, hcast]
    · funext x
      by_cases hx : x = 1
      · simp [sOne, hx, e9]
      · simp [sOne, hx]

set_option maxHeartbeats 1000000 in
theorem delTimer_sOne (iv k j t e z d : Nat) :
    delTimer (1 + (z % W32) * W32) (sOne iv k j t e z d)
      = (.ok (), sOneDone iv k j t e z d) := by
  have e7 : (1 + (W64 - 1)) % W64 = 0 := by
    unfold W64
    omega
  have e8 : (1 + z % W32 * W32) % W32 = 1 := by
    unfold W32
    omega
  have hcast : (((e : Nat) : Int) % (kTimerBucketNum : Int)).toNat = e % kTimerBucketNum := by
    unfold kTimerBucketNum
    omega
  simp [delTimer, findAux, sOne, sOneDone, setObj, setBucket, storedId,
    freeNode, e7, e8, hcast]
  refine ⟨?_, ?_⟩
  · funext x
    by_cases h2 : x = e % kTimerBucketNum <;> simp [h2]
  · funext x
    by_cases hx : x = 1 <;> simp [hx]

theorem delTimer_stale (iv k j t e z w d : Nat) (hw : w ≠ z % W32) :
    delTimer (1 + w * W32) (sOne iv k j t e z d)
      = (.error .badHandle, sOne iv k j t e z d) := by
  have e8w : (1 + w * W32) % W32 = 1 := by
    unfold W32
    omega
  have hne : (1 : Nat) + z % W32 * W32 ≠ 1 + w * W32 := by
    unfold W32 at hw ⊢
    omega
  simp [delTimer, sOne, storedId, setObj, e8w, hne]

theorem getExpireTime_sOne (iv k j t e z d : Nat) :
    getExpireTime (1 + (z % W32) * W32) (sOne iv k j t e z d) = .ok ((e : Nat) : Int) := by
  have e8 : (1 + z % W32 * W32) % W32 = 1 := by
    unfold W32
    omega
  simp [getExpireTime, sOne, storedId, e8]

theorem getExpireTime_stale (iv k j t e z w d : Nat) (hw : w ≠ z % W32) :
    getExpireTime (1 + w * W32) (sOne iv k j t e z d) = .error .badHandle := by
  have e8w : (1 + w * W32) % W32 = 1 := by
    unfold W32
    omega
  have hne : (1 : Nat) + z % W32 * W32 ≠ 1 + w * W32 := by
    unfold W32 at hw ⊢
    omega
  simp [getExpireTime, sOne, storedId, e8w, hne]

theorem churn_step (iv k t0 z d : Nat) (hiv1 : 1 ≤ iv) (hiv2 : iv ≤ 60) :
    churn t0 (iv : Int) (k : Int) d (sOneDone iv k 0 t0 (t0 + iv) z d)
      = sOneDone iv k 0 t0 (t0 + iv) (z + 1) d := by
  obtain ⟨h1, h2⟩ := addTimer_on_done iv k t0 z d hiv1 hiv2
  unfold churn
  dsimp only
  rw [h1]
  dsimp only
  rw [h2, delTimer_sOne iv k 0 t0 (t0 + iv) (z + 1) d]

theorem churn_iter (iv k t0 d : Nat) (hiv1 : 1 ≤ iv) (hiv2 : iv ≤ 60) :
    ∀ (n z : Nat),
      Nat.iterate (churn t0 (iv : Int) (k : Int) d) n (sOneDone iv k 0 t0 (t0 + iv) z d)
        = sOneDone iv k 0 t0 (t0 + iv) (z + n) d := by
  intro n
  induction n with
  | zero => intro z; rfl
  | succ n ih =>
    intro z
    rw [Function.iterate_succ_apply, churn_step iv k t0 z d hiv1 hiv2, ih (z + 1)]
    rw [show z + 1 + n = z + (n + 1) from by omega]

theorem reuseState_eq (iv k t0 z d : Nat) (hiv1 : 1 ≤ iv) (hiv2 : iv ≤ 60) :
    reuseState iv k t0 z d = sOne iv k 0 t0 (t0 + iv) (z + 1) d := by
  obtain ⟨h1, h2⟩ := addTimer_fresh_one iv k t0 z d hiv1 hiv2
  unfold reuseState
  rw [h2, delTimer_sOne iv k 0 t0 (t0 + iv) z d]
  exact (addTimer_on_done iv k t0 z d hiv1 hiv2).2

theorem abaState_eq (iv k t0 z d : Nat) (hiv1 : 1 ≤ iv) (hiv2 : iv ≤ 60) :
    abaState iv k t0 z d = sOne iv k 0 t0 (t0 + iv) (z + W32) d := by
  obtain ⟨h1, h2⟩ := addTimer_fresh_one iv k t0 z d hiv1 hiv2
  unfold abaState
  rw [h2, delTimer_sOne iv k 0 t0 (t0 + iv) z d]
  have hC := churn_iter iv k t0 d hiv1 hiv2 (W32 - 1) z
  rw [show ((Except.ok (), sOneDone iv k 0 t0 (t0 + iv) z d) :
      Except TErr Unit × TimerState).2 = sOneDone iv k 0 t0 (t0 + iv) z d from rfl]
  rw [hC]
  rw [show z + (W32 - 1) = z + W32 - 1 from by
    unfold W32
    omega]
  have h2' := (addTimer_on_done iv k t0 (z + W32 - 1) d hiv1 hiv2).2
  rw [h2']
  rw [show z + W32 - 1 + 1 = z + W32 from by
    unfold W32
    omega]

/-- Claim C3 (amended): reusing a freed slot assigns a different sequence
number, and the old handle is rejected (`badHandle`, the model's
`InvalidHandle`) by `DelTimer` — with the state untouched — and by
`GetExpireTime`, PROVIDED fewer than `2^32` allocations intervene: the
sequence counter is a `uint32_t`, so distinctness only holds modulo `2^32`
(see the counterexample for the wrap).  Shown here for the first reuse of the
slot: add, delete, add again on a capacity-1 wheel. -/
theorem stale_handle_rejected_after_single_reuse (iv k t0 z d : Nat)
    (hiv1 : 1 ≤ iv) (hiv2 : iv ≤ kTimerBucketNum) :
    storedId (reuseState iv k t0 z d) 1 ≠ 1 + (z % W32) * W32
    ∧ ((reuseState iv k t0 z d).objs 1).used = true
    ∧ delTimer (1 + (z % W32) * W32) (reuseState iv k t0 z d)
        = (.error .badHandle, reuseState iv k t0 z d)
    ∧ getExpireTime (1 + (z % W32) * W32) (reuseState iv k t0 z d)
        = .error .badHandle := by
  have hre := reuseState_eq iv k t0 z d hiv1 hiv2
  refine ⟨?_, ?_, ?_, ?_⟩
  · rw [hre]
    show 1 + ((z + 1) % W32) * W32 ≠ 1 + (z % W32) * W32
    unfold W32
    omega
  · rw [hre]
    rfl
  · rw [hre]
    exact delTimer_stale iv k 0 t0 (t0 + iv) (z + 1) (z % W32) d (by
      unfold W32
      omega)
  · rw [hre]
    exact getExpireTime_stale iv k 0 t0 (t0 + iv) (z + 1) (z % W32) d (by
      unfold W32
      omega)

theorem stale_handle_rejected_after_single_reuse_witness :
    storedId (reuseState 6 2 3 5 11) 1 ≠ 1 + (5 % W32) * W32
    ∧ ((reuseState 6 2 3 5 11).objs 1).used = true
    ∧ delTimer (1 + (5 % W32) * W32) (reuseState 6 2 3 5 11)
        = (.error .badHandle, reuseState 6 2 3 5 11)
    ∧ getExpireTime (1 + (5 % W32) * W32) (reuseState 6 2 3 5 11)
        = .error .badHandle :=
  stale_handle_rejected_after_single_reuse 6 2 3 5 11 (by omega) (by decide)

/-- Claim C3, counterexample to the unbounded reading: the sequence counter
is a `uint32_t`, so after the slot is freed and then churned through exactly
`2^32` further allocations (`abaState`: add, delete, `2^32 - 1` add/delete
churns, one final add), the new timer is assigned the SAME sequence number
the original handle carried.  The stale handle then aliases the new timer:
`DelTimer` with the old handle returns ok and frees the new timer, and
`GetExpireTime` reads it, instead of `InvalidHandle`. -/
theorem stale_handle_aba_cex :
    (addTimer 0 ((5 : Nat) : Int) ((1 : Nat) : Int) 7 (initFresh 1 0 0)).1
      = .ok (1 + (0 % W32) * W32)
    ∧ storedId (abaState 5 1 0 0 7) 1 = 1 + (0 % W32) * W32
    ∧ ((abaState 5 1 0 0 7).objs 1).used = true
    ∧ (delTimer (1 + (0 % W32) * W32) (abaState 5 1 0 0 7)).1 = .ok ()
    ∧ ((delTimer (1 + (0 % W32) * W32) (abaState 5 1 0 0 7)).2.objs 1).used = false
    ∧ getExpireTime (1 + (0 % W32) * W32) (abaState 5 1 0 0 7)
        = .ok (((0 + 5 : Nat)) : Int) := by
  have hA := abaState_eq 5 1 0 0 7 (by omega) (by omega)
  have hmod : ((0 : Nat) + W32) % W32 = 0 % W32 := by
    unfold W32
    omega
  have hdel := delTimer_sOne 5 1 0 0 (0 + 5) (0 + W32) 7
  rw [hmod] at hdel
  have hget := getExpireTime_sOne 5 1 0 0 (0 + 5) (0 + W32) 7
  rw [hmod] at hget
  refine ⟨(addTimer_fresh_one 5 1 0 0 7 (by omega) (by omega)).1, ?_, ?_, ?_, ?_, ?_⟩
  · rw [hA]
    show 1 + ((0 + W32) % W32) * W32 = 1 + (0 % W32) * W32
    rw [hmod]
  · rw [hA]
    rfl
  · rw [hA, hdel]
  · rw [hA, hdel]
    rfl
  · rw [hA]
    exact hget

set_option maxRecDepth 10000 in
/-- Claim C10: `AddTimer` always links the new slot at the front of its
destination bucket (the bucket head becomes the allocated slot, whose `next`
is the old head), and the tick-advance walk starts from the bucket head;
hence timers of one bucket due at the same tick fire in LIFO order.  The
concrete conjunct: capacity-2 wheel, timer A (payload 7, handle 1) added
before timer B (payload 8, handle 2 + 1·2^32), both due at tick 5 — one
`Update` fires B first, then A. -/
theorem addTimer_front_insert_lifo (now : Nat) (iv mf : Int) (d : Nat) (s : TimerState)
    (hg : s.free_head > 0 ∧ s.used_num ≤ s.max_num)
    (hiv0 : 0 < iv) (hiv1 : iv ≤ (kTimerBucketNum : Int)) (hmf : 0 ≤ mf)
    (hck : (s.cur_bucket_time : Int) ≤ (now : Int) + iv) :
    ((addTimer now iv mf d s).2.buckets ((((now : Int) + iv) % (kTimerBucketNum : Int)).toNat)
        = s.free_head
      ∧ ((addTimer now iv mf d s).2.objs s.free_head).next
        = s.buckets ((((now : Int) + iv) % (kTimerBucketNum : Int)).toNat))
    ∧ (update passiveCb 5 5 c10s).map Prod.snd
        = some [(5, 2 + 1 * W32, 8), (5, 1, 7)] := by
  constructor
  · have hb : ¬(iv ≤ 0 ∨ iv > (kTimerBucketNum : Int) ∨ mf < 0) := by omega
    have hc : ¬((now : Int) + iv < (s.cur_bucket_time : Int)) := by omega
    have hf : s.free_head ≠ 0 := by omega
    rcases eq_or_ne (s.buckets ((((now : Int) + iv) % (kTimerBucketNum : Int)).toNat))
        s.free_head with hh | hh
    · simp only [addTimer, allocNode_pos s hg, hb, hc]
      simp [hf, hh, setObj, setBucket, storedId]
    · rcases eq_or_ne (s.buckets ((((now : Int) + iv) % (kTimerBucketNum : Int)).toNat)) 0
        with h0 | h0
      · simp only [addTimer, allocNode_pos s hg, hb, hc]
        simp [hf, hh, h0, setObj, setBucket, storedId]
      · simp only [addTimer, allocNode_pos s hg, hb, hc]
        simp [hf, hh, Ne.symm hh, h0, setObj, setBucket, storedId]
  · decide

set_option maxRecDepth 10000 in
theorem addTimer_front_insert_lifo_witness :
    ((addTimer 0 5 1 9 (initFresh 3 0 0)).2.buckets
        (((((0 : Nat) : Int) + 5) % (kTimerBucketNum : Int)).toNat)
        = (initFresh 3 0 0).free_head
      ∧ ((addTimer 0 5 1 9 (initFresh 3 0 0)).2.objs (initFresh 3 0 0).free_head).next
        = (initFresh 3 0 0).buckets (((((0 : Nat) : Int) + 5) % (kTimerBucketNum : Int)).toNat))
    ∧ (update passiveCb 5 5 c10s).map Prod.snd
        = some [(5, 2 + 1 * W32, 8), (5, 1, 7)] :=
  addTimer_front_insert_lifo 0 5 1 9 (initFresh 3 0 0)
    (by decide) (by decide) (by decide) (by decide) (by decide)

theorem updateAux_append (cb : Cb) (fuel now t0 : Nat) :
    ∀ (a b i : Nat) (s : TimerState) (tr : Trace),
      updateAux cb fuel now t0 (a + b) i s tr =
        match updateAux cb fuel now t0 a i s tr with
        | none => none
        | some (s1, tr1) => updateAux cb fuel now t0 b (i + a) s1 tr1 := by
  intro a
  induction a with
  | zero =>
    intro b i s tr
    simp only [Nat.add_zero, Nat.zero_add, updateAux]
  | succ a ih =>
    intro b i s tr
    rw [show a + 1 + b = (a + b) + 1 from by omega]
    simp only [updateAux]
    cases hw : walkAux cb ((s.cur_bucket_pos + i) % kTimerBucketNum) (t0 + i) now fuel
        (s.buckets ((s.cur_bucket_pos + i) % kTimerBucketNum)) s tr with
    | none => rfl
    | some r =>
      obtain ⟨s1, tr1⟩ := r
      dsimp only
      rw [ih b (i + 1) s1 tr1]
      rw [show i + 1 + a = i + (a + 1) from by omega]

theorem updateAux_quiet (cb : Cb) (g now t0 : Nat) :
    ∀ (n i : Nat) (s : TimerState) (tr : Trace),
      (∀ m, m < n → s.buckets ((s.cur_bucket_pos + (i + m)) % kTimerBucketNum) = 0) →
      updateAux cb (g + 1) now t0 n i s tr = some (s, tr) := by
  intro n
  induction n with
  | zero => intro i s tr _; rfl
  | succ n ih =>
    intro i s tr h
    simp only [updateAux]
    rw [show s.buckets ((s.cur_bucket_pos + i) % kTimerBucketNum) = 0 from by
      have := h 0 (by omega)
      simpa using this]
    rw [walkAux, if_pos rfl]
    exact ih (i + 1) s tr (fun m hm => by
      have := h (m + 1) (by omega)
      rw [show i + 1 + m = i + (m + 1) from by omega]
      exact this)

set_option maxHeartbeats 1000000 in
theorem walk_fire_free_at (g iv k j e tick now t z d : Nat) (tr : Trace)
    (hbr : k ≠ 0 ∧ j + 1 ≥ k) :
    walkAux passiveCb (e % kTimerBucketNum) tick now (g + 1 + 1) 1
        (sOne iv k j t e z d) tr
      = some (sOneDone iv k (j + 1) t e z d, tr ++ [(tick, 1 + (z % W32) * W32, d)]) := by
  have hfree2 : ¬k = 0 ∧ (k : Int) ≤ (j : Int) + 1 := by
    constructor
    · omega
    · omega
  have e7 : (1 + (W64 - 1)) % W64 = 0 := by
    unfold W64
    omega
  rw [walkAux, if_neg (by omega)]
  simp [passiveCb, sOne, sOneDone, setObj, setBucket, storedId, freeNode, e7]
  rw [if_pos hfree2, walkAux, if_pos rfl]
  congr 1
  congr 1
  rw [TimerState.mk.injEq]
  refine ⟨rfl, rfl, rfl, rfl, rfl, rfl, ?_, ?_⟩
  · funext x
    by_cases h2 : x = e % kTimerBucketNum <;> simp [h2]
  · funext x
    by_cases hx : x = 1 <;> simp [hx]

set_option maxHeartbeats 1000000 in
theorem update_batch_one_shot (iv m t0 z d : Nat)
    (hiv1 : 1 ≤ iv) (hiv2 : iv ≤ 60) (hm : iv ≤ m) :
    update passiveCb 2 (t0 + m) (sOne iv 1 0 t0 (t0 + iv) z d)
      = some (sOneDone iv 1 1 (t0 + m) (t0 + iv) z d,
          [(t0 + iv, 1 + (z % W32) * W32, d)]) := by
  have hwc : (((t0 + m : Nat) : Int)
      - ((sOne iv 1 0 t0 (t0 + iv) z d).cur_bucket_time : Int)).toNat = m := by
    show (((t0 + m : Nat) : Int) - ((t0 : Nat) : Int)).toNat = m
    push_cast
    omega
  have hq : ∀ mm, mm < iv - 1 → (sOne iv 1 0 t0 (t0 + iv) z d).buckets
      (((sOne iv 1 0 t0 (t0 + iv) z d).cur_bucket_pos + (1 + mm)) % kTimerBucketNum) = 0 := by
    intro mm hmm
    show (if (t0 % kTimerBucketNum + (1 + mm)) % kTimerBucketNum
        = (t0 + iv) % kTimerBucketNum then 1 else 0) = 0
    rw [if_neg (by
      unfold kTimerBucketNum
      omega)]
  unfold update
  rw [if_neg (show ¬(sOne iv 1 0 t0 (t0 + iv) z d).used_num = 0 by simp [sOne])]
  dsimp only
  rw [hwc]
  rw [show (sOne iv 1 0 t0 (t0 + iv) z d).cur_bucket_time = t0 from rfl]
  rw [show m = (iv - 1) + (1 + (m - iv)) from by omega]
  rw [updateAux_append passiveCb 2 (t0 + ((iv - 1) + (1 + (m - iv)))) t0 (iv - 1)
    (1 + (m - iv)) 1 _ []]
  rw [updateAux_quiet passiveCb 1 (t0 + ((iv - 1) + (1 + (m - iv)))) t0 (iv - 1) 1 _ [] hq]
  dsimp only
  rw [show 1 + (iv - 1) = iv from by omega]
  rw [show 1 + (m - iv) = (m - iv) + 1 from by omega]
  simp only [updateAux]
  rw [show ((sOne iv 1 0 t0 (t0 + iv) z d).cur_bucket_pos + iv) % kTimerBucketNum
      = (t0 + iv) % kTimerBucketNum from by
    show (t0 % kTimerBucketNum + iv) % kTimerBucketNum = (t0 + iv) % kTimerBucketNum
    unfold kTimerBucketNum
    omega]
  rw [show (sOne iv 1 0 t0 (t0 + iv) z d).buckets ((t0 + iv) % kTimerBucketNum) = 1 from by
    simp [sOne]]
  have hw := walk_fire_free_at 0 iv 1 0 (t0 + iv) (t0 + iv)
    (t0 + ((iv - 1) + ((m - iv) + 1))) t0 z d [] (by omega)
  norm_num at hw
  rw [hw]
  dsimp only
  rw [updateAux_quiet passiveCb 1 (t0 + ((iv - 1) + ((m - iv) + 1))) t0 (m - iv) (iv + 1)
    _ _ (fun mm hmm => rfl)]
  dsimp only
  rw [show (iv - 1) + ((m - iv) + 1) = m from by omega]
  rfl

theorem drive_one_shot (iv m t0 z d : Nat)
    (hiv1 : 1 ≤ iv) (hiv2 : iv ≤ 60) (hm : iv ≤ m) :
    driveFrom passiveCb 2 t0 m (sOne iv 1 0 t0 (t0 + iv) z d)
      = some (sOneDone iv 1 1 (t0 + m) (t0 + iv) z d,
          [(t0 + iv, 1 + (z % W32) * W32, d)]) := by
  rw [show m = iv + (m - iv) from by omega]
  rw [driveFrom_append passiveCb 2 iv t0 (m - iv) _]
  rw [drive_one_round_free iv 1 0 t0 z d hiv1 hiv2 (by omega)]
  dsimp only
  rw [driveFrom_done passiveCb (m - iv) (t0 + iv) iv 1 1 (t0 + iv) z d]
  rw [show t0 + iv + (m - iv) = t0 + (iv + (m - iv)) from by omega]
  simp

/-- Claim C1 (amended): the catch-up loop does walk every elapsed tick in
order, so each armed timer fires at its due ticks within the window — but a
repeating timer is re-armed from the final `now`, not from its due tick, so
for `maxFireCount ≠ 1` the batched call is NOT equivalent to per-tick calls
(see the counterexample).  For a ONE-SHOT timer the claimed equivalence
holds: one `Update` after `m ≥ iv` elapsed ticks (in particular `m > B`)
produces exactly the same trace — a single firing at the due tick
`t0 + iv` — and the same final state as `m` per-tick `Update` calls. -/
theorem catchup_equiv_one_shot (iv m t0 z d : Nat)
    (hiv1 : 1 ≤ iv) (hiv2 : iv ≤ kTimerBucketNum) (hm : iv ≤ m) :
    update passiveCb 2 (t0 + m)
        ((addTimer t0 (iv : Int) ((1 : Nat) : Int) d (initFresh 1 t0 z)).2)
      = some (sOneDone iv 1 1 (t0 + m) (t0 + iv) z d,
          [(t0 + iv, 1 + (z % W32) * W32, d)])
    ∧ driveFrom passiveCb 2 t0 m
        ((addTimer t0 (iv : Int) ((1 : Nat) : Int) d (initFresh 1 t0 z)).2)
      = some (sOneDone iv 1 1 (t0 + m) (t0 + iv) z d,
          [(t0 + iv, 1 + (z % W32) * W32, d)]) := by
  obtain ⟨h1, h2⟩ := addTimer_fresh_one iv 1 t0 z d hiv1 hiv2
  rw [h2]
  exact ⟨update_batch_one_shot iv m t0 z d hiv1 hiv2 hm,
    drive_one_shot iv m t0 z d hiv1 hiv2 hm⟩

theorem catchup_equiv_one_shot_witness :
    update passiveCb 2 (0 + 100)
        ((addTimer 0 ((5 : Nat) : Int) ((1 : Nat) : Int) 2 (initFresh 1 0 0)).2)
      = some (sOneDone 5 1 1 (0 + 100) (0 + 5) 0 2,
          [(0 + 5, 1 + (0 % W32) * W32, 2)])
    ∧ driveFrom passiveCb 2 0 100
        ((addTimer 0 ((5 : Nat) : Int) ((1 : Nat) : Int) 2 (initFresh 1 0 0)).2)
      = some (sOneDone 5 1 1 (0 + 100) (0 + 5) 0 2,
          [(0 + 5, 1 + (0 % W32) * W32, 2)]) :=
  catchup_equiv_one_shot 5 100 0 0 2 (by omega) (by decide) (by omega)

theorem addTimer_error_classification_witness :
    ((addTimer 0 5 1 4 (initFresh 2 0 0)).1 = .error .invalidArg ↔
      ((5 : Int) ≤ 0 ∨ (5 : Int) > (kTimerBucketNum : Int) ∨ (1 : Int) < 0))
    ∧ ((addTimer 0 5 1 4 (initFresh 2 0 0)).1 = .error .clockReg ↔
      (¬((5 : Int) ≤ 0 ∨ (5 : Int) > (kTimerBucketNum : Int) ∨ (1 : Int) < 0) ∧
        ((0 : Nat) : Int) + 5 < ((initFresh 2 0 0).cur_bucket_time : Int)))
    ∧ ((addTimer 0 5 1 4 (initFresh 2 0 0)).1 = .error .exhausted ↔
      (¬((5 : Int) ≤ 0 ∨ (5 : Int) > (kTimerBucketNum : Int) ∨ (1 : Int) < 0) ∧
        ¬(((0 : Nat) : Int) + 5 < ((initFresh 2 0 0).cur_bucket_time : Int)) ∧
        (initFresh 2 0 0).free_head = 0))
    ∧ (¬((5 : Int) ≤ 0 ∨ (5 : Int) > (kTimerBucketNum : Int) ∨ (1 : Int) < 0) →
        ¬(((0 : Nat) : Int) + 5 < ((initFresh 2 0 0).cur_bucket_time : Int)) →
        (initFresh 2 0 0).free_head ≠ 0 →
        (addTimer 0 5 1 4 (initFresh 2 0 0)).1
          = .ok ((initFresh 2 0 0).free_head % W32 + (initFresh 2 0 0).seq * W32) ∧
        ((addTimer 0 5 1 4 (initFresh 2 0 0)).2.objs (initFresh 2 0 0).free_head).used = true ∧
        (addTimer 0 5 1 4 (initFresh 2 0 0)).2.buckets
            (((((0 : Nat) : Int) + 5) % (kTimerBucketNum : Int)).toNat)
          = (initFresh 2 0 0).free_head) :=
  addTimer_error_classification 0 5 1 4 (initFresh 2 0 0) (by decide)

theorem chain_mem_pos (s : TimerState) (h : Nat) (l : List Nat) (hc : Chain s h l) :
    ∀ p ∈ l, p ≠ 0 := by
  induction hc with
  | nil => intro p hp; simp at hp
  | cons q l hq hc ih =>
    intro p hp
    rcases List.mem_cons.mp hp with rfl | hp
    · exact hq
    · exact ih p hp

theorem chain_ext (s s' : TimerState) (h : Nat) (l : List Nat)
    (hag : ∀ q ∈ l, (s'.objs q).next = (s.objs q).next) (hc : Chain s h l) :
    Chain s' h l := by
  induction hc with
  | nil => exact .nil
  | cons q l hq hc ih =>
    refine .cons q l hq ?_
    rw [hag q (by simp)]
    exact ih (fun r hr => hag r (by simp [hr]))

theorem prevOk_ext (s s' : TimerState) (pr : Nat) (l : List Nat)
    (hag : ∀ q ∈ l, (s'.objs q).prev = (s.objs q).prev) (hp : PrevOk s pr l) :
    PrevOk s' pr l := by
  induction l generalizing pr with
  | nil => trivial
  | cons q l ih =>
    obtain ⟨h1, h2⟩ := hp
    exact ⟨by rw [hag q (by simp)]; exact h1,
      ih q (fun r hr => hag r (by simp [hr])) h2⟩

theorem chainNexts_of_chain (s : TimerState) (h : Nat) (l : List Nat)
    (hc : Chain s h l) : ∀ fuel, l.length ≤ fuel → chainNexts s fuel h = l := by
  induction hc with
  | nil =>
    intro fuel _
    cases fuel <;> simp [chainNexts]
  | cons q l hq hc ih =>
    intro fuel hf
    obtain ⟨g, rfl⟩ : ∃ g, fuel = g + 1 := ⟨fuel - 1, by simp at hf; omega⟩
    rw [chainNexts, if_neg hq, ih g (by simp at hf; omega)]

theorem nodup_length_le (l : List Nat) (n : Nat) (hn : l.Nodup)
    (hr : ∀ p ∈ l, 1 ≤ p ∧ p ≤ n) : l.length ≤ n := by
  have hsub : l.toFinset ⊆ Finset.Icc 1 n := by
    intro p hp
    rw [List.mem_toFinset] at hp
    rw [Finset.mem_Icc]
    exact hr p hp
  have := Finset.card_le_card hsub
  rw [List.toFinset_card_of_nodup hn, Nat.card_Icc] at this
  omega

theorem wf_used_le (s : TimerState) (F : List Nat) (Ls : Nat → List Nat)
    (w : WFData s F Ls) : s.used_num ≤ s.max_num := by
  rw [w.hcount]
  refine nodup_length_le _ _ (w.hdisj.of_append_right) ?_
  intro p hp
  rw [List.mem_flatMap] at hp
  obtain ⟨b, hb, hpb⟩ := hp
  rw [List.mem_range] at hb
  exact w.hLrange b hb p hpb

theorem wf_bucketList (s : TimerState) (F : List Nat) (Ls : Nat → List Nat)
    (w : WFData s F Ls) : ∀ b, b < kTimerBucketNum → bucketList s b = Ls b := by
  intro b hb
  have hlen : (Ls b).length ≤ ((List.range kTimerBucketNum).flatMap Ls).length := by
    rw [List.length_flatMap]
    refine List.single_le_sum (fun x _ => Nat.zero_le x) _ ?_
    rw [List.mem_map]
    exact ⟨b, by rw [List.mem_range]; exact hb, rfl⟩
  have hmax : (Ls b).length ≤ s.max_num := by
    have := wf_used_le s F Ls w
    rw [w.hcount] at this
    omega
  exact chainNexts_of_chain s (s.buckets b) (Ls b) (w.hL b hb) (s.max_num + 1) (by omega)

theorem wf_linkedCount (s : TimerState) (F : List Nat) (Ls : Nat → List Nat)
    (w : WFData s F Ls) : linkedCount s = s.used_num := by
  rw [w.hcount, List.length_flatMap]
  unfold linkedCount
  congr 1
  refine List.map_congr_left ?_
  intro b hb
  rw [List.mem_range] at hb
  rw [wf_bucketList s F Ls w b hb]
  rfl

theorem initFresh_chain (n t z : Nat) :
    ∀ m h, 1 ≤ h → h + m = n + 1 →
      Chain (initFresh n t z) (if m = 0 then 0 else h) (List.range' h m) := by
  intro m
  induction m with
  | zero =>
    intro h _ _
    simpa using Chain.nil
  | succ m ih =>
    intro h hh he
    rw [if_neg (by omega)]
    rw [List.range'_succ]
    refine Chain.cons h _ (by omega) ?_
    have hnext : ((initFresh n t z).objs h).next = if h = n then 0 else h + 1 := by
      show ((initLoop n 0 fun _ => defaultObj).2 h).next = _
      rw [(initLoop_spec n 0 _).2 h, if_pos (by omega)]
    rw [hnext]
    have := ih (h + 1) (by omega) (by omega)
    rcases Nat.eq_zero_or_pos m with rfl | hm
    · simp only [if_pos rfl] at this
      rw [if_pos (by omega)]
      exact this
    · rw [if_neg (by omega)]
      rw [if_neg (by omega)] at this
      exact this

theorem initFresh_wf (n t z : Nat) (h1 : 0 < n) (h2 : n < W32) :
    WFData (initFresh n t z) (List.range' 1 n) (fun _ => []) := by
  have hobjs : ∀ p, 1 ≤ p → p ≤ n → (initFresh n t z).objs p
      = { defaultObj with prev := 0, next := if p = n then 0 else p + 1 } := by
    intro p hp1 hp2
    show (initLoop n 0 fun _ => defaultObj).2 p = _
    rw [(initLoop_spec n 0 _).2 p, if_pos (by omega)]
  have hflat : (List.range kTimerBucketNum).flatMap (fun _ => ([] : List Nat)) = [] := by
    simp
  refine ⟨h2, by
      show n + 1 < W64
      unfold W32 at h2
      unfold W64
      omega,
    ?_, ?_, ?_, ?_, ?_, ?_, ?_, ?_, ?_, ?_, ?_, ?_⟩
  · show Chain _ (initLoop n 0 fun _ => defaultObj).1 _
    rw [(initLoop_spec n 0 _).1, if_neg (by omega)]
    have := initFresh_chain n t z n 1 (by omega) (by omega)
    rw [if_neg (by omega)] at this
    exact this
  · intro p hp
    rw [List.mem_range'_1] at hp
    show 1 ≤ p ∧ p ≤ n
    omega
  · intro p hp
    rw [List.mem_range'_1] at hp
    rw [hobjs p (by omega) (by omega)]
    rfl
  · intro b _
    exact Chain.nil
  · intro b _ p hp
    simp at hp
  · intro b _ p hp
    simp at hp
  · intro b _ p hp
    simp at hp
  · intro b _ p hp
    simp at hp
  · intro b _
    trivial
  · rw [hflat, List.append_nil]
    exact List.nodup_range' _ _
  · intro p hp1 hp2
    have hp2n : p ≤ n := hp2
    left
    rw [List.mem_range'_1]
    omega
  · rw [hflat]
    rfl

theorem range_split (n B : Nat) (h : B < n) :
    List.range n = List.range B ++ B :: List.range' (B + 1) (n - B - 1) := by
  have h1 := List.range'_append 0 B (n - B) 1
  rw [show 0 + 1 * B = B from by omega] at h1
  rw [show (n - B) + B = n from by omega] at h1
  rw [show n - B = (n - B - 1) + 1 from by omega, List.range'_succ] at h1
  rw [List.range_eq_range', ← h1, List.range_eq_range']

theorem flatMap_congr_mem (l : List Nat) (f g : Nat → List Nat)
    (h : ∀ b ∈ l, f b = g b) : l.flatMap f = l.flatMap g := by
  simp only [List.flatMap_def]
  congr 1
  exact List.map_congr_left h

theorem flatMap_update (Ls : Nat → List Nat) (n B : Nat) (hB : B < n) (v : List Nat) :
    ∃ X Y : List Nat,
      (List.range n).flatMap Ls = X ++ (Ls B ++ Y)
      ∧ (List.range n).flatMap (fun b => if b = B then v else Ls b) = X ++ (v ++ Y)
      ∧ (∀ b, b < n → b ≠ B → ∀ q ∈ Ls b, q ∈ X ∨ q ∈ Y) := by
  refine ⟨(List.range B).flatMap Ls, (List.range' (B + 1) (n - B - 1)).flatMap Ls, ?_, ?_, ?_⟩
  · rw [range_split n B hB, List.flatMap_append, List.flatMap_cons]
  · rw [range_split n B hB, List.flatMap_append, List.flatMap_cons]
    rw [if_pos rfl]
    congr 1
    · refine flatMap_congr_mem _ _ _ ?_
      intro b hb
      rw [List.mem_range] at hb
      rw [if_neg (by omega)]
    · congr 1
      refine flatMap_congr_mem _ _ _ ?_
      intro b hb
      rw [List.mem_range'_1] at hb
      rw [if_neg (by omega)]
  · intro b hbn hbB q hq
    rcases Nat.lt_or_ge b B with hlt | hge
    · left
      rw [List.mem_flatMap]
      exact ⟨b, List.mem_range.mpr hlt, hq⟩
    · right
      rw [List.mem_flatMap]
      refine ⟨b, ?_, hq⟩
      rw [List.mem_range'_1]
      omega

set_option maxHeartbeats 1000000 in
theorem addTimer_ok_state (now : Nat) (iv mf : Int) (d : Nat) (s : TimerState)
    (hb : ¬(iv ≤ 0 ∨ iv > (kTimerBucketNum : Int) ∨ mf < 0))
    (hc : ¬((now : Int) + iv < (s.cur_bucket_time : Int)))
    (hg : s.free_head > 0 ∧ s.used_num ≤ s.max_num)
    (hbh : s.buckets ((((now : Int) + iv) % (kTimerBucketNum : Int)).toNat) ≠ s.free_head) :
    (addTimer now iv mf d s).2 = { s with
      used_num := (s.used_num + 1) % W64,
      free_head := (s.objs s.free_head).next,
      seq := (s.seq + 1) % W32,
      buckets := fun x => if x = (((now : Int) + iv) % (kTimerBucketNum : Int)).toNat
        then s.free_head else s.buckets x,
      objs := fun q =>
        if q = s.free_head then
          ⟨0, s.buckets ((((now : Int) + iv) % (kTimerBucketNum : Int)).toNat), true, iv, mf, 0,
            (now : Int) + iv, s.free_head % W32, s.seq, d⟩
        else if q = s.buckets ((((now : Int) + iv) % (kTimerBucketNum : Int)).toNat)
            ∧ s.buckets ((((now : Int) + iv) % (kTimerBucketNum : Int)).toNat) ≠ 0 then
          { s.objs q with prev := s.free_head }
        else s.objs q } := by
  have hf : s.free_head ≠ 0 := by omega
  rcases eq_or_ne (s.buckets ((((now : Int) + iv) % (kTimerBucketNum : Int)).toNat)) 0
      with h0 | h0
  · simp only [addTimer, allocNode_pos s hg, hb, hc]
    simp [hf, h0, setObj, setBucket]
    funext q
    by_cases hq : q = s.free_head
    · simp [hq, h0]
    · simp [hq, h0]
  · simp only [addTimer, allocNode_pos s hg, hb, hc]
    simp [hf, h0, Ne.symm hbh, setObj, setBucket]
    funext q
    by_cases hq : q = s.free_head
    · simp [hq, Ne.symm hbh]
    · by_cases hq2 : q = s.buckets ((((now : Int) + iv) % (kTimerBucketNum : Int)).toNat)
      · simp [hq, hq2, h0, hbh]
      · simp [hq, hq2, h0, hbh]

theorem wf_congr (s s' : TimerState) (F : List Nat) (Ls : Nat → List Nat)
    (w : WFData s F Ls)
    (hmax : s'.max_num = s.max_num) (hused : s'.used_num = s.used_num)
    (hfh : s'.free_head = s.free_head) (hbuck : ∀ b, s'.buckets b = s.buckets b)
    (hobjs : ∀ q, (s'.objs q).next = (s.objs q).next ∧ (s'.objs q).prev = (s.objs q).prev
      ∧ (s'.objs q).used = (s.objs q).used ∧ (s'.objs q).idPos = (s.objs q).idPos
      ∧ (s'.objs q).expire = (s.objs q).expire) :
    WFData s' F Ls := by
  refine ⟨hmax ▸ w.hmax32, hmax ▸ w.hmax64,
    hfh ▸ chain_ext s s' _ _ (fun q _ => (hobjs q).1) w.hF,
    fun q hq => hmax ▸ w.hFrange q hq,
    fun q hq => (hobjs q).2.2.1 ▸ w.hFunused q hq,
    fun b hb => hbuck b ▸ chain_ext s s' _ _ (fun q _ => (hobjs q).1) (w.hL b hb),
    fun b hb q hq => hmax ▸ w.hLrange b hb q hq,
    fun b hb q hq => (hobjs q).2.2.1 ▸ w.hLused b hb q hq,
    fun b hb q hq => (hobjs q).2.2.2.1 ▸ w.hLid b hb q hq,
    fun b hb q hq => (hobjs q).2.2.2.2 ▸ w.hLbucket b hb q hq,
    fun b hb => prevOk_ext s s' _ _ (fun q _ => (hobjs q).2.1) (w.hPrev b hb),
    w.hdisj,
    fun q h1 h2 => w.hcomplete q h1 (hmax ▸ h2),
    hused ▸ w.hcount⟩

theorem chain_suffix (s : TimerState) : ∀ (l₁ : List Nat) (h : Nat) (l₂ : List Nat),
    Chain s h (l₁ ++ l₂) → l₂ ≠ [] → Chain s (l₂.headD 0) l₂ := by
  intro l₁
  induction l₁ with
  | nil =>
    intro h l₂ hc hne
    cases l₂ with
    | nil => exact absurd rfl hne
    | cons a t =>
      cases hc with
      | cons p l hp hc => exact Chain.cons _ _ hp hc
  | cons a l₁ ih =>
    intro h l₂ hc hne
    cases hc with
    | cons p l hp hc => exact ih _ l₂ hc hne

theorem prevOk_getLast (s : TimerState) : ∀ (l₁ : List Nat) (pr p : Nat) (l₂ : List Nat),
    PrevOk s pr (l₁ ++ p :: l₂) → (s.objs p).prev = l₁.getLastD pr := by
  intro l₁
  induction l₁ with
  | nil =>
    intro pr p l₂ hp
    exact hp.1
  | cons a l₁ ih =>
    intro pr p l₂ hp
    rw [List.getLastD_cons]
    exact ih a p l₂ hp.2

theorem findAux_chain (s : TimerState) (tid pos : Nat) (hw : s.max_num < W32)
    {h : Nat} {l : List Nat} (hc : Chain s h l) :
    pos ∈ l → storedId s pos = tid →
    (∀ q ∈ l, (s.objs q).idPos = q ∧ q ≤ s.max_num) →
    ∀ fuel, l.length ≤ fuel → findAux s tid fuel h = pos := by
  induction hc with
  | nil =>
    intro hmem
    simp at hmem
  | cons q l hq hcn ih =>
    intro hmem hsid hall fuel hf
    obtain ⟨g, rfl⟩ : ∃ g, fuel = g + 1 := ⟨fuel - 1, by simp at hf; omega⟩
    rw [findAux, if_pos (show q > 0 from Nat.pos_of_ne_zero hq)]
    by_cases he : storedId s q = tid
    · rw [if_pos he]
      have h1 := (hall q (by simp)).1
      have hpos_id : (s.objs pos).idPos = pos := (hall pos hmem).1
      have hq32 : q < W32 := by
        have := (hall q (by simp)).2
        omega
      have hp32 : pos < W32 := by
        have := (hall pos hmem).2
        omega
      unfold storedId at he hsid
      rw [h1] at he
      rw [hpos_id] at hsid
      have hmod : (q + (s.objs q).idSeq * W32) % W32
          = (pos + (s.objs pos).idSeq * W32) % W32 := by
        rw [he, hsid]
      rw [Nat.add_mul_mod_self_right, Nat.add_mul_mod_self_right] at hmod
      rw [Nat.mod_eq_of_lt hq32, Nat.mod_eq_of_lt hp32] at hmod
      exact hmod
    · have hpl : pos ∈ l := by
        rcases List.mem_cons.mp hmem with rfl | h2
        · exact absurd hsid he
        · exact h2
      rw [if_neg he]
      exact ih hpl hsid (fun r hr => hall r (by simp [hr])) g (by simp at hf; omega)

theorem chain_head (s : TimerState) {h : Nat} {l : List Nat} (hc : Chain s h l) :
    h = l.headD 0 := by
  cases hc with
  | nil => rfl
  | cons p l hp hcn => rfl

theorem chain_cons_inv (s : TimerState) {h p : Nat} {l : List Nat}
    (hc : Chain s h (p :: l)) : h = p ∧ p ≠ 0 ∧ Chain s ((s.objs p).next) l := by
  cases hc with
  | cons q l hq hcn => exact ⟨rfl, hq, hcn⟩

theorem chain_splice_mid (s s' : TimerState) (p pr : Nat) (l₂ : List Nat)
    (hnext : (s'.objs pr).next = (s.objs p).next) :
    ∀ (l₁ : List Nat) (hd : Nat),
      Chain s hd (l₁ ++ pr :: p :: l₂) →
      (l₁ ++ pr :: p :: l₂).Nodup →
      (∀ q ∈ l₁ ++ pr :: l₂, q ≠ pr → (s'.objs q).next = (s.objs q).next) →
      Chain s' hd (l₁ ++ pr :: l₂) := by
  intro l₁
  induction l₁ with
  | nil =>
    intro hd hc hnd hag
    obtain ⟨heq, hq, hcn⟩ := chain_cons_inv s hc
    obtain ⟨hE, hp0, hcn2⟩ := chain_cons_inv s hcn
    rw [heq]
    refine Chain.cons pr _ hq ?_
    rw [hnext]
    refine chain_ext s s' _ _ ?_ hcn2
    intro r hr
    refine hag r (by simp [hr]) ?_
    intro hrp
    subst hrp
    simp at hnd
    exact hnd.1.2 hr
  | cons a l₁ ih =>
    intro hd hc hnd hag
    simp only [List.cons_append] at hc hnd hag ⊢
    obtain ⟨heq, hq, hcn⟩ := chain_cons_inv s hc
    rw [heq]
    refine Chain.cons a _ hq ?_
    have hane : a ≠ pr := by
      intro hap
      rw [List.nodup_cons] at hnd
      exact hnd.1 (by
        rw [hap]
        simp)
    rw [hag a (by simp) hane]
    refine ih _ hcn (List.Nodup.of_cons hnd) ?_
    intro r hr hrp
    exact hag r (by
      rcases List.mem_append.mp hr with h1 | h1
      · simp [h1]
      · simp [h1]) hrp

theorem prevOk_splice (s s' : TimerState) (p : Nat) (l₂ : List Nat)
    (hpw : ∀ q, q ≠ p → (s'.objs q).prev =
      (if (s.objs p).next ≠ 0 ∧ q = (s.objs p).next then (s.objs p).prev
        else (s.objs q).prev))
    (hnx : (s.objs p).next = l₂.headD 0) :
    ∀ (l₁ : List Nat) (pr0 : Nat),
      PrevOk s pr0 (l₁ ++ p :: l₂) → (l₁ ++ p :: l₂).Nodup →
      (∀ q ∈ l₁ ++ p :: l₂, q ≠ 0) →
      PrevOk s' pr0 (l₁ ++ l₂) := by
  intro l₁
  induction l₁ with
  | nil =>
    intro pr0 hpo hnd hz
    obtain ⟨hp1, hrest⟩ := hpo
    cases l₂ with
    | nil => trivial
    | cons a t =>
      obtain ⟨ha1, harest⟩ := hrest
      have haz : a ≠ 0 := hz a (by simp)
      have hap : a ≠ p := by
        simp at hnd
        intro he
        exact hnd.1.1 he.symm
      refine ⟨?_, ?_⟩
      · rw [hpw a hap, if_pos ⟨by rw [hnx]; simpa using haz, by rw [hnx]; rfl⟩]
        exact hp1
      · refine prevOk_ext s s' a t ?_ harest
        intro r hr
        have hrp : r ≠ p := by
          simp at hnd
          intro he
          exact hnd.1.2 (he ▸ hr)
        rw [hpw r hrp, if_neg ?_]
        rintro ⟨h1, h2⟩
        rw [hnx] at h2
        simp at h2
        simp at hnd
        exact hnd.2.1 (h2 ▸ hr)
  | cons a l₁ ih =>
    intro pr0 hpo hnd hz
    simp only [List.cons_append] at hpo hnd hz ⊢
    obtain ⟨ha1, harest⟩ := hpo
    obtain ⟨hamem, hnd2⟩ := List.nodup_cons.mp hnd
    have hap : a ≠ p := by
      intro he
      exact hamem (by
        rw [he]
        simp)
    refine ⟨?_, ?_⟩
    · rw [hpw a hap, if_neg ?_]
      · exact ha1
      · rintro ⟨h1, h2⟩
        rw [hnx] at h1 h2
        cases l₂ with
        | nil => simp at h1
        | cons c t =>
          simp at h2
          exact hamem (by
            rw [h2]
            simp)
    · exact ih a harest hnd2 (fun q hq => hz q (List.mem_cons_of_mem a hq))

theorem getLastD_cons_mem (t : List Nat) (c d : Nat) : (c :: t).getLastD d ∈ c :: t := by
  rw [List.getLastD_cons]
  simpa using List.getLastD_mem_cons t c

set_option maxHeartbeats 1000000 in
theorem wf_remove (s s' : TimerState) (F : List Nat) (Ls : Nat → List Nat)
    (w : WFData s F Ls) (b p : Nat) (hb : b < kTimerBucketNum) (hp : p ∈ Ls b)
    (hmax : s'.max_num = s.max_num) (hused : s'.used_num = s.used_num)
    (hfh : s'.free_head = s.free_head)
    (hbuck : ∀ b', s'.buckets b' =
      if (s.objs p).prev = 0 ∧ b' = b then (s.objs p).next else s.buckets b')
    (hobjs : ∀ q, q ≠ p →
      ((s'.objs q).next = (if (s.objs p).prev ≠ 0 ∧ q = (s.objs p).prev
          then (s.objs p).next else (s.objs q).next)
        ∧ (s'.objs q).prev = (if (s.objs p).next ≠ 0 ∧ q = (s.objs p).next
          then (s.objs p).prev else (s.objs q).prev)
        ∧ (s'.objs q).used = (s.objs q).used
        ∧ (s'.objs q).idPos = (s.objs q).idPos
        ∧ (s'.objs q).expire = (s.objs q).expire)) :
    ∃ l₁ l₂, Ls b = l₁ ++ p :: l₂ ∧ (s.objs p).next = l₂.headD 0 ∧
      WFHole s' p F (fun b' => if b' = b then l₁ ++ l₂ else Ls b') := by
  obtain ⟨l₁, l₂, hsplit⟩ := List.append_of_mem hp
  have hLb := w.hL b hb
  have hPb := w.hPrev b hb
  rw [hsplit] at hLb hPb
  obtain ⟨X, Y, hXY1, hXY2, hXYm⟩ := flatMap_update Ls kTimerBucketNum b hb (l₁ ++ l₂)
  have hLbnd : (l₁ ++ p :: l₂).Nodup := by
    have hs1 : (Ls b).Sublist ((List.range kTimerBucketNum).flatMap Ls) := by
      rw [hXY1]
      exact (List.sublist_append_left (Ls b) Y).trans (List.sublist_append_right X _)
    have := (w.hdisj.of_append_right).sublist hs1
    rw [hsplit] at this
    exact this
  have hbig := w.hdisj
  rw [hXY1, hsplit] at hbig
  have hperm : (F ++ (X ++ ((l₁ ++ p :: l₂) ++ Y))).Perm
      (p :: (F ++ (X ++ ((l₁ ++ l₂) ++ Y)))) := by
    have h1 : F ++ (X ++ ((l₁ ++ p :: l₂) ++ Y)) = (F ++ X ++ l₁) ++ p :: (l₂ ++ Y) := by
      simp [List.append_assoc]
    have h2 : p :: (F ++ (X ++ ((l₁ ++ l₂) ++ Y)))
        = p :: ((F ++ X ++ l₁) ++ (l₂ ++ Y)) := by
      simp [List.append_assoc]
    rw [h1, h2]
    exact List.perm_middle
  have hnewnodup := hperm.nodup hbig
  simp only [List.nodup_append, List.nodup_cons, List.mem_append, List.mem_cons,
    List.disjoint_left] at hbig
  obtain ⟨hFnd, ⟨hXnd, ⟨hlnd, hYnd, hd1⟩, hd2⟩, hd3⟩ := hbig
  have hmem : ∀ q, (q ∈ l₁ ∨ q = p ∨ q ∈ l₂) → q ∈ Ls b := by
    intro q hq
    rw [hsplit]
    simp only [List.mem_append, List.mem_cons]
    tauto
  have hrange := w.hLrange b hb
  have hq0 : ∀ q, (q ∈ l₁ ∨ q = p ∨ q ∈ l₂) → q ≠ 0 := by
    intro q hq
    have := hrange q (hmem q hq)
    omega
  have hl1p : ∀ q ∈ l₁, q ≠ p := fun q hq he => (hlnd.2.2 hq) (Or.inl he)
  have hl2p : ∀ q ∈ l₂, q ≠ p := fun q hq he => hlnd.2.1.1 (he ▸ hq)
  have hcp : Chain s p (p :: l₂) := by
    have := chain_suffix s l₁ (s.buckets b) (p :: l₂) hLb (by simp)
    simpa using this
  obtain ⟨-, hpne, hcnx⟩ := chain_cons_inv s hcp
  have hnx : (s.objs p).next = l₂.headD 0 := chain_head s hcnx
  have hprv : (s.objs p).prev = l₁.getLastD 0 := prevOk_getLast s l₁ 0 p l₂ hPb
  have hnxmem : (s.objs p).next ≠ 0 → (s.objs p).next ∈ l₂ := by
    intro h
    rw [hnx] at h ⊢
    cases l₂ with
    | nil => simp at h
    | cons c t => simp
  have hprmem : (s.objs p).prev ≠ 0 → (s.objs p).prev ∈ l₁ := by
    intro h
    rw [hprv] at h ⊢
    cases l₁ with
    | nil => simp at h
    | cons c t => exact getLastD_cons_mem t c 0
  have hcross : ∀ b', b' < kTimerBucketNum → b' ≠ b → ∀ q ∈ Ls b',
      ¬(q ∈ l₁ ∨ q = p ∨ q ∈ l₂) := by
    intro b' hb' hne q hq hbad
    rcases hXYm b' hb' hne q hq with hx | hy
    · exact hd2 hx (Or.inl hbad)
    · exact hd1 hbad hy
  have hFne : ∀ q ∈ F, ¬(q ∈ l₁ ∨ q = p ∨ q ∈ l₂) := by
    intro q hq hbad
    exact hd3 hq (Or.inr (Or.inl hbad))
  have hmemq : ∀ b', b' < kTimerBucketNum → ∀ q,
      q ∈ (if b' = b then l₁ ++ l₂ else Ls b') → q ≠ p ∧ q ∈ Ls b' := by
    intro b' hb' q hq
    by_cases heq : b' = b
    · rw [if_pos heq] at hq
      rcases List.mem_append.mp hq with h1 | h1
      · exact ⟨hl1p q h1, heq ▸ hmem q (Or.inl h1)⟩
      · exact ⟨hl2p q h1, heq ▸ hmem q (Or.inr (Or.inr h1))⟩
    · rw [if_neg heq] at hq
      exact ⟨fun he => hcross b' hb' heq q hq (Or.inr (Or.inl he)), hq⟩
  refine ⟨l₁, l₂, hsplit, hnx, ?_, ?_, ?_, ?_, ?_, ?_, ?_, ?_, ?_, ?_, ?_, ?_, ?_, ?_, ?_⟩
  · rw [hmax]
    exact w.hmax32
  · rw [hmax]
    exact w.hmax64
  · rw [hmax]
    exact hrange p hp
  · rw [hfh]
    refine chain_ext s s' _ F ?_ w.hF
    intro q hq
    have hqp : q ≠ p := fun he => hFne q hq (Or.inr (Or.inl he))
    rw [(hobjs q hqp).1, if_neg ?_]
    rintro ⟨h1, h2⟩
    exact hFne q hq (Or.inl (h2 ▸ hprmem h1))
  · intro q hq
    rw [hmax]
    exact w.hFrange q hq
  · intro q hq
    have hqp : q ≠ p := fun he => hFne q hq (Or.inr (Or.inl he))
    rw [(hobjs q hqp).2.2.1]
    exact w.hFunused q hq
  · intro b' hb'
    by_cases heq : b' = b
    · rw [if_pos heq]
      rcases eq_or_ne (s.objs p).prev 0 with hpr0 | hpr0
      · have hl1nil : l₁ = [] := by
          cases hE : l₁ with
          | nil => rfl
          | cons c t =>
            exfalso
            rw [hprv, hE] at hpr0
            exact hq0 _ (Or.inl (hE ▸ getLastD_cons_mem t c 0)) hpr0
        rw [hbuck b', if_pos ⟨hpr0, heq⟩, hl1nil]
        simp only [List.nil_append]
        rw [hnx]
        refine chain_ext s s' _ l₂ ?_ (hnx ▸ hcnx)
        intro q hq
        have hqp : q ≠ p := hl2p q hq
        rw [(hobjs q hqp).1, if_neg ?_]
        rintro ⟨h1, h2⟩
        exact h1 hpr0
      · obtain ⟨l₁', a, hconc⟩ : ∃ l' a, l₁ = l' ++ [a] := by
          cases hE : l₁ with
          | nil =>
            exfalso
            rw [hE] at hprv
            simp at hprv
            exact hpr0 hprv
          | cons c t =>
            obtain ⟨l', a, hca⟩ := (List.eq_nil_or_concat (c :: t)).resolve_left (by simp)
            exact ⟨l', a, by simpa [List.concat_eq_append] using hca⟩
        have hpra : (s.objs p).prev = a := by
          rw [hprv, hconc]
          simp
        have hamem : a ∈ l₁ := by
          rw [hconc]
          simp
        rw [hbuck b', if_neg (by rintro ⟨c1, c2⟩; exact hpr0 c1), heq]
        rw [hconc]
        rw [show (l₁' ++ [a]) ++ l₂ = l₁' ++ a :: l₂ from by simp]
        refine chain_splice_mid s s' p a l₂ ?_ l₁' (s.buckets b) ?_ ?_ ?_
        · rw [(hobjs a (hl1p a hamem)).1, if_pos ⟨hpr0, hpra.symm⟩]
        · rw [hconc] at hLb
          rw [show (l₁' ++ [a]) ++ p :: l₂ = l₁' ++ a :: p :: l₂ from by simp] at hLb
          exact hLb
        · rw [hconc] at hLbnd
          rw [show (l₁' ++ [a]) ++ p :: l₂ = l₁' ++ a :: p :: l₂ from by simp] at hLbnd
          exact hLbnd
        · intro q hq hqa
          have hqmem : q ∈ l₁ ∨ q = p ∨ q ∈ l₂ := by
            rcases List.mem_append.mp hq with h1 | h1
            · exact Or.inl (by rw [hconc]; simp [h1])
            · rcases List.mem_cons.mp h1 with rfl | h2
              · exact Or.inl hamem
              · exact Or.inr (Or.inr h2)
          have hqp : q ≠ p := by
            rcases List.mem_append.mp hq with h1 | h1
            · exact hl1p q (by rw [hconc]; simp [h1])
            · rcases List.mem_cons.mp h1 with heq2 | h2
              · rw [heq2]
                exact hl1p a hamem
              · exact hl2p q h2
          rw [(hobjs q hqp).1, if_neg ?_]
          rintro ⟨c1, c2⟩
          exact hqa (c2.trans hpra)
    · rw [if_neg heq, hbuck b', if_neg (by rintro ⟨c1, c2⟩; exact heq c2)]
      refine chain_ext s s' _ (Ls b') ?_ (w.hL b' hb')
      intro q hq
      have hqp : q ≠ p := fun he => hcross b' hb' heq q hq (Or.inr (Or.inl he))
      rw [(hobjs q hqp).1, if_neg ?_]
      rintro ⟨c1, c2⟩
      exact hcross b' hb' heq q hq (Or.inl (c2 ▸ hprmem c1))
  · intro b' hb' q hq
    rw [hmax]
    exact w.hLrange b' hb' q (hmemq b' hb' q hq).2
  · intro b' hb' q hq
    rw [(hobjs q (hmemq b' hb' q hq).1).2.2.1]
    exact w.hLused b' hb' q (hmemq b' hb' q hq).2
  · intro b' hb' q hq
    rw [(hobjs q (hmemq b' hb' q hq).1).2.2.2.1]
    exact w.hLid b' hb' q (hmemq b' hb' q hq).2
  · intro b' hb' q hq
    rw [(hobjs q (hmemq b' hb' q hq).1).2.2.2.2]
    exact w.hLbucket b' hb' q (hmemq b' hb' q hq).2
  · intro b' hb'
    by_cases heq : b' = b
    · rw [if_pos heq]
      refine prevOk_splice s s' p l₂ (fun q hqp => (hobjs q hqp).2.1) hnx l₁ 0 hPb hLbnd ?_
      intro q hq
      refine hq0 q ?_
      rcases List.mem_append.mp hq with h1 | h1
      · exact Or.inl h1
      · rcases List.mem_cons.mp h1 with rfl | h2
        · exact Or.inr (Or.inl rfl)
        · exact Or.inr (Or.inr h2)
    · rw [if_neg heq]
      refine prevOk_ext s s' 0 (Ls b') ?_ (w.hPrev b' hb')
      intro q hq
      have hqp : q ≠ p := fun he => hcross b' hb' heq q hq (Or.inr (Or.inl he))
      rw [(hobjs q hqp).2.1, if_neg ?_]
      rintro ⟨c1, c2⟩
      exact hcross b' hb' heq q hq (Or.inr (Or.inr (c2 ▸ hnxmem c1)))
  · rw [hXY2]
    exact hnewnodup
  · intro q h1 h2
    rw [hmax] at h2
    rcases w.hcomplete q h1 h2 with hqF | ⟨b'', hb'', hmemb⟩
    · exact Or.inr (Or.inl hqF)
    · by_cases heq : b'' = b
      · rw [heq, hsplit] at hmemb
        rcases List.mem_append.mp hmemb with hq1 | hq1
        · refine Or.inr (Or.inr ⟨b'', hb'', ?_⟩)
          rw [if_pos heq]
          exact List.mem_append.mpr (Or.inl hq1)
        · rcases List.mem_cons.mp hq1 with heq2 | hq2
          · exact Or.inl heq2
          · refine Or.inr (Or.inr ⟨b'', hb'', ?_⟩)
            rw [if_pos heq]
            exact List.mem_append.mpr (Or.inr hq2)
      · refine Or.inr (Or.inr ⟨b'', hb'', ?_⟩)
        rw [if_neg heq]
        exact hmemb
  · rw [hused, w.hcount, hXY1, hsplit, hXY2]
    simp [List.length_append]
    omega

theorem flat_nodup_bucket (Ls : Nat → List Nat) (b : Nat) (hb : b < kTimerBucketNum)
    (h : ((List.range kTimerBucketNum).flatMap Ls).Nodup) : (Ls b).Nodup := by
  obtain ⟨X, Y, hXY1, -, -⟩ := flatMap_update Ls kTimerBucketNum b hb []
  rw [hXY1] at h
  exact (h.of_append_right).of_append_left

theorem flat_cross (Ls : Nat → List Nat) (b b' : Nat) (hb : b < kTimerBucketNum)
    (hb' : b' < kTimerBucketNum) (hne : b' ≠ b)
    (h : ((List.range kTimerBucketNum).flatMap Ls).Nodup) :
    ∀ q ∈ Ls b', q ∉ Ls b := by
  obtain ⟨X, Y, hXY1, -, hXYm⟩ := flatMap_update Ls kTimerBucketNum b hb []
  rw [hXY1] at h
  simp only [List.nodup_append, List.disjoint_left] at h
  intro q hq hqb
  rcases hXYm b' hb' hne q hq with hx | hy
  · exact h.2.2 hx (List.mem_append.mpr (Or.inl hqb))
  · exact h.2.1.2.2 hqb hy

theorem flat_mem_range (F : List Nat) (Ls : Nat → List Nat) (s : TimerState)
    (hLrange : ∀ b, b < kTimerBucketNum → ∀ p ∈ Ls b, 1 ≤ p ∧ p ≤ s.max_num) :
    ∀ q ∈ (List.range kTimerBucketNum).flatMap Ls, 1 ≤ q ∧ q ≤ s.max_num := by
  intro q hq
  rw [List.mem_flatMap] at hq
  obtain ⟨b, hbr, hqb⟩ := hq
  exact hLrange b (List.mem_range.mp hbr) q hqb

theorem wf_hole_free (s s' : TimerState) (p : Nat) (F : List Nat) (Ls : Nat → List Nat)
    (w : WFHole s p F Ls)
    (hmax : s'.max_num = s.max_num)
    (hused : s'.used_num = (s.used_num + (W64 - 1)) % W64)
    (hfh : s'.free_head = p)
    (hbuck : ∀ b', s'.buckets b' = s.buckets b')
    (hop : (s'.objs p).used = false ∧ (s'.objs p).next = s.free_head)
    (hoh : ∀ q, q ≠ p → (s'.objs q).next = (s.objs q).next
      ∧ (s'.objs q).prev = (s.objs q).prev
      ∧ (s'.objs q).used = (s.objs q).used ∧ (s'.objs q).idPos = (s.objs q).idPos
      ∧ (s'.objs q).expire = (s.objs q).expire) :
    WFData s' (p :: F) Ls := by
  have hpF : ∀ q ∈ F, q ≠ p := by
    intro q hq he
    exact (List.nodup_cons.mp w.hdisj).1 (he ▸ List.mem_append.mpr (Or.inl hq))
  have hpL : ∀ b, b < kTimerBucketNum → ∀ q ∈ Ls b, q ≠ p := by
    intro b hb q hq he
    refine (List.nodup_cons.mp w.hdisj).1 (he ▸ List.mem_append.mpr (Or.inr ?_))
    rw [List.mem_flatMap]
    exact ⟨b, List.mem_range.mpr hb, hq⟩
  have hbound : ((List.range kTimerBucketNum).flatMap Ls).length + 1 + F.length
      ≤ s.max_num := by
    have := nodup_length_le (p :: (F ++ (List.range kTimerBucketNum).flatMap Ls))
      s.max_num w.hdisj ?_
    · rw [List.length_cons, List.length_append] at this
      omega
    · intro q hq
      rcases List.mem_cons.mp hq with rfl | hq2
      · exact w.hprange
      · rcases List.mem_append.mp hq2 with h1 | h1
        · exact w.hFrange q h1
        · exact flat_mem_range F Ls s w.hLrange q h1
  have husedval : s'.used_num = ((List.range kTimerBucketNum).flatMap Ls).length := by
    rw [hused, w.hcount]
    have := w.hmax64
    unfold W64 at *
    omega
  refine ⟨hmax ▸ w.hmax32, hmax ▸ w.hmax64, ?_, ?_, ?_, ?_, ?_, ?_, ?_, ?_, ?_, ?_, ?_, ?_⟩
  · rw [hfh]
    refine Chain.cons p F (by have := w.hprange; omega) ?_
    rw [hop.2]
    exact chain_ext s s' _ F (fun q hq => (hoh q (hpF q hq)).1) w.hF
  · intro q hq
    rw [hmax]
    rcases List.mem_cons.mp hq with rfl | hq2
    · exact w.hprange
    · exact w.hFrange q hq2
  · intro q hq
    rcases List.mem_cons.mp hq with rfl | hq2
    · exact hop.1
    · rw [(hoh q (hpF q hq2)).2.2.1]
      exact w.hFunused q hq2
  · intro b hb
    rw [hbuck b]
    exact chain_ext s s' _ (Ls b) (fun q hq => (hoh q (hpL b hb q hq)).1) (w.hL b hb)
  · intro b hb q hq
    rw [hmax]
    exact w.hLrange b hb q hq
  · intro b hb q hq
    rw [(hoh q (hpL b hb q hq)).2.2.1]
    exact w.hLused b hb q hq
  · intro b hb q hq
    rw [(hoh q (hpL b hb q hq)).2.2.2.1]
    exact w.hLid b hb q hq
  · intro b hb q hq
    rw [(hoh q (hpL b hb q hq)).2.2.2.2]
    exact w.hLbucket b hb q hq
  · intro b hb
    exact prevOk_ext s s' 0 (Ls b) (fun q hq => (hoh q (hpL b hb q hq)).2.1) (w.hPrev b hb)
  · simpa using w.hdisj
  · intro q h1 h2
    rw [hmax] at h2
    rcases w.hcomplete q h1 h2 with h | h | h
    · exact Or.inl (h ▸ List.mem_cons_self p F)
    · exact Or.inl (List.mem_cons_of_mem p h)
    · exact Or.inr h
  · exact husedval

set_option maxHeartbeats 1000000 in
theorem wf_hole_insert (s s' : TimerState) (p B : Nat) (F : List Nat)
    (Ls : Nat → List Nat) (w : WFHole s p F Ls) (hB : B < kTimerBucketNum)
    (hmax : s'.max_num = s.max_num)
    (hused : s'.used_num = s.used_num)
    (hfh : s'.free_head = s.free_head)
    (hbuck : ∀ b', s'.buckets b' = if b' = B then p else s.buckets b')
    (hop : (s'.objs p).prev = 0 ∧ (s'.objs p).next = s.buckets B
      ∧ (s'.objs p).used = true ∧ (s'.objs p).idPos = p
      ∧ ((s'.objs p).expire % (kTimerBucketNum : Int)).toNat = B)
    (hoh : ∀ q, q ≠ p → (s'.objs q).next = (s.objs q).next
      ∧ (s'.objs q).prev = (if q = s.buckets B ∧ s.buckets B ≠ 0 then p
          else (s.objs q).prev)
      ∧ (s'.objs q).used = (s.objs q).used ∧ (s'.objs q).idPos = (s.objs q).idPos
      ∧ (s'.objs q).expire = (s.objs q).expire) :
    WFData s' F (fun b' => if b' = B then p :: Ls B else Ls b') := by
  have hflatnd := (List.nodup_cons.mp w.hdisj).2.of_append_right
  have hpF : ∀ q ∈ F, q ≠ p := by
    intro q hq he
    exact (List.nodup_cons.mp w.hdisj).1 (he ▸ List.mem_append.mpr (Or.inl hq))
  have hpL : ∀ b, b < kTimerBucketNum → ∀ q ∈ Ls b, q ≠ p := by
    intro b hb q hq he
    refine (List.nodup_cons.mp w.hdisj).1 (he ▸ List.mem_append.mpr (Or.inr ?_))
    rw [List.mem_flatMap]
    exact ⟨b, List.mem_range.mpr hb, hq⟩
  have hheadB : s.buckets B ≠ 0 → s.buckets B ∈ Ls B := by
    intro h
    cases hE : Ls B with
    | nil =>
      exfalso
      have hcB := w.hL B hB
      rw [hE] at hcB
      have h0 := chain_head s hcB
      simp at h0
      exact h h0
    | cons c t =>
      have hcB := w.hL B hB
      rw [hE] at hcB
      obtain ⟨heq, -, -⟩ := chain_cons_inv s hcB
      rw [heq]
      simp
  have hmemq : ∀ b', b' < kTimerBucketNum → ∀ q,
      q ∈ (if b' = B then p :: Ls B else Ls b') →
      (q = p ∧ b' = B) ∨ (q ∈ Ls b' ∧ q ≠ p) := by
    intro b' hb' q hq
    by_cases heq : b' = B
    · rw [if_pos heq] at hq
      rcases List.mem_cons.mp hq with h1 | h1
      · exact Or.inl ⟨h1, heq⟩
      · exact Or.inr ⟨heq ▸ h1, hpL B hB q h1⟩
    · rw [if_neg heq] at hq
      exact Or.inr ⟨hq, hpL b' hb' q hq⟩
  have hnotheadB : ∀ b', b' < kTimerBucketNum → b' ≠ B → ∀ q ∈ Ls b',
      ¬(q = s.buckets B ∧ s.buckets B ≠ 0) := by
    rintro b' hb' hne q hq ⟨h1, h2⟩
    exact flat_cross Ls B b' hB hb' hne hflatnd q hq (h1 ▸ hheadB h2)
  obtain ⟨X, Y, hXY1, hXY2, -⟩ := flatMap_update Ls kTimerBucketNum B hB (p :: Ls B)
  refine ⟨hmax ▸ w.hmax32, hmax ▸ w.hmax64, ?_, ?_, ?_, ?_, ?_, ?_, ?_, ?_, ?_, ?_, ?_, ?_⟩
  · rw [hfh]
    refine chain_ext s s' _ F ?_ w.hF
    intro q hq
    exact (hoh q (hpF q hq)).1
  · intro q hq
    rw [hmax]
    exact w.hFrange q hq
  · intro q hq
    rw [(hoh q (hpF q hq)).2.2.1]
    exact w.hFunused q hq
  · intro b' hb'
    by_cases heq : b' = B
    · rw [if_pos heq, hbuck b', if_pos heq]
      refine Chain.cons p (Ls B) (by have := w.hprange; omega) ?_
      rw [hop.2.1]
      refine chain_ext s s' _ (Ls B) ?_ (w.hL B hB)
      intro q hq
      exact (hoh q (hpL B hB q hq)).1
    · rw [if_neg heq, hbuck b', if_neg heq]
      refine chain_ext s s' _ (Ls b') ?_ (w.hL b' hb')
      intro q hq
      exact (hoh q (hpL b' hb' q hq)).1
  · intro b' hb' q hq
    rw [hmax]
    rcases hmemq b' hb' q hq with ⟨heq1, -⟩ | ⟨h1, -⟩
    · rw [heq1]
      exact w.hprange
    · exact w.hLrange b' hb' q h1
  · intro b' hb' q hq
    rcases hmemq b' hb' q hq with ⟨heq1, -⟩ | ⟨h1, h2⟩
    · rw [heq1]
      exact hop.2.2.1
    · rw [(hoh q h2).2.2.1]
      exact w.hLused b' hb' q h1
  · intro b' hb' q hq
    rcases hmemq b' hb' q hq with ⟨heq1, -⟩ | ⟨h1, h2⟩
    · rw [heq1]
      exact hop.2.2.2.1
    · rw [(hoh q h2).2.2.2.1]
      exact w.hLid b' hb' q h1
  · intro b' hb' q hq
    rcases hmemq b' hb' q hq with ⟨heq1, heq2⟩ | ⟨h1, h2⟩
    · rw [heq1, heq2]
      exact hop.2.2.2.2
    · rw [(hoh q h2).2.2.2.2]
      exact w.hLbucket b' hb' q h1
  · intro b' hb'
    by_cases heq : b' = B
    · rw [if_pos heq]
      refine ⟨hop.1, ?_⟩
      cases hE : Ls B with
      | nil => trivial
      | cons c t =>
        have hcB := w.hL B hB
        rw [hE] at hcB
        obtain ⟨hhead, hc0, hct⟩ := chain_cons_inv s hcB
        have hPB := w.hPrev B hB
        rw [hE] at hPB
        have hcp : c ≠ p := hpL B hB c (by rw [hE]; simp)
        refine ⟨?_, ?_⟩
        · rw [(hoh c hcp).2.1, if_pos ⟨hhead.symm, by rw [hhead]; exact hc0⟩]
        · have hndB : (Ls B).Nodup := flat_nodup_bucket Ls B hB hflatnd
          rw [hE] at hndB
          refine prevOk_ext s s' c t ?_ hPB.2
          intro q hq
          have hqp : q ≠ p := hpL B hB q (by rw [hE]; simp [hq])
          rw [(hoh q hqp).2.1, if_neg ?_]
          rintro ⟨h1, h2⟩
          rw [hhead] at h1
          exact (List.nodup_cons.mp hndB).1 (h1 ▸ hq)
    · rw [if_neg heq]
      refine prevOk_ext s s' 0 (Ls b') ?_ (w.hPrev b' hb')
      intro q hq
      rw [(hoh q (hpL b' hb' q hq)).2.1, if_neg (hnotheadB b' hb' heq q hq)]
  · rw [hXY2]
    have hold := w.hdisj
    rw [hXY1] at hold
    refine (List.Perm.nodup ?_) hold
    have h1 : p :: (F ++ (X ++ (Ls B ++ Y))) = p :: ((F ++ X) ++ (Ls B ++ Y)) := by
      simp [List.append_assoc]
    have h2 : F ++ (X ++ ((p :: Ls B) ++ Y)) = (F ++ X) ++ p :: (Ls B ++ Y) := by
      simp [List.append_assoc]
    rw [h1, h2]
    exact List.perm_middle.symm
  · intro q h1 h2
    rw [hmax] at h2
    rcases w.hcomplete q h1 h2 with h | h | ⟨b'', hb'', hmemb⟩
    · refine Or.inr ⟨B, hB, ?_⟩
      rw [if_pos rfl, h]
      simp
    · exact Or.inl h
    · refine Or.inr ⟨b'', hb'', ?_⟩
      by_cases heq : b'' = B
      · rw [if_pos heq]
        exact List.mem_cons_of_mem p (heq ▸ hmemb)
      · rw [if_neg heq]
        exact hmemb
  · rw [hused, w.hcount, hXY1, hXY2]
    simp [List.length_append]
    omega

theorem wf_pop (s s' : TimerState) (p : Nat) (F₁ : List Nat) (Ls : Nat → List Nat)
    (w : WFData s (p :: F₁) Ls) (hhead : s.free_head = p)
    (hmax : s'.max_num = s.max_num)
    (hused : s'.used_num = (s.used_num + 1) % W64)
    (hfh : s'.free_head = (s.objs p).next)
    (hbuck : ∀ b', s'.buckets b' = s.buckets b')
    (hoh : ∀ q, q ≠ p → (s'.objs q).next = (s.objs q).next
      ∧ (s'.objs q).prev = (s.objs q).prev
      ∧ (s'.objs q).used = (s.objs q).used ∧ (s'.objs q).idPos = (s.objs q).idPos
      ∧ (s'.objs q).expire = (s.objs q).expire) :
    WFHole s' p F₁ Ls := by
  have hbig := w.hdisj
  have hpF : ∀ q ∈ F₁, q ≠ p := by
    intro q hq he
    have := (List.nodup_cons.mp (hbig.of_append_left)).1
    exact this (he ▸ hq)
  have hpL : ∀ b, b < kTimerBucketNum → ∀ q ∈ Ls b, q ≠ p := by
    intro b hb q hq he
    simp only [List.cons_append, List.nodup_cons] at hbig
    refine hbig.1 (List.mem_append.mpr (Or.inr ?_))
    rw [List.mem_flatMap]
    exact ⟨b, List.mem_range.mpr hb, he ▸ hq⟩
  have hflen : ((List.range kTimerBucketNum).flatMap Ls).length + 1 + F₁.length
      ≤ s.max_num := by
    have := nodup_length_le ((p :: F₁) ++ (List.range kTimerBucketNum).flatMap Ls)
      s.max_num w.hdisj ?_
    · rw [List.length_append, List.length_cons] at this
      omega
    · intro q hq
      rcases List.mem_append.mp hq with h1 | h1
      · exact w.hFrange q h1
      · exact flat_mem_range (p :: F₁) Ls s w.hLrange q h1
  have hFchain : Chain s s.free_head (p :: F₁) := w.hF
  rw [hhead] at hFchain
  obtain ⟨-, hp0, hFtail⟩ := chain_cons_inv s hFchain
  refine ⟨hmax ▸ w.hmax32, hmax ▸ w.hmax64,
    hmax ▸ w.hFrange p (by simp), ?_, ?_, ?_, ?_, ?_, ?_, ?_, ?_, ?_, ?_, ?_, ?_⟩
  · rw [hfh]
    exact chain_ext s s' _ F₁ (fun q hq => (hoh q (hpF q hq)).1) hFtail
  · intro q hq
    rw [hmax]
    exact w.hFrange q (by simp [hq])
  · intro q hq
    rw [(hoh q (hpF q hq)).2.2.1]
    exact w.hFunused q (by simp [hq])
  · intro b hb
    rw [hbuck b]
    exact chain_ext s s' _ (Ls b) (fun q hq => (hoh q (hpL b hb q hq)).1) (w.hL b hb)
  · intro b hb q hq
    rw [hmax]
    exact w.hLrange b hb q hq
  · intro b hb q hq
    rw [(hoh q (hpL b hb q hq)).2.2.1]
    exact w.hLused b hb q hq
  · intro b hb q hq
    rw [(hoh q (hpL b hb q hq)).2.2.2.1]
    exact w.hLid b hb q hq
  · intro b hb q hq
    rw [(hoh q (hpL b hb q hq)).2.2.2.2]
    exact w.hLbucket b hb q hq
  · intro b hb
    exact prevOk_ext s s' 0 (Ls b) (fun q hq => (hoh q (hpL b hb q hq)).2.1) (w.hPrev b hb)
  · simpa using w.hdisj
  · intro q h1 h2
    rw [hmax] at h2
    rcases w.hcomplete q h1 h2 with h | h
    · rcases List.mem_cons.mp h with h3 | h3
      · exact Or.inl h3
      · exact Or.inr (Or.inl h3)
    · exact Or.inr (Or.inr h)
  · rw [hused, w.hcount]
    have := w.hmax64
    unfold W64 at *
    omega

set_option maxHeartbeats 1000000 in
theorem wf_addTimer (now : Nat) (iv mf : Int) (d : Nat) (s : TimerState)
    (F : List Nat) (Ls : Nat → List Nat) (w : WFData s F Ls) :
    ∃ F' Ls', WFData (addTimer now iv mf d s).2 F' Ls' := by
  by_cases hb : iv ≤ 0 ∨ iv > (kTimerBucketNum : Int) ∨ mf < 0
  · refine ⟨F, Ls, ?_⟩
    rw [show (addTimer now iv mf d s).2 = s from by simp [addTimer, hb]]
    exact w
  by_cases hc : (now : Int) + iv < (s.cur_bucket_time : Int)
  · refine ⟨F, Ls, ?_⟩
    rw [show (addTimer now iv mf d s).2 = s from by simp [addTimer, hb, hc]]
    exact w
  by_cases hfh : s.free_head = 0
  · refine ⟨F, Ls, ?_⟩
    rw [show (addTimer now iv mf d s).2 = s from by
      simp [addTimer, hb, hc, allocNode, hfh]]
    exact w
  have hg : s.free_head > 0 ∧ s.used_num ≤ s.max_num :=
    ⟨Nat.pos_of_ne_zero hfh, wf_used_le s F Ls w⟩
  have hFc := w.hF
  obtain ⟨F₁, hFeq⟩ : ∃ F₁, F = s.free_head :: F₁ := by
    cases hE : F with
    | nil =>
      exfalso
      rw [hE] at hFc
      have := chain_head s hFc
      simp at this
      exact hfh this
    | cons a t =>
      refine ⟨t, ?_⟩
      rw [hE] at hFc
      obtain ⟨heq, -, -⟩ := chain_cons_inv s hFc
      rw [heq]
  have hB60 : (((now : Int) + iv) % (kTimerBucketNum : Int)).toNat < kTimerBucketNum := by
    have h1 : 0 ≤ ((now : Int) + iv) % (kTimerBucketNum : Int) :=
      Int.emod_nonneg _ (by norm_num [kTimerBucketNum])
    have h2 : ((now : Int) + iv) % (kTimerBucketNum : Int) < (kTimerBucketNum : Int) :=
      Int.emod_lt_of_pos _ (by norm_num [kTimerBucketNum])
    omega
  have hpmem : s.free_head ∈ F := by
    rw [hFeq]
    simp
  have hbh : s.buckets ((((now : Int) + iv) % (kTimerBucketNum : Int)).toNat)
      ≠ s.free_head := by
    by_cases h0 : s.buckets ((((now : Int) + iv) % (kTimerBucketNum : Int)).toNat) = 0
    · rw [h0]
      exact fun he => hfh he.symm
    · have hcB := w.hL _ hB60
      have hmemB : s.buckets ((((now : Int) + iv) % (kTimerBucketNum : Int)).toNat)
          ∈ Ls ((((now : Int) + iv) % (kTimerBucketNum : Int)).toNat) := by
        cases hE : Ls ((((now : Int) + iv) % (kTimerBucketNum : Int)).toNat) with
        | nil =>
          exfalso
          rw [hE] at hcB
          have := chain_head s hcB
          simp at this
          exact h0 this
        | cons c t =>
          rw [hE] at hcB
          obtain ⟨heq, -, -⟩ := chain_cons_inv s hcB
          rw [heq]
          simp
      intro he
      have hdisj := w.hdisj
      simp only [List.nodup_append, List.disjoint_left] at hdisj
      refine hdisj.2.2 (he ▸ hpmem) ?_
      rw [List.mem_flatMap]
      exact ⟨_, List.mem_range.mpr hB60, hmemB⟩
  have hpw : s.free_head < W32 := by
    have h1 := w.hFrange s.free_head hpmem
    have h2 := w.hmax32
    omega
  rw [addTimer_ok_state now iv mf d s hb hc hg hbh]
  refine ⟨F₁, fun b' => if b' = (((now : Int) + iv) % (kTimerBucketNum : Int)).toNat
      then s.free_head :: Ls ((((now : Int) + iv) % (kTimerBucketNum : Int)).toNat)
      else Ls b', ?_⟩
  have hmid := wf_pop s
    { s with
      used_num := (s.used_num + 1) % W64,
      free_head := (s.objs s.free_head).next,
      seq := (s.seq + 1) % W32,
      objs := fun q => if q = s.free_head then
        ⟨0, s.buckets ((((now : Int) + iv) % (kTimerBucketNum : Int)).toNat), true, iv, mf, 0,
          (now : Int) + iv, s.free_head % W32, s.seq, d⟩ else s.objs q }
    s.free_head F₁ Ls (hFeq ▸ w) rfl rfl rfl rfl (fun b' => rfl)
    (fun q hq => by simp [hq])
  refine wf_hole_insert _ _ s.free_head _ F₁ Ls hmid hB60 rfl rfl rfl (fun b' => rfl)
    ⟨by simp, by simp, by simp, by simp [Nat.mod_eq_of_lt hpw], by simp⟩ ?_
  intro q hq
  refine ⟨?_, ?_, ?_, ?_, ?_⟩ <;>
    · simp only [if_neg hq]
      split_ifs <;> rfl

set_option maxRecDepth 4000 in
theorem wf_del_finish (s : TimerState) (F : List Nat) (Ls : Nat → List Nat)
    (w : WFData s F Ls) (bst pos : Nat) (hbst : bst < kTimerBucketNum)
    (hmemb : pos ∈ Ls bst) (mid : TimerState)
    (hmmax : mid.max_num = s.max_num) (hmused : mid.used_num = s.used_num)
    (hmfh : mid.free_head = s.free_head)
    (hmbuck : ∀ b', mid.buckets b' =
      if (s.objs pos).prev = 0 ∧ b' = bst then (s.objs pos).next else s.buckets b')
    (hmobjs : ∀ q, q ≠ pos →
      ((mid.objs q).next = (if (s.objs pos).prev ≠ 0 ∧ q = (s.objs pos).prev
          then (s.objs pos).next else (s.objs q).next)
        ∧ (mid.objs q).prev = (if (s.objs pos).next ≠ 0 ∧ q = (s.objs pos).next
          then (s.objs pos).prev else (s.objs q).prev)
        ∧ (mid.objs q).used = (s.objs q).used
        ∧ (mid.objs q).idPos = (s.objs q).idPos
        ∧ (mid.objs q).expire = (s.objs q).expire)) :
    ∃ F' Ls', WFData (freeNode pos mid) F' Ls' := by
  obtain ⟨l₁, l₂, hsplit, hnxh, whole⟩ :=
    wf_remove s mid F Ls w bst pos hbst hmemb hmmax hmused hmfh hmbuck hmobjs
  refine ⟨pos :: F, fun b' => if b' = bst then l₁ ++ l₂ else Ls b', ?_⟩
  refine wf_hole_free mid (freeNode pos mid) pos F
    (fun b' => if b' = bst then l₁ ++ l₂ else Ls b') whole
    (freeNode_max_num pos mid) (freeNode_used_num pos mid) (freeNode_free_head pos mid)
    (fun b' => congrFun (freeNode_buckets pos mid) b')
    ⟨by rw [freeNode_objs]; simp, by rw [freeNode_objs]; simp⟩ ?_
  intro q hq
  refine ⟨?_, ?_, ?_, ?_, ?_⟩ <;> rw [freeNode_objs] <;> simp [hq]

set_option maxHeartbeats 1000000 in
theorem wf_delTimer (tid : Nat) (s : TimerState) (F : List Nat) (Ls : Nat → List Nat)
    (w : WFData s F Ls) : ∃ F' Ls', WFData (delTimer tid s).2 F' Ls' := by
  by_cases h1 : tid % W32 = 0 ∨ tid % W32 > s.max_num
  · refine ⟨F, Ls, ?_⟩
    rw [show (delTimer tid s).2 = s from by simp [delTimer, h1]]
    exact w
  by_cases h2 : storedId s (tid % W32) ≠ tid ∨ (s.objs (tid % W32)).used = false
  · refine ⟨F, Ls, ?_⟩
    rw [show (delTimer tid s).2 = s from by
      unfold delTimer
      rw [if_neg h1, if_pos h2]]
    exact w
  push_neg at h1 h2
  obtain ⟨h1a, h1b⟩ := h1
  obtain ⟨h2a, h2b⟩ := h2
  have hrange : 1 ≤ tid % W32 ∧ tid % W32 ≤ s.max_num := ⟨by omega, by omega⟩
  have hnotF : tid % W32 ∉ F := by
    intro hmem
    have := w.hFunused _ hmem
    rw [this] at h2b
    exact absurd h2b (by simp)
  obtain ⟨bst, hbst, hmemb⟩ : ∃ b, b < kTimerBucketNum ∧ tid % W32 ∈ Ls b := by
    rcases w.hcomplete (tid % W32) hrange.1 hrange.2 with h | h
    · exact absurd h hnotF
    · exact h
  have hbexp : (((s.objs (tid % W32)).expire) % (kTimerBucketNum : Int)).toNat = bst :=
    w.hLbucket bst hbst _ hmemb
  have hlenb : (Ls bst).length ≤ s.max_num := by
    have hu := wf_used_le s F Ls w
    rw [w.hcount] at hu
    have h3 : (Ls bst).length ≤ ((List.range kTimerBucketNum).flatMap Ls).length := by
      rw [List.length_flatMap]
      refine List.single_le_sum (fun x _ => Nat.zero_le x) _ ?_
      rw [List.mem_map]
      exact ⟨bst, List.mem_range.mpr hbst, rfl⟩
    omega
  have hfind : findAux s tid (s.max_num + 1) (s.buckets bst) = tid % W32 := by
    refine findAux_chain s tid (tid % W32) w.hmax32 (w.hL bst hbst) hmemb h2a ?_
      (s.max_num + 1) (by omega)
    intro q hq
    exact ⟨w.hLid bst hbst q hq, (w.hLrange bst hbst q hq).2⟩
  have hfpos : 0 < tid % W32 := by omega
  by_cases hpr : (s.objs (tid % W32)).prev = 0 <;>
    by_cases hnxz : (s.objs (tid % W32)).next = 0
  · -- head of its bucket, no successor
    have hstate : (delTimer tid s).2 = freeNode (tid % W32)
        (setBucket s bst (s.objs (tid % W32)).next) := by
      unfold delTimer
      rw [if_neg (by push_neg; exact ⟨h1a, h1b⟩)]
      rw [if_neg (by push_neg; exact ⟨h2a, h2b⟩)]
      dsimp only
      rw [hbexp, hfind, if_pos hfpos]
      simp [hpr, hnxz]
    rw [hstate]
    refine wf_del_finish s F Ls w bst (tid % W32) hbst hmemb _ rfl rfl rfl ?_ ?_
    · intro b'
      by_cases hbb : b' = bst <;> simp [setBucket, hpr, hbb]
    · intro q hq
      refine ⟨?_, ?_, ?_, ?_, ?_⟩ <;> simp [setBucket, hpr, hnxz]
  · -- head of its bucket, with successor
    have hstate : (delTimer tid s).2 = freeNode (tid % W32)
        (setObj (setBucket s bst (s.objs (tid % W32)).next) (s.objs (tid % W32)).next
          { (setBucket s bst (s.objs (tid % W32)).next).objs ((s.objs (tid % W32)).next) with
            prev := (s.objs (tid % W32)).prev }) := by
      unfold delTimer
      rw [if_neg (by push_neg; exact ⟨h1a, h1b⟩)]
      rw [if_neg (by push_neg; exact ⟨h2a, h2b⟩)]
      dsimp only
      rw [hbexp, hfind, if_pos hfpos]
      simp [hpr, hnxz]
    rw [hstate]
    refine wf_del_finish s F Ls w bst (tid % W32) hbst hmemb _ rfl rfl rfl ?_ ?_
    · intro b'
      by_cases hbb : b' = bst <;> simp [setObj, setBucket, hpr, hbb]
    · intro q hq
      by_cases hqnx : q = (s.objs (tid % W32)).next <;>
        refine ⟨?_, ?_, ?_, ?_, ?_⟩ <;>
        simp [setObj, setBucket, hpr, hnxz, hqnx, eq_comm]
  · -- interior, no successor
    have hstate : (delTimer tid s).2 = freeNode (tid % W32)
        (setObj s (s.objs (tid % W32)).prev
          { s.objs ((s.objs (tid % W32)).prev) with next := (s.objs (tid % W32)).next }) := by
      unfold delTimer
      rw [if_neg (by push_neg; exact ⟨h1a, h1b⟩)]
      rw [if_neg (by push_neg; exact ⟨h2a, h2b⟩)]
      dsimp only
      rw [hbexp, hfind, if_pos hfpos]
      simp [hpr, hnxz]
    rw [hstate]
    refine wf_del_finish s F Ls w bst (tid % W32) hbst hmemb _ rfl rfl rfl ?_ ?_
    · intro b'
      simp [setObj, hpr]
    · intro q hq
      by_cases hqpr : q = (s.objs (tid % W32)).prev <;>
        refine ⟨?_, ?_, ?_, ?_, ?_⟩ <;>
        simp [setObj, hpr, hnxz, hqpr, eq_comm]
  · -- interior, with successor
    have hstate : (delTimer tid s).2 = freeNode (tid % W32)
        (setObj (setObj s (s.objs (tid % W32)).prev
            { s.objs ((s.objs (tid % W32)).prev) with next := (s.objs (tid % W32)).next })
          (s.objs (tid % W32)).next
          { (setObj s (s.objs (tid % W32)).prev
              { s.objs ((s.objs (tid % W32)).prev) with
                next := (s.objs (tid % W32)).next }).objs ((s.objs (tid % W32)).next) with
            prev := (s.objs (tid % W32)).prev }) := by
      unfold delTimer
      rw [if_neg (by push_neg; exact ⟨h1a, h1b⟩)]
      rw [if_neg (by push_neg; exact ⟨h2a, h2b⟩)]
      dsimp only
      rw [hbexp, hfind, if_pos hfpos]
      simp [hpr, hnxz]
    rw [hstate]
    refine wf_del_finish s F Ls w bst (tid % W32) hbst hmemb _ rfl rfl rfl ?_ ?_
    · intro b'
      simp [setObj, hpr]
    · intro q hq
      by_cases hpn : (s.objs (tid % W32)).prev = (s.objs (tid % W32)).next <;>
        by_cases hqpr : q = (s.objs (tid % W32)).prev <;>
        by_cases hqnx : q = (s.objs (tid % W32)).next <;>
        refine ⟨?_, ?_, ?_, ?_, ?_⟩ <;>
        simp [setObj, hpr, hnxz, hpn, hqpr, hqnx, eq_comm]

theorem chain_next_ne_self (s : TimerState) (h : Nat) (l : List Nat)
    (hc : Chain s h l) (hnd : l.Nodup) : ∀ p ∈ l, (s.objs p).next ≠ p := by
  induction hc with
  | nil => intro p hp; simp at hp
  | cons q t hq hcn ih =>
    intro p hp he
    rcases List.mem_cons.mp hp with rfl | hp2
    · rw [he] at hcn
      cases t with
      | nil => exact hq (chain_head s hcn)
      | cons c t' =>
        obtain ⟨heq, -, -⟩ := chain_cons_inv s hcn
        have hmt : p ∈ c :: t' := by rw [heq]; exact List.mem_cons_self c t'
        exact (List.nodup_cons.mp hnd).1 hmt
    · exact ih (List.nodup_cons.mp hnd).2 p hp2 he

theorem prevOk_ne_self (s : TimerState) :
    ∀ (l : List Nat) (pr : Nat), PrevOk s pr l → l.Nodup → pr ∉ l →
      ∀ p ∈ l, (s.objs p).prev ≠ p := by
  intro l
  induction l with
  | nil => intro pr _ _ _ p hp; simp at hp
  | cons q t ih =>
    intro pr hpk hnd hprm p hp
    obtain ⟨h1, h2⟩ := hpk
    rcases List.mem_cons.mp hp with rfl | hp2
    · rw [h1]
      intro he
      exact hprm (by rw [he]; exact List.mem_cons_self p t)
    · exact ih q h2 (List.nodup_cons.mp hnd).2 (List.nodup_cons.mp hnd).1 p hp2

theorem wf_hole_congr (s s' : TimerState) (p : Nat) (F : List Nat)
    (Ls : Nat → List Nat) (w : WFHole s p F Ls)
    (hmax : s'.max_num = s.max_num) (hused : s'.used_num = s.used_num)
    (hfh : s'.free_head = s.free_head) (hbuck : ∀ b', s'.buckets b' = s.buckets b')
    (hobjs : ∀ q, q ≠ p → s'.objs q = s.objs q) : WFHole s' p F Ls := by
  have hpF : ∀ q ∈ F, q ≠ p := by
    intro q hq he
    exact (List.nodup_cons.mp w.hdisj).1 (he ▸ List.mem_append.mpr (Or.inl hq))
  have hpL : ∀ b, b < kTimerBucketNum → ∀ q ∈ Ls b, q ≠ p := by
    intro b hb q hq he
    refine (List.nodup_cons.mp w.hdisj).1 (he ▸ List.mem_append.mpr (Or.inr ?_))
    rw [List.mem_flatMap]
    exact ⟨b, List.mem_range.mpr hb, hq⟩
  refine ⟨hmax ▸ w.hmax32, hmax ▸ w.hmax64, hmax ▸ w.hprange, ?_, ?_, ?_, ?_, ?_, ?_,
    ?_, ?_, ?_, w.hdisj, ?_, hused ▸ w.hcount⟩
  · rw [hfh]
    exact chain_ext s s' _ F (fun q hq => by rw [hobjs q (hpF q hq)]) w.hF
  · intro q hq
    rw [hmax]
    exact w.hFrange q hq
  · intro q hq
    rw [hobjs q (hpF q hq)]
    exact w.hFunused q hq
  · intro b hb
    rw [hbuck b]
    exact chain_ext s s' _ _ (fun q hq => by rw [hobjs q (hpL b hb q hq)]) (w.hL b hb)
  · intro b hb q hq
    rw [hmax]
    exact w.hLrange b hb q hq
  · intro b hb q hq
    rw [hobjs q (hpL b hb q hq)]
    exact w.hLused b hb q hq
  · intro b hb q hq
    rw [hobjs q (hpL b hb q hq)]
    exact w.hLid b hb q hq
  · intro b hb q hq
    rw [hobjs q (hpL b hb q hq)]
    exact w.hLbucket b hb q hq
  · intro b hb
    exact prevOk_ext s s' _ _ (fun q hq => by rw [hobjs q (hpL b hb q hq)]) (w.hPrev b hb)
  · intro q h1 h2
    exact w.hcomplete q h1 (hmax ▸ h2)

set_option maxRecDepth 4000 in
theorem walk_free_finish (s : TimerState) (F : List Nat) (Ls : Nat → List Nat)
    (w : WFData s F Ls) (bst pos : Nat) (hbst : bst < kTimerBucketNum)
    (hmemb : pos ∈ Ls bst) (mid : TimerState)
    (hmbuck : ∀ b', mid.buckets b' =
      if (s.objs pos).prev = 0 ∧ b' = bst then (s.objs pos).next else s.buckets b')
    (hmobjs : ∀ q, q ≠ pos →
      ((mid.objs q).next = (if (s.objs pos).prev ≠ 0 ∧ q = (s.objs pos).prev
          then (s.objs pos).next else (s.objs q).next)
        ∧ (mid.objs q).prev = (if (s.objs pos).next ≠ 0 ∧ q = (s.objs pos).next
          then (s.objs pos).prev else (s.objs q).prev)
        ∧ (mid.objs q).used = (s.objs q).used
        ∧ (mid.objs q).idPos = (s.objs q).idPos
        ∧ (mid.objs q).expire = (s.objs q).expire))
    (hmmax : mid.max_num = s.max_num) (hmused : mid.used_num = s.used_num)
    (hmfh : mid.free_head = s.free_head) :
    ∃ l₁ l₂, Ls bst = l₁ ++ pos :: l₂ ∧ (s.objs pos).next = l₂.headD 0 ∧
      WFData (freeNode pos mid) (pos :: F)
        (fun b' => if b' = bst then l₁ ++ l₂ else Ls b') := by
  obtain ⟨l₁, l₂, hsplit, hnxh, whole⟩ :=
    wf_remove s mid F Ls w bst pos hbst hmemb hmmax hmused hmfh hmbuck hmobjs
  refine ⟨l₁, l₂, hsplit, hnxh, ?_⟩
  refine wf_hole_free mid (freeNode pos mid) pos F
    (fun b' => if b' = bst then l₁ ++ l₂ else Ls b') whole
    (freeNode_max_num pos mid) (freeNode_used_num pos mid) (freeNode_free_head pos mid)
    (fun b' => congrFun (freeNode_buckets pos mid) b')
    ⟨by rw [freeNode_objs]; simp, by rw [freeNode_objs]; simp⟩ ?_
  intro q hq
  refine ⟨?_, ?_, ?_, ?_, ?_⟩ <;> rw [freeNode_objs] <;> simp [hq]

set_option maxRecDepth 4000 in
set_option maxHeartbeats 1000000 in
theorem walk_rearm_finish (now : Nat) (s : TimerState) (F : List Nat)
    (Ls : Nat → List Nat) (w : WFData s F Ls) (bst pos : Nat)
    (hbst : bst < kTimerBucketNum) (hmemb : pos ∈ Ls bst) (mid : TimerState)
    (B2 : Nat)
    (hB2 : B2 = (((now : Int) + (s.objs pos).interval_ms) % (kTimerBucketNum : Int)).toNat)
    (hmbuck : ∀ b', mid.buckets b' =
      if (s.objs pos).prev = 0 ∧ b' = bst then (s.objs pos).next else s.buckets b')
    (hmobjs : ∀ q, q ≠ pos →
      ((mid.objs q).next = (if (s.objs pos).prev ≠ 0 ∧ q = (s.objs pos).prev
          then (s.objs pos).next else (s.objs q).next)
        ∧ (mid.objs q).prev = (if (s.objs pos).next ≠ 0 ∧ q = (s.objs pos).next
          then (s.objs pos).prev else (s.objs q).prev)
        ∧ (mid.objs q).used = (s.objs q).used
        ∧ (mid.objs q).idPos = (s.objs q).idPos
        ∧ (mid.objs q).expire = (s.objs q).expire))
    (hmmax : mid.max_num = s.max_num) (hmused : mid.used_num = s.used_num)
    (hmfh : mid.free_head = s.free_head)
    (hmidpos : mid.objs pos = s.objs pos) :
    ∃ l₁ l₂, Ls bst = l₁ ++ pos :: l₂ ∧ (s.objs pos).next = l₂.headD 0 ∧
      WFData (walkRearm now pos mid) F
        (fun b' => if b' = B2 then pos :: (if B2 = bst then l₁ ++ l₂ else Ls B2)
          else if b' = bst then l₁ ++ l₂ else Ls b') := by
  obtain ⟨l₁, l₂, hsplit, hnxh, whole⟩ :=
    wf_remove s mid F Ls w bst pos hbst hmemb hmmax hmused hmfh hmbuck hmobjs
  refine ⟨l₁, l₂, hsplit, hnxh, ?_⟩
  have hB2lt : B2 < kTimerBucketNum := by
    have h1 : (0 : Int) ≤ ((now : Int) + (s.objs pos).interval_ms) % (kTimerBucketNum : Int) :=
      Int.emod_nonneg _ (by unfold kTimerBucketNum; norm_num)
    have h2 : ((now : Int) + (s.objs pos).interval_ms) % (kTimerBucketNum : Int)
        < (kTimerBucketNum : Int) :=
      Int.emod_lt_of_pos _ (by unfold kTimerBucketNum; norm_num)
    rw [hB2]
    unfold kTimerBucketNum at *
    omega
  have hB2e : (((now : Int) + (mid.objs pos).interval_ms) % (kTimerBucketNum : Int)).toNat
      = B2 := by rw [hmidpos, hB2]
  have husedp : (mid.objs pos).used = true := by
    rw [hmidpos]; exact w.hLused bst hbst pos hmemb
  have hidp : (mid.objs pos).idPos = pos := by
    rw [hmidpos]; exact w.hLid bst hbst pos hmemb
  have wsb : WFHole (setObj mid pos { mid.objs pos with
      expire := (now : Int) + (mid.objs pos).interval_ms }) pos F
      (fun b' => if b' = bst then l₁ ++ l₂ else Ls b') := by
    refine wf_hole_congr mid _ pos F _ whole rfl rfl rfl (fun b' => rfl) ?_
    intro q hq
    exact setObj_objs_ne _ _ _ _ hq
  have hposne : mid.buckets B2 ≠ 0 → pos ≠ mid.buckets B2 := by
    intro hn0 he2
    have hc := whole.hL B2 hB2lt
    have hh : mid.buckets B2 = (if B2 = bst then l₁ ++ l₂ else Ls B2).headD 0 :=
      chain_head mid hc
    have hmem : mid.buckets B2 ∈ (if B2 = bst then l₁ ++ l₂ else Ls B2) := by
      rcases hE : (if B2 = bst then l₁ ++ l₂ else Ls B2) with _ | ⟨c, t⟩
      · rw [hE] at hh
        simp at hh
        exact absurd hh hn0
      · rw [hE] at hh
        rw [hh]
        simp
    refine (List.nodup_cons.mp whole.hdisj).1 (List.mem_append.mpr (Or.inr ?_))
    rw [List.mem_flatMap]
    refine ⟨B2, List.mem_range.mpr hB2lt, ?_⟩
    show pos ∈ (if B2 = bst then l₁ ++ l₂ else Ls B2)
    rw [he2]
    exact hmem
  by_cases hh2 : mid.buckets B2 = 0
  · refine wf_hole_insert _ (walkRearm now pos mid) pos B2 F
      (fun b' => if b' = bst then l₁ ++ l₂ else Ls b') wsb hB2lt
      ?_ ?_ ?_ ?_ ?_ ?_
    · simp [walkRearm, hB2e, hh2]
    · simp [walkRearm, hB2e, hh2]
    · simp [walkRearm, hB2e, hh2]
    · intro b'
      by_cases hbb : b' = B2 <;> simp [walkRearm, hB2e, hh2, setBucket_buckets, hbb]
    · refine ⟨?_, ?_, ?_, ?_, ?_⟩ <;>
        simp [walkRearm, hB2e, hh2, husedp, hidp]
    · intro q hq
      refine ⟨?_, ?_, ?_, ?_, ?_⟩ <;>
        simp [walkRearm, hB2e, hh2, setObj_objs_ne _ _ _ _ hq, hq]
  · refine wf_hole_insert _ (walkRearm now pos mid) pos B2 F
      (fun b' => if b' = bst then l₁ ++ l₂ else Ls b') wsb hB2lt
      ?_ ?_ ?_ ?_ ?_ ?_
    · simp [walkRearm, hB2e, hh2]
    · simp [walkRearm, hB2e, hh2]
    · simp [walkRearm, hB2e, hh2]
    · intro b'
      by_cases hbb : b' = B2 <;> simp [walkRearm, hB2e, hh2, setBucket_buckets, hbb]
    · refine ⟨?_, ?_, ?_, ?_, ?_⟩ <;>
        simp [walkRearm, hB2e, hh2, setObj_objs, husedp, hidp, hposne hh2]
    · intro q hq
      by_cases hqh : q = mid.buckets B2 <;>
        refine ⟨?_, ?_, ?_, ?_, ?_⟩ <;>
        simp [walkRearm, hB2e, hh2, setObj_objs, hq, hqh, hposne hh2, eq_comm]

set_option maxHeartbeats 1000000 in
theorem walkAux_step (b tick now g pos : Nat) (s s1 s3 s4 : TimerState) (tr : Trace)
    (hpos0 : pos ≠ 0) (hused : (s.objs pos).used = true)
    (hs1 : s1 = setObj s pos { s.objs pos with fire_count := (s.objs pos).fire_count + 1 })
    (hs3 : s3 = walkUnlink b pos s1)
    (hs4 : s4 = if (s3.objs pos).max_fire_count ≠ 0 ∧
        (s3.objs pos).fire_count ≥ (s3.objs pos).max_fire_count then freeNode pos s3
      else walkRearm now pos s3) :
    walkAux passiveCb b tick now (g + 1) pos s tr =
      if (s1.objs pos).next ≠ 0 ∧ (s4.objs ((s1.objs pos).next)).used = false then
        walkAux passiveCb b tick now g pos s4
          (tr ++ [(tick, storedId s1 pos, (s1.objs pos).timer_data)])
      else
        walkAux passiveCb b tick now g ((s1.objs pos).next) s4
          (tr ++ [(tick, storedId s1 pos, (s1.objs pos).timer_data)]) := by
  subst hs4 hs3 hs1
  rw [walkAux, if_neg hpos0]
  dsimp only [passiveCb, walkUnlink, walkRearm]
  simp only [setObj_objs_self, hused, if_true]

set_option maxHeartbeats 2000000 in
theorem wf_walk (b tick now : Nat) (hb : b < kTimerBucketNum) :
    ∀ (fuel pos : Nat) (s : TimerState) (tr : Trace) (F : List Nat) (Ls : Nat → List Nat),
      WFData s F Ls → (pos = 0 ∨ pos ∈ Ls b) →
      ∀ out : TimerState × Trace,
      walkAux passiveCb b tick now fuel pos s tr = some out →
      ∃ F' Ls', WFData out.1 F' Ls' := by
  intro fuel
  induction fuel with
  | zero =>
    intro pos s tr F Ls w hpos out hw
    rw [walkAux] at hw
    exact absurd hw (by simp)
  | succ g ih =>
    intro pos s tr F Ls w hpos out hw
    rcases hpos with rfl | hpm
    · rw [walkAux, if_pos rfl] at hw
      obtain rfl : (s, tr) = out := by injection hw
      exact ⟨F, Ls, w⟩
    · have hpos0 : pos ≠ 0 := by
        have := w.hLrange b hb pos hpm
        omega
      have hused : (s.objs pos).used = true := w.hLused b hb pos hpm
      set s1 := setObj s pos { s.objs pos with fire_count := (s.objs pos).fire_count + 1 }
        with hs1
      have hs1q : ∀ q, q ≠ pos → s1.objs q = s.objs q := by
        intro q hq
        rw [hs1]
        exact setObj_objs_ne _ _ _ _ hq
      have hs1p : s1.objs pos = { s.objs pos with
          fire_count := (s.objs pos).fire_count + 1 } := by
        rw [hs1]
        exact setObj_objs_self _ _ _
      have w1 : WFData s1 F Ls := by
        refine wf_congr s s1 F Ls w rfl rfl rfl (fun b' => rfl) ?_
        intro q
        by_cases hq : q = pos
        · subst hq
          rw [hs1p]
          exact ⟨rfl, rfl, rfl, rfl, rfl⟩
        · rw [hs1q q hq]
          exact ⟨rfl, rfl, rfl, rfl, rfl⟩
      have hnd : (Ls b).Nodup := flat_nodup_bucket Ls b hb w.hdisj.of_append_right
      have hzero : (0 : Nat) ∉ Ls b := by
        intro h0
        have := w.hLrange b hb 0 h0
        omega
      have hnp : (s1.objs pos).next ≠ pos :=
        chain_next_ne_self s1 (s1.buckets b) (Ls b) (w1.hL b hb) hnd pos hpm
      have hpp : (s1.objs pos).prev ≠ pos :=
        prevOk_ne_self s1 (Ls b) 0 (w1.hPrev b hb) hnd hzero pos hpm
      by_cases hpr : (s1.objs pos).prev = 0 <;>
        by_cases hnxz : (s1.objs pos).next = 0
      · -- head of bucket, no successor
        have hS3eq : walkUnlink b pos s1 = setBucket s1 b 0 := by
          simp [walkUnlink, hpr, hnxz]
        have hmb : ∀ b', (setBucket s1 b 0).buckets b' =
            if (s1.objs pos).prev = 0 ∧ b' = b then (s1.objs pos).next
            else s1.buckets b' := by
          intro b'
          by_cases hbb : b' = b <;> simp [setBucket_buckets, hpr, hnxz, hbb]
        have hmo : ∀ q, q ≠ pos →
            (((setBucket s1 b 0).objs q).next =
              (if (s1.objs pos).prev ≠ 0 ∧ q = (s1.objs pos).prev
                then (s1.objs pos).next else (s1.objs q).next)
            ∧ ((setBucket s1 b 0).objs q).prev =
              (if (s1.objs pos).next ≠ 0 ∧ q = (s1.objs pos).next
                then (s1.objs pos).prev else (s1.objs q).prev)
            ∧ ((setBucket s1 b 0).objs q).used = (s1.objs q).used
            ∧ ((setBucket s1 b 0).objs q).idPos = (s1.objs q).idPos
            ∧ ((setBucket s1 b 0).objs q).expire = (s1.objs q).expire) := by
          intro q hq
          refine ⟨?_, ?_, ?_, ?_, ?_⟩ <;> simp [hpr, hnxz]
        have hmp : (setBucket s1 b 0).objs pos = s1.objs pos := rfl
        by_cases hfc : ((setBucket s1 b 0).objs pos).max_fire_count ≠ 0 ∧
            ((setBucket s1 b 0).objs pos).fire_count ≥
              ((setBucket s1 b 0).objs pos).max_fire_count
        · obtain ⟨l₁, l₂, hsplit, hnxh2, wfin⟩ :=
            walk_free_finish s1 F Ls w1 b pos hb hpm (setBucket s1 b 0)
              hmb hmo rfl rfl rfl
          rw [walkAux_step b tick now g pos s s1 (setBucket s1 b 0)
            (freeNode pos (setBucket s1 b 0)) tr hpos0 hused hs1 hS3eq.symm
            (if_pos hfc).symm] at hw
          rw [if_neg (by rintro ⟨hne, -⟩; exact hne hnxz)] at hw
          exact ih _ _ _ (pos :: F) _ wfin (Or.inl hnxz) out hw
        · obtain ⟨l₁, l₂, hsplit, hnxh2, wfin⟩ :=
            walk_rearm_finish now s1 F Ls w1 b pos hb hpm (setBucket s1 b 0) _ rfl
              hmb hmo rfl rfl rfl hmp
          rw [walkAux_step b tick now g pos s s1 (setBucket s1 b 0)
            (walkRearm now pos (setBucket s1 b 0)) tr hpos0 hused hs1 hS3eq.symm
            (if_neg hfc).symm] at hw
          rw [if_neg (by rintro ⟨hne, -⟩; exact hne hnxz)] at hw
          exact ih _ _ _ F _ wfin (Or.inl hnxz) out hw
      · -- head of bucket, with successor
        have hS3eq : walkUnlink b pos s1 =
            setObj (setBucket s1 b ((s1.objs pos).next)) ((s1.objs pos).next)
              { s1.objs ((s1.objs pos).next) with prev := 0 } := by
          simp [walkUnlink, hpr, hnxz]
        have hmb : ∀ b', (setObj (setBucket s1 b ((s1.objs pos).next))
              ((s1.objs pos).next)
              { s1.objs ((s1.objs pos).next) with prev := 0 }).buckets b' =
            if (s1.objs pos).prev = 0 ∧ b' = b then (s1.objs pos).next
            else s1.buckets b' := by
          intro b'
          by_cases hbb : b' = b <;> simp [setBucket_buckets, hpr, hbb]
        have hmo : ∀ q, q ≠ pos →
            (((setObj (setBucket s1 b ((s1.objs pos).next)) ((s1.objs pos).next)
                { s1.objs ((s1.objs pos).next) with prev := 0 }).objs q).next =
              (if (s1.objs pos).prev ≠ 0 ∧ q = (s1.objs pos).prev
                then (s1.objs pos).next else (s1.objs q).next)
            ∧ ((setObj (setBucket s1 b ((s1.objs pos).next)) ((s1.objs pos).next)
                { s1.objs ((s1.objs pos).next) with prev := 0 }).objs q).prev =
              (if (s1.objs pos).next ≠ 0 ∧ q = (s1.objs pos).next
                then (s1.objs pos).prev else (s1.objs q).prev)
            ∧ ((setObj (setBucket s1 b ((s1.objs pos).next)) ((s1.objs pos).next)
                { s1.objs ((s1.objs pos).next) with prev := 0 }).objs q).used
              = (s1.objs q).used
            ∧ ((setObj (setBucket s1 b ((s1.objs pos).next)) ((s1.objs pos).next)
                { s1.objs ((s1.objs pos).next) with prev := 0 }).objs q).idPos
              = (s1.objs q).idPos
            ∧ ((setObj (setBucket s1 b ((s1.objs pos).next)) ((s1.objs pos).next)
                { s1.objs ((s1.objs pos).next) with prev := 0 }).objs q).expire
              = (s1.objs q).expire) := by
          intro q hq
          by_cases hqnx : q = (s1.objs pos).next <;>
            refine ⟨?_, ?_, ?_, ?_, ?_⟩ <;>
            simp [setObj_objs, hpr, hnxz, hqnx, eq_comm]
        have hmp : (setObj (setBucket s1 b ((s1.objs pos).next)) ((s1.objs pos).next)
            { s1.objs ((s1.objs pos).next) with prev := 0 }).objs pos
            = s1.objs pos := by
          rw [setObj_objs_ne _ _ _ _ (Ne.symm hnp)]
          rfl
        by_cases hfc : ((setObj (setBucket s1 b ((s1.objs pos).next))
              ((s1.objs pos).next)
              { s1.objs ((s1.objs pos).next) with prev := 0 }).objs pos).max_fire_count
              ≠ 0 ∧
            ((setObj (setBucket s1 b ((s1.objs pos).next)) ((s1.objs pos).next)
              { s1.objs ((s1.objs pos).next) with prev := 0 }).objs pos).fire_count ≥
            ((setObj (setBucket s1 b ((s1.objs pos).next)) ((s1.objs pos).next)
              { s1.objs ((s1.objs pos).next) with prev := 0 }).objs pos).max_fire_count
        · obtain ⟨l₁, l₂, hsplit, hnxh2, wfin⟩ :=
            walk_free_finish s1 F Ls w1 b pos hb hpm _ hmb hmo rfl rfl rfl
          rw [walkAux_step b tick now g pos s s1 _ _ tr hpos0 hused hs1 hS3eq.symm
            (if_pos hfc).symm] at hw
          have hnxmem : (s1.objs pos).next ∈ l₂ := by
            cases l₂ with
            | nil =>
              rw [hnxh2] at hnxz
              simp at hnxz
            | cons c t =>
              rw [hnxh2]
              simp
          have hmemF : (s1.objs pos).next ∈ (if b = b then l₁ ++ l₂ else Ls b) := by
            rw [if_pos rfl]
            exact List.mem_append_right _ hnxmem
          have husednx := wfin.hLused b hb _ hmemF
          rw [if_neg (by rintro ⟨-, hcu⟩; rw [husednx] at hcu; simp at hcu)] at hw
          exact ih _ _ _ (pos :: F) _ wfin (Or.inr hmemF) out hw
        · obtain ⟨l₁, l₂, hsplit, hnxh2, wfin⟩ :=
            walk_rearm_finish now s1 F Ls w1 b pos hb hpm _ _ rfl
              hmb hmo rfl rfl rfl hmp
          rw [walkAux_step b tick now g pos s s1 _ _ tr hpos0 hused hs1 hS3eq.symm
            (if_neg hfc).symm] at hw
          have hnxmem : (s1.objs pos).next ∈ l₂ := by
            cases l₂ with
            | nil =>
              rw [hnxh2] at hnxz
              simp at hnxz
            | cons c t =>
              rw [hnxh2]
              simp
          have hmemR : (s1.objs pos).next ∈
              (if b = (((now : Int) + (s1.objs pos).interval_ms)
                  % (kTimerBucketNum : Int)).toNat
                then pos :: (if (((now : Int) + (s1.objs pos).interval_ms)
                  % (kTimerBucketNum : Int)).toNat = b then l₁ ++ l₂
                  else Ls ((((now : Int) + (s1.objs pos).interval_ms)
                  % (kTimerBucketNum : Int)).toNat))
                else if b = b then l₁ ++ l₂ else Ls b) := by
            by_cases hbB : b = (((now : Int) + (s1.objs pos).interval_ms)
                % (kTimerBucketNum : Int)).toNat
            · rw [if_pos hbB, if_pos hbB.symm]
              exact List.mem_cons_of_mem _ (List.mem_append_right _ hnxmem)
            · rw [if_neg hbB, if_pos rfl]
              exact List.mem_append_right _ hnxmem
          have husednx := wfin.hLused b hb _ hmemR
          rw [if_neg (by rintro ⟨-, hcu⟩; rw [husednx] at hcu; simp at hcu)] at hw
          exact ih _ _ _ F _ wfin (Or.inr hmemR) out hw
      · -- interior, no successor
        have hS3eq : walkUnlink b pos s1 =
            setObj s1 ((s1.objs pos).prev)
              { s1.objs ((s1.objs pos).prev) with next := 0 } := by
          simp [walkUnlink, hpr, hnxz]
        have hmb : ∀ b', (setObj s1 ((s1.objs pos).prev)
              { s1.objs ((s1.objs pos).prev) with next := 0 }).buckets b' =
            if (s1.objs pos).prev = 0 ∧ b' = b then (s1.objs pos).next
            else s1.buckets b' := by
          intro b'
          simp [hpr]
        have hmo : ∀ q, q ≠ pos →
            (((setObj s1 ((s1.objs pos).prev)
                { s1.objs ((s1.objs pos).prev) with next := 0 }).objs q).next =
              (if (s1.objs pos).prev ≠ 0 ∧ q = (s1.objs pos).prev
                then (s1.objs pos).next else (s1.objs q).next)
            ∧ ((setObj s1 ((s1.objs pos).prev)
                { s1.objs ((s1.objs pos).prev) with next := 0 }).objs q).prev =
              (if (s1.objs pos).next ≠ 0 ∧ q = (s1.objs pos).next
                then (s1.objs pos).prev else (s1.objs q).prev)
            ∧ ((setObj s1 ((s1.objs pos).prev)
                { s1.objs ((s1.objs pos).prev) with next := 0 }).objs q).used
              = (s1.objs q).used
            ∧ ((setObj s1 ((s1.objs pos).prev)
                { s1.objs ((s1.objs pos).prev) with next := 0 }).objs q).idPos
              = (s1.objs q).idPos
            ∧ ((setObj s1 ((s1.objs pos).prev)
                { s1.objs ((s1.objs pos).prev) with next := 0 }).objs q).expire
              = (s1.objs q).expire) := by
          intro q hq
          by_cases hqpr : q = (s1.objs pos).prev <;>
            refine ⟨?_, ?_, ?_, ?_, ?_⟩ <;>
            simp [setObj_objs, hpr, hnxz, hqpr, eq_comm]
        have hmp : (setObj s1 ((s1.objs pos).prev)
            { s1.objs ((s1.objs pos).prev) with next := 0 }).objs pos
            = s1.objs pos := setObj_objs_ne _ _ _ _ (Ne.symm hpp)
        by_cases hfc : ((setObj s1 ((s1.objs pos).prev)
              { s1.objs ((s1.objs pos).prev) with next := 0 }).objs pos).max_fire_count
              ≠ 0 ∧
            ((setObj s1 ((s1.objs pos).prev)
              { s1.objs ((s1.objs pos).prev) with next := 0 }).objs pos).fire_count ≥
            ((setObj s1 ((s1.objs pos).prev)
              { s1.objs ((s1.objs pos).prev) with next := 0 }).objs pos).max_fire_count
        · obtain ⟨l₁, l₂, hsplit, hnxh2, wfin⟩ :=
            walk_free_finish s1 F Ls w1 b pos hb hpm _ hmb hmo rfl rfl rfl
          rw [walkAux_step b tick now g pos s s1 _ _ tr hpos0 hused hs1 hS3eq.symm
            (if_pos hfc).symm] at hw
          rw [if_neg (by rintro ⟨hne, -⟩; exact hne hnxz)] at hw
          exact ih _ _ _ (pos :: F) _ wfin (Or.inl hnxz) out hw
        · obtain ⟨l₁, l₂, hsplit, hnxh2, wfin⟩ :=
            walk_rearm_finish now s1 F Ls w1 b pos hb hpm _ _ rfl
              hmb hmo rfl rfl rfl hmp
          rw [walkAux_step b tick now g pos s s1 _ _ tr hpos0 hused hs1 hS3eq.symm
            (if_neg hfc).symm] at hw
          rw [if_neg (by rintro ⟨hne, -⟩; exact hne hnxz)] at hw
          exact ih _ _ _ F _ wfin (Or.inl hnxz) out hw
      · -- interior, with successor
        have hS3eq : walkUnlink b pos s1 =
            setObj (setObj s1 ((s1.objs pos).prev)
                { s1.objs ((s1.objs pos).prev) with next := (s1.objs pos).next })
              ((s1.objs pos).next)
              { (setObj s1 ((s1.objs pos).prev)
                  { s1.objs ((s1.objs pos).prev) with
                    next := (s1.objs pos).next }).objs ((s1.objs pos).next) with
                prev := (s1.objs pos).prev } := by
          simp [walkUnlink, hpr, hnxz]
        have hmb : ∀ b', (setObj (setObj s1 ((s1.objs pos).prev)
                { s1.objs ((s1.objs pos).prev) with next := (s1.objs pos).next })
              ((s1.objs pos).next)
              { (setObj s1 ((s1.objs pos).prev)
                  { s1.objs ((s1.objs pos).prev) with
                    next := (s1.objs pos).next }).objs ((s1.objs pos).next) with
                prev := (s1.objs pos).prev }).buckets b' =
            if (s1.objs pos).prev = 0 ∧ b' = b then (s1.objs pos).next
            else s1.buckets b' := by
          intro b'
          simp [hpr]
        have hmo : ∀ q, q ≠ pos →
            (((setObj (setObj s1 ((s1.objs pos).prev)
                { s1.objs ((s1.objs pos).prev) with next := (s1.objs pos).next })
              ((s1.objs pos).next)
              { (setObj s1 ((s1.objs pos).prev)
                  { s1.objs ((s1.objs pos).prev) with
                    next := (s1.objs pos).next }).objs ((s1.objs pos).next) with
                prev := (s1.objs pos).prev }).objs q).next =
              (if (s1.objs pos).prev ≠ 0 ∧ q = (s1.objs pos).prev
                then (s1.objs pos).next else (s1.objs q).next)
            ∧ ((setObj (setObj s1 ((s1.objs pos).prev)
                { s1.objs ((s1.objs pos).prev) with next := (s1.objs pos).next })
              ((s1.objs pos).next)
              { (setObj s1 ((s1.objs pos).prev)
                  { s1.objs ((s1.objs pos).prev) with
                    next := (s1.objs pos).next }).objs ((s1.objs pos).next) with
                prev := (s1.objs pos).prev }).objs q).prev =
              (if (s1.objs pos).next ≠ 0 ∧ q = (s1.objs pos).next
                then (s1.objs pos).prev else (s1.objs q).prev)
            ∧ ((setObj (setObj s1 ((s1.objs pos).prev)
                { s1.objs ((s1.objs pos).prev) with next := (s1.objs pos).next })
              ((s1.objs pos).next)
              { (setObj s1 ((s1.objs pos).prev)
                  { s1.objs ((s1.objs pos).prev) with
                    next := (s1.objs pos).next }).objs ((s1.objs pos).next) with
                prev := (s1.objs pos).prev }).objs q).used = (s1.objs q).used
            ∧ ((setObj (setObj s1 ((s1.objs pos).prev)
                { s1.objs ((s1.objs pos).prev) with next := (s1.objs pos).next })
              ((s1.objs pos).next)
              { (setObj s1 ((s1.objs pos).prev)
                  { s1.objs ((s1.objs pos).prev) with
                    next := (s1.objs pos).next }).objs ((s1.objs pos).next) with
                prev := (s1.objs pos).prev }).objs q).idPos = (s1.objs q).idPos
            ∧ ((setObj (setObj s1 ((s1.objs pos).prev)
                { s1.objs ((s1.objs pos).prev) with next := (s1.objs pos).next })
              ((s1.objs pos).next)
              { (setObj s1 ((s1.objs pos).prev)
                  { s1.objs ((s1.objs pos).prev) with
                    next := (s1.objs pos).next }).objs ((s1.objs pos).next) with
                prev := (s1.objs pos).prev }).objs q).expire = (s1.objs q).expire) := by
          intro q hq
          by_cases hpn : (s1.objs pos).prev = (s1.objs pos).next <;>
            by_cases hqpr : q = (s1.objs pos).prev <;>
            by_cases hqnx : q = (s1.objs pos).next <;>
            refine ⟨?_, ?_, ?_, ?_, ?_⟩ <;>
            simp [setObj_objs, hpr, hnxz, hpn, hqpr, hqnx, eq_comm]
        have hmp : (setObj (setObj s1 ((s1.objs pos).prev)
                { s1.objs ((s1.objs pos).prev) with next := (s1.objs pos).next })
              ((s1.objs pos).next)
              { (setObj s1 ((s1.objs pos).prev)
                  { s1.objs ((s1.objs pos).prev) with
                    next := (s1.objs pos).next }).objs ((s1.objs pos).next) with
                prev := (s1.objs pos).prev }).objs pos = s1.objs pos := by
          rw [setObj_objs_ne _ _ _ _ (Ne.symm hnp),
            setObj_objs_ne _ _ _ _ (Ne.symm hpp)]
        by_cases hfc : ((setObj (setObj s1 ((s1.objs pos).prev)
                { s1.objs ((s1.objs pos).prev) with next := (s1.objs pos).next })
              ((s1.objs pos).next)
              { (setObj s1 ((s1.objs pos).prev)
                  { s1.objs ((s1.objs pos).prev) with
                    next := (s1.objs pos).next }).objs ((s1.objs pos).next) with
                prev := (s1.objs pos).prev }).objs pos).max_fire_count ≠ 0 ∧
            ((setObj (setObj s1 ((s1.objs pos).prev)
                { s1.objs ((s1.objs pos).prev) with next := (s1.objs pos).next })
              ((s1.objs pos).next)
              { (setObj s1 ((s1.objs pos).prev)
                  { s1.objs ((s1.objs pos).prev) with
                    next := (s1.objs pos).next }).objs ((s1.objs pos).next) with
                prev := (s1.objs pos).prev }).objs pos).fire_count ≥
            ((setObj (setObj s1 ((s1.objs pos).prev)
                { s1.objs ((s1.objs pos).prev) with next := (s1.objs pos).next })
              ((s1.objs pos).next)
              { (setObj s1 ((s1.objs pos).prev)
                  { s1.objs ((s1.objs pos).prev) with
                    next := (s1.objs pos).next }).objs ((s1.objs pos).next) with
                prev := (s1.objs pos).prev }).objs pos).max_fire_count
        · obtain ⟨l₁, l₂, hsplit, hnxh2, wfin⟩ :=
            walk_free_finish s1 F Ls w1 b pos hb hpm _ hmb hmo rfl rfl rfl
          rw [walkAux_step b tick now g pos s s1 _ _ tr hpos0 hused hs1 hS3eq.symm
            (if_pos hfc).symm] at hw
          have hnxmem : (s1.objs pos).next ∈ l₂ := by
            cases l₂ with
            | nil =>
              rw [hnxh2] at hnxz
              simp at hnxz
            | cons c t =>
              rw [hnxh2]
              simp
          have hmemF : (s1.objs pos).next ∈ (if b = b then l₁ ++ l₂ else Ls b) := by
            rw [if_pos rfl]
            exact List.mem_append_right _ hnxmem
          have husednx := wfin.hLused b hb _ hmemF
          rw [if_neg (by rintro ⟨-, hcu⟩; rw [husednx] at hcu; simp at hcu)] at hw
          exact ih _ _ _ (pos :: F) _ wfin (Or.inr hmemF) out hw
        · obtain ⟨l₁, l₂, hsplit, hnxh2, wfin⟩ :=
            walk_rearm_finish now s1 F Ls w1 b pos hb hpm _ _ rfl
              hmb hmo rfl rfl rfl hmp
          rw [walkAux_step b tick now g pos s s1 _ _ tr hpos0 hused hs1 hS3eq.symm
            (if_neg hfc).symm] at hw
          have hnxmem : (s1.objs pos).next ∈ l₂ := by
            cases l₂ with
            | nil =>
              rw [hnxh2] at hnxz
              simp at hnxz
            | cons c t =>
              rw [hnxh2]
              simp
          have hmemR : (s1.objs pos).next ∈
              (if b = (((now : Int) + (s1.objs pos).interval_ms)
                  % (kTimerBucketNum : Int)).toNat
                then pos :: (if (((now : Int) + (s1.objs pos).interval_ms)
                  % (kTimerBucketNum : Int)).toNat = b then l₁ ++ l₂
                  else Ls ((((now : Int) + (s1.objs pos).interval_ms)
                  % (kTimerBucketNum : Int)).toNat))
                else if b = b then l₁ ++ l₂ else Ls b) := by
            by_cases hbB : b = (((now : Int) + (s1.objs pos).interval_ms)
                % (kTimerBucketNum : Int)).toNat
            · rw [if_pos hbB, if_pos hbB.symm]
              exact List.mem_cons_of_mem _ (List.mem_append_right _ hnxmem)
            · rw [if_neg hbB, if_pos rfl]
              exact List.mem_append_right _ hnxmem
          have husednx := wfin.hLused b hb _ hmemR
          rw [if_neg (by rintro ⟨-, hcu⟩; rw [husednx] at hcu; simp at hcu)] at hw
          exact ih _ _ _ F _ wfin (Or.inr hmemR) out hw

theorem wf_updateAux (fuel now t0 : Nat) :
    ∀ (n i : Nat) (s : TimerState) (tr : Trace) (F : List Nat) (Ls : Nat → List Nat),
      WFData s F Ls → ∀ out : TimerState × Trace,
      updateAux passiveCb fuel now t0 n i s tr = some out →
      ∃ F' Ls', WFData out.1 F' Ls' := by
  intro n
  induction n with
  | zero =>
    intro i s tr F Ls w out hu
    rw [updateAux] at hu
    obtain rfl : (s, tr) = out := by injection hu
    exact ⟨F, Ls, w⟩
  | succ m ih =>
    intro i s tr F Ls w out hu
    rw [updateAux] at hu
    have hBlt : (s.cur_bucket_pos + i) % kTimerBucketNum < kTimerBucketNum := by
      unfold kTimerBucketNum
      omega
    have hhead : s.buckets ((s.cur_bucket_pos + i) % kTimerBucketNum) = 0 ∨
        s.buckets ((s.cur_bucket_pos + i) % kTimerBucketNum)
          ∈ Ls ((s.cur_bucket_pos + i) % kTimerBucketNum) := by
      have hc := w.hL _ hBlt
      have hh := chain_head s hc
      rcases hE : Ls ((s.cur_bucket_pos + i) % kTimerBucketNum) with _ | ⟨c, t⟩
      · left
        rw [hE] at hh
        simpa using hh
      · right
        rw [hE] at hh
        rw [hh]
        simp
    cases hwalk : walkAux passiveCb ((s.cur_bucket_pos + i) % kTimerBucketNum)
        (t0 + i) now fuel (s.buckets ((s.cur_bucket_pos + i) % kTimerBucketNum)) s tr with
    | none =>
      rw [hwalk] at hu
      simp at hu
    | some st =>
      obtain ⟨s1, tr1⟩ := st
      rw [hwalk] at hu
      obtain ⟨F1, Ls1, w1⟩ := wf_walk ((s.cur_bucket_pos + i) % kTimerBucketNum)
        (t0 + i) now hBlt fuel _ s tr F Ls w hhead (s1, tr1) hwalk
      exact ih (i + 1) s1 tr1 F1 Ls1 w1 out hu

theorem wf_update (fuel now : Nat) (s : TimerState) (F : List Nat)
    (Ls : Nat → List Nat) (w : WFData s F Ls) (out : TimerState × Trace)
    (hu : update passiveCb fuel now s = some out) : ∃ F' Ls', WFData out.1 F' Ls' := by
  unfold update at hu
  by_cases h0 : s.used_num = 0
  · rw [if_pos h0] at hu
    obtain rfl : ({ s with
        cur_bucket_time := now,
        cur_bucket_pos := now % kTimerBucketNum }, ([] : Trace)) = out := by
      injection hu
    refine ⟨F, Ls, ?_⟩
    exact wf_congr s _ F Ls w rfl rfl rfl (fun b' => rfl)
      (fun q => ⟨rfl, rfl, rfl, rfl, rfl⟩)
  · rw [if_neg h0] at hu
    dsimp only at hu
    cases hua : updateAux passiveCb fuel now s.cur_bucket_time
        ((now : Int) - (s.cur_bucket_time : Int)).toNat 1 s [] with
    | none =>
      rw [hua] at hu
      simp at hu
    | some st =>
      obtain ⟨s1, tr1⟩ := st
      rw [hua] at hu
      obtain ⟨F1, Ls1, w1⟩ := wf_updateAux fuel now s.cur_bucket_time
        (((now : Int) - (s.cur_bucket_time : Int)).toNat) 1 s [] F Ls w (s1, tr1) hua
      obtain rfl : ({ s1 with
          cur_bucket_pos := now % kTimerBucketNum,
          cur_bucket_time := now }, tr1) = out := by injection hu
      exact ⟨F1, Ls1, wf_congr s1 _ F1 Ls1 w1 rfl rfl rfl (fun b' => rfl)
        (fun q => ⟨rfl, rfl, rfl, rfl, rfl⟩)⟩

theorem wf_reach (s : TimerState) (h : Reach s) : ∃ F Ls, WFData s F Ls := by
  induction h with
  | init n t z h1 h2 => exact ⟨List.range' 1 n, fun _ => [], initFresh_wf n t z h1 h2⟩
  | add now iv k d s h ih =>
    obtain ⟨F, Ls, w⟩ := ih
    exact wf_addTimer now iv k d s F Ls w
  | del tid s h ih =>
    obtain ⟨F, Ls, w⟩ := ih
    exact wf_delTimer tid s F Ls w
  | upd fuel now s s1 tr h hu ih =>
    obtain ⟨F, Ls, w⟩ := ih
    exact wf_update fuel now s F Ls w (s1, tr) hu

/-- C8: in every wheel state reachable by a fresh `Init` followed by any
sequence of `AddTimer`, `DelTimer` and completed `Update` calls, `used_num`
equals the number of slots linked into the 60 bucket lists, and `used_num`
never exceeds the configured capacity `max_num`. -/
theorem used_num_equals_linked_count (s : TimerState) (h : Reach s) :
    s.used_num = linkedCount s ∧ s.used_num ≤ s.max_num := by
  obtain ⟨F, Ls, w⟩ := wf_reach s h
  exact ⟨(wf_linkedCount s F Ls w).symm, wf_used_le s F Ls w⟩

theorem used_num_equals_linked_count_witness :
    (addTimer 0 5 1 7 (initFresh 2 0 0)).2.used_num
        = linkedCount (addTimer 0 5 1 7 (initFresh 2 0 0)).2
      ∧ (addTimer 0 5 1 7 (initFresh 2 0 0)).2.used_num
        ≤ (addTimer 0 5 1 7 (initFresh 2 0 0)).2.max_num :=
  used_num_equals_linked_count (addTimer 0 5 1 7 (initFresh 2 0 0)).2
    (Reach.add 0 5 1 7 (initFresh 2 0 0)
      (Reach.init 2 0 0 (by norm_num) (by unfold W32; norm_num)))
